import Mathlib

/-!
# MeshAgent audio capture — verification development

A shallow embedding of `meshcore/AudioCapture` (the Opus encoder wrapper and the
PulseAudio / CoreAudio / WASAPI capture backends) together with theorems about it.

Conventions of the embedding

* C `int` / `int32_t` values are `Int`; the one arithmetic expression that can
  overflow (`sampleRate * 20`) is wrapped to 32 bits explicitly.
* A pointer to a structure that is modelled is an `Option` (`none` is `NULL`);
  an opaque native handle is a `Nat` (`0` is `NULL`).
* Every call into a native library is appended to a call log, so that
  "the codec is not invoked" is a statement about that log.  The results of the
  native calls come from an oracle structure whose functions see the whole log
  of earlier calls, so they stand for an arbitrary stateful library.
* `printf` / `fprintf` diagnostics and `opus_strerror` are not modelled.
* `UInt32` / `uint32_t` products are natural numbers wrapped to 32 bits explicitly.
* A loop takes a fuel argument and reports when the fuel is used up before the loop
  exits; the flag `isCapturing`, which the owner of the session may clear while the
  capture thread runs, is given to the loop as the value each of its tests finds.
* A call through a null interface pointer (Windows) is an undefined result, kept
  apart from every defined one.
* The sample conversion of the macOS backend is embedded over a model of binary32
  arithmetic; the exact (rational) value of a sample serves only to state how the
  result of the conversion relates to it.
-/

namespace AudioCapture

/-! ## Machine arithmetic -/

/-- Two's-complement wrap of an integer to the 32-bit `int` range. -/
def wrapInt32 (x : Int) : Int := (x + 2147483648) % 4294967296 - 2147483648

/-- C integer division of two `int` values (truncation toward zero). -/
def cDiv (a b : Int) : Int := Int.tdiv a b

/-- Wrap of a natural number to the 32-bit `unsigned int` / `uint32_t` range. -/
def wrapUInt32 (x : Nat) : Nat := x % 4294967296

/-- What a `GetFormat` function leaves behind: the session and the content of the
three output locations (`none` for a null output pointer). -/
structure FormatOutcome (S : Type) where
  capture : Option S
  sampleRate : Option Nat
  channels : Option Nat
  bitsPerSample : Option Nat
  deriving DecidableEq, Repr

/-! ## Opus encoder wrapper (`opus_encoder_wrapper.c`) -/

/-- The request argument of `opus_encoder_ctl`, as built by the `OPUS_SET_*` macros. -/
inductive CtlRequest
  | OPUS_SET_BITRATE (x : Int)
  | OPUS_SET_COMPLEXITY (x : Int)
  | OPUS_SET_SIGNAL (x : Int)
  | OPUS_SET_VBR (x : Int)
  | OPUS_SET_INBAND_FEC (x : Int)
  | OPUS_SET_PACKET_LOSS_PERC (x : Int)
  deriving DecidableEq, Repr

/-- One call into the Opus library, with its arguments. -/
inductive OpusCall
  | opus_encoder_create (Fs : Int) (channels : Int) (application : Int)
  | opus_encoder_ctl (st : Nat) (request : CtlRequest)
  | opus_encode (st : Nat) (pcm : List Int) (frame_size : Int) (data : Nat)
      (max_data_bytes : Int)
  | opus_encoder_destroy (st : Nat)
  deriving DecidableEq, Repr

/-- The Opus library as seen by the wrapper: its constants and the results of its
calls.  Each function receives the log of the calls made before it. -/
structure OpusLib where
  /-- The library's success code. -/
  OPUS_OK : Int
  /-- The signal-type constant passed to `OPUS_SET_SIGNAL`. -/
  OPUS_SIGNAL_MUSIC : Int
  /-- Returns the new encoder handle and the value written to `*error`. -/
  opus_encoder_create : List OpusCall → Int → Int → Int → Nat × Int
  /-- Returns the control call's error code. -/
  opus_encoder_ctl : List OpusCall → Nat → CtlRequest → Int
  /-- Returns the number of bytes written, or a negative error code. -/
  opus_encode : List OpusCall → Nat → List Int → Int → Nat → Int → Int

/-- The C structure `OpusEncoderWrapper`. -/
structure OpusEncoderWrapper where
  encoder : Nat
  sampleRate : Int
  channels : Int
  bitrate : Int
  frameSize : Int
  isInitialized : Int
  deriving DecidableEq, Repr

/-- The wrapper after `memset(wrapper, 0, sizeof(OpusEncoderWrapper))`. -/
def OpusEncoderWrapper.zeroed : OpusEncoderWrapper :=
  { encoder := 0, sampleRate := 0, channels := 0, bitrate := 0, frameSize := 0,
    isInitialized := 0 }

/-- What a wrapper function leaves behind: its return value, the structure behind
the `wrapper` pointer and the log of Opus calls. -/
structure EncOutcome where
  ret : Int
  wrapper : Option OpusEncoderWrapper
  calls : List OpusCall
  deriving DecidableEq, Repr

/-- The six configuration calls issued by `OpusEncoder_Initialize`, in order. -/
def initCtlCalls (lib : OpusLib) (enc : Nat) (bitrate : Int) : List OpusCall :=
  [ .opus_encoder_ctl enc (.OPUS_SET_BITRATE bitrate),
    .opus_encoder_ctl enc (.OPUS_SET_COMPLEXITY 10),
    .opus_encoder_ctl enc (.OPUS_SET_SIGNAL lib.OPUS_SIGNAL_MUSIC),
    .opus_encoder_ctl enc (.OPUS_SET_VBR 1),
    .opus_encoder_ctl enc (.OPUS_SET_INBAND_FEC 1),
    .opus_encoder_ctl enc (.OPUS_SET_PACKET_LOSS_PERC 0) ]

/-- `OpusEncoder_Initialize` of `opus_encoder_wrapper.c`. -/
def OpusEncoder_Initialize (lib : OpusLib) (calls : List OpusCall)
    (wrapper : Option OpusEncoderWrapper)
    (sampleRate channels bitrate application : Int) : EncOutcome :=
  match wrapper with
  | none => ⟨-1, none, calls⟩
  | some _ =>
    let w0 := OpusEncoderWrapper.zeroed
    if channels < 1 ∨ channels > 2 then ⟨-1, some w0, calls⟩
    else if sampleRate ≠ 8000 ∧ sampleRate ≠ 12000 ∧ sampleRate ≠ 16000 ∧
        sampleRate ≠ 24000 ∧ sampleRate ≠ 48000 then ⟨-1, some w0, calls⟩
    else
      let w1 := { w0 with
        sampleRate := sampleRate, channels := channels, bitrate := bitrate,
        frameSize := cDiv (wrapInt32 (sampleRate * 20)) 1000 }
      let created := lib.opus_encoder_create calls sampleRate channels application
      let calls1 := calls ++ [.opus_encoder_create sampleRate channels application]
      let w2 := { w1 with encoder := created.1 }
      if created.2 ≠ lib.OPUS_OK then ⟨-1, some w2, calls1⟩
      else
        ⟨0, some { w2 with isInitialized := 1 },
          calls1 ++ initCtlCalls lib created.1 bitrate⟩

/-- `OpusEncoder_Encode` of `opus_encoder_wrapper.c`.  `pcm` is the input buffer
(`none` is `NULL`), `output` the address of the output buffer (`0` is `NULL`). -/
def OpusEncoder_Encode (lib : OpusLib) (calls : List OpusCall)
    (wrapper : Option OpusEncoderWrapper)
    (pcm : Option (List Int)) (frameSize : Int) (output : Nat) (maxOutputSize : Int) :
    EncOutcome :=
  match wrapper with
  | none => ⟨-1, none, calls⟩
  | some w =>
    if w.isInitialized = 0 ∨ w.encoder = 0 then ⟨-1, some w, calls⟩
    else
      match pcm with
      | none => ⟨-1, some w, calls⟩
      | some samples =>
        if output = 0 then ⟨-1, some w, calls⟩
        else if frameSize ≠ w.frameSize then ⟨-1, some w, calls⟩
        else
          let encodedBytes :=
            lib.opus_encode calls w.encoder samples frameSize output maxOutputSize
          let calls1 :=
            calls ++ [.opus_encode w.encoder samples frameSize output maxOutputSize]
          if encodedBytes < 0 then ⟨-1, some w, calls1⟩
          else ⟨encodedBytes, some w, calls1⟩

/-- `OpusEncoder_GetFrameSize` of `opus_encoder_wrapper.c`. -/
def OpusEncoder_GetFrameSize (wrapper : Option OpusEncoderWrapper) : Int :=
  match wrapper with
  | none => -1
  | some w => if w.isInitialized = 0 then -1 else w.frameSize

/-- `OpusEncoder_SetBitrate` of `opus_encoder_wrapper.c`. -/
def OpusEncoder_SetBitrate (lib : OpusLib) (calls : List OpusCall)
    (wrapper : Option OpusEncoderWrapper) (bitrate : Int) : EncOutcome :=
  match wrapper with
  | none => ⟨-1, none, calls⟩
  | some w =>
    if w.isInitialized = 0 ∨ w.encoder = 0 then ⟨-1, some w, calls⟩
    else
      let error := lib.opus_encoder_ctl calls w.encoder (.OPUS_SET_BITRATE bitrate)
      let calls1 := calls ++ [.opus_encoder_ctl w.encoder (.OPUS_SET_BITRATE bitrate)]
      if error ≠ lib.OPUS_OK then ⟨-1, some w, calls1⟩
      else ⟨0, some { w with bitrate := bitrate }, calls1⟩

/-- `OpusEncoder_SetComplexity` of `opus_encoder_wrapper.c`. -/
def OpusEncoder_SetComplexity (lib : OpusLib) (calls : List OpusCall)
    (wrapper : Option OpusEncoderWrapper) (complexity : Int) : EncOutcome :=
  match wrapper with
  | none => ⟨-1, none, calls⟩
  | some w =>
    if w.isInitialized = 0 ∨ w.encoder = 0 then ⟨-1, some w, calls⟩
    else if complexity < 0 ∨ complexity > 10 then ⟨-1, some w, calls⟩
    else
      let error :=
        lib.opus_encoder_ctl calls w.encoder (.OPUS_SET_COMPLEXITY complexity)
      let calls1 :=
        calls ++ [.opus_encoder_ctl w.encoder (.OPUS_SET_COMPLEXITY complexity)]
      if error ≠ lib.OPUS_OK then ⟨-1, some w, calls1⟩
      else ⟨0, some w, calls1⟩

/-- `OpusEncoder_Cleanup` of `opus_encoder_wrapper.c` (a `void` function: the
outcome is the structure behind the pointer and the call log). -/
def OpusEncoder_Cleanup (calls : List OpusCall) (wrapper : Option OpusEncoderWrapper) :
    Option OpusEncoderWrapper × List OpusCall :=
  match wrapper with
  | none => (none, calls)
  | some w =>
    if w.encoder ≠ 0 then
      (some { w with encoder := 0, isInitialized := 0 },
        calls ++ [.opus_encoder_destroy w.encoder])
    else
      (some { w with isInitialized := 0 }, calls)

/-- A library used for concrete evaluations: creation yields handle `7` with
`OPUS_OK`, control calls succeed, and `opus_encode` writes a three-byte packet, or
reports `-2` (the library's buffer-too-small code) when `max_data_bytes < 3`. -/
def demoLib : OpusLib :=
  { OPUS_OK := 0
    OPUS_SIGNAL_MUSIC := 3002
    opus_encoder_create := fun _ _ _ _ => (7, 0)
    opus_encoder_ctl := fun _ _ _ => 0
    opus_encode := fun _ _ _ _ _ maxBytes => if maxBytes < 3 then -2 else 3 }

/-- A library whose control calls fail with `-1` (everything else as `demoLib`). -/
def failingCtlLib : OpusLib :=
  { demoLib with opus_encoder_ctl := fun _ _ _ => -1 }

/-- An initialized stereo 48 kHz wrapper holding the live handle `7`. -/
def demoWrapper : OpusEncoderWrapper :=
  { encoder := 7, sampleRate := 48000, channels := 2, bitrate := 64000,
    frameSize := 960, isInitialized := 1 }

/-! ## IEEE-754 binary32 arithmetic (the C type `Float32` of the macOS backend) -/

/-- A binary32 value: a NaN, an infinity, or the finite number `m * 2 ^ e`.
(The sign of zero is not kept; it does not influence a conversion to an integer.) -/
inductive Float32
  | nan
  | inf (negative : Bool)
  | finite (m : Int) (e : Int)
  deriving Repr

namespace Float32

/-- The constant `1.0f`. -/
def one : Float32 := finite 1 0

/-- The constant `-1.0f`. -/
def negOne : Float32 := finite (-1) 0

/-- The constant `32767.0f`. -/
def c32767 : Float32 := finite 32767 0

/-- The C comparison `a < b` (false as soon as one operand is a NaN). -/
def lt : Float32 → Float32 → Bool
  | nan, _ => false
  | _, nan => false
  | inf true, inf true => false
  | inf true, _ => true
  | _, inf true => false
  | inf false, _ => false
  | finite _ _, inf false => true
  | finite m1 e1, finite m2 e2 =>
    decide (m1 * 2 ^ (e1 - min e1 e2).toNat < m2 * 2 ^ (e2 - min e1 e2).toNat)

/-- The C comparison `a > b`. -/
def gt (a b : Float32) : Bool := lt b a

/-- How many low bits of the magnitude `n` have to go for it to fit the 24-bit
significand (the first argument is recursion fuel). -/
def excessBits : Nat → Nat → Nat
  | 0, _ => 0
  | fuel + 1, n => if n < 16777216 then 0 else excessBits fuel (n / 2) + 1

/-- Rounds the exact value `m * 2 ^ e` to binary32: nearest representable value,
ties to even, gradual underflow down to `2 ^ (-149)`, overflow to infinity (a
rounded magnitude `q1 * 2 ^ e1` of `2 ^ 128` or more). -/
def round (m e : Int) : Float32 :=
  let n := m.natAbs
  let e1 := max (e + (excessBits n n : Int)) (-149)
  let k := (e1 - e).toNat
  let q := n / 2 ^ k
  let r := n % 2 ^ k
  let q1 := if 2 * r > 2 ^ k ∨ (2 * r = 2 ^ k ∧ q % 2 = 1) then q + 1 else q
  if 2 ^ (128 - e1).toNat ≤ q1 then inf (decide (m < 0))
  else finite (if m < 0 then -(q1 : Int) else (q1 : Int)) e1

/-- The C product `a * b` of two binary32 values. -/
def mul : Float32 → Float32 → Float32
  | nan, _ => nan
  | _, nan => nan
  | inf s, inf t => inf (s != t)
  | inf s, finite m _ => if m = 0 then nan else inf (s != decide (m < 0))
  | finite m _, inf s => if m = 0 then nan else inf (s != decide (m < 0))
  | finite m1 e1, finite m2 e2 => round (m1 * m2) (e1 + e2)

/-- The C cast `(int16_t)x`: the fractional part is discarded; the behaviour is
undefined (`none`) for a NaN, an infinity, or an integral part outside `int16_t`. -/
def toInt16 : Float32 → Option Int
  | nan => none
  | inf _ => none
  | finite m e =>
    let t := if 0 ≤ e then m * 2 ^ e.toNat else Int.tdiv m (2 ^ (-e).toNat)
    if -32768 ≤ t ∧ t ≤ 32767 then some t else none

end Float32

/-! ## macOS backend (`MacOS/coreaudio_capture.c`) -/

/-- The body of the conversion loop of `InputCallback`: clamp the sample to
`[-1.0f, 1.0f]`, multiply by `32767.0f`, cast to `int16_t`. -/
def InputCallback_convertSample (sample : Float32) : Option Int :=
  let s1 := if Float32.gt sample Float32.one then Float32.one else sample
  let s2 := if Float32.lt s1 Float32.negOne then Float32.negOne else s1
  Float32.toInt16 (Float32.mul s2 Float32.c32767)

/-- The status `noErr` of `MacTypes.h`. -/
def noErr : Int := 0

/-- The status `kAudioUnitErr_Uninitialized` of `AUComponent.h`. -/
def kAudioUnitErr_Uninitialized : Int := -10867

/-- The status `kAudioUnitErr_NoConnection` of `AUComponent.h`. -/
def kAudioUnitErr_NoConnection : Int := -10876

/-- The status `paramErr` of `MacErrors.h`. -/
def paramErr : Int := -50

/-- The C structure `CoreAudio_Capture`. -/
structure CoreAudio_Capture where
  audioUnit : Nat
  isCapturing : Int
  isInitialized : Int
  sampleRate : Nat
  channels : Nat
  bitsPerSample : Nat
  callback : Nat
  userData : Nat
  deriving DecidableEq, Repr

/-- The property set by one `AudioUnitSetProperty` call of
`CoreAudio_Capture_Initialize`, with the value passed. -/
inductive AUProperty
  | EnableIO_Input ( enableIO : Nat)
  | EnableIO_Output ( enableIO : Nat)
  | CurrentDevice (device : Nat)
  | StreamFormat (sampleRate : Nat) (channels : Nat) (bitsPerChannel : Nat)
  | SetInputCallback
  deriving DecidableEq, Repr

/-- One call of the macOS backend into Core Audio or the C allocator, or one
invocation of the registered callback (`free` of the scratch buffers is not
logged). -/
inductive CoreAudioCall
  | AudioOutputUnitStart (ci : Nat)
  | AudioOutputUnitStop (ci : Nat)
  | AudioComponentFindNext
  | AudioComponentInstanceNew (component : Nat)
  | AudioUnitSetProperty (unit : Nat) (property : AUProperty)
  | AudioObjectGetPropertyData
  | AudioUnitInitialize (unit : Nat)
  | AudioUnitUninitialize (unit : Nat)
  | AudioComponentInstanceDispose (unit : Nat)
  | AudioUnitRender (unit : Nat) (inNumberFrames : Nat)
  | malloc (size : Nat)
  | callback (fn : Nat) (audioData : List Int) (dataSize : Nat) (sampleRate : Nat)
      (channels : Nat) (bitsPerSample : Nat) (userData : Nat)
  deriving DecidableEq, Repr

/-- Core Audio and the allocator as seen by the backend: the result of each call,
given the log of the earlier calls. -/
structure CoreAudioOS where
  AudioOutputUnitStart : List CoreAudioCall → Nat → Int
  /-- The component found (`0` is `NULL`). -/
  AudioComponentFindNext : List CoreAudioCall → Nat
  /-- Given the component: the status and the content of `capture->audioUnit`
  afterwards. -/
  AudioComponentInstanceNew : List CoreAudioCall → Nat → Int × Nat
  AudioUnitSetProperty : List CoreAudioCall → Nat → AUProperty → Int
  /-- The status and the default output device. -/
  AudioObjectGetPropertyData : List CoreAudioCall → Int × Nat
  AudioUnitInitialize : List CoreAudioCall → Nat → Int
  /-- Given the unit and the frame count: the status and the content of the float
  buffer afterwards (sample index to value). -/
  AudioUnitRender : List CoreAudioCall → Nat → Nat → Int × (Nat → Float32)
  /-- Whether the allocation of that many bytes succeeds. -/
  malloc : List CoreAudioCall → Nat → Bool

/-- Return value, structure behind the pointer and call log of a macOS function. -/
structure CoreAudioOutcome where
  ret : Int
  capture : Option CoreAudio_Capture
  calls : List CoreAudioCall
  deriving DecidableEq, Repr

/-- `CoreAudio_Capture_Start` of `coreaudio_capture.c`. -/
def CoreAudio_Capture_Start (os : CoreAudioOS) (calls : List CoreAudioCall)
    (capture : Option CoreAudio_Capture) : CoreAudioOutcome :=
  match capture with
  | none => ⟨kAudioUnitErr_Uninitialized, none, calls⟩
  | some c =>
    if c.isInitialized = 0 then ⟨kAudioUnitErr_Uninitialized, some c, calls⟩
    else if c.isCapturing ≠ 0 then ⟨noErr, some c, calls⟩
    else
      let status := os.AudioOutputUnitStart calls c.audioUnit
      let calls1 := calls ++ [.AudioOutputUnitStart c.audioUnit]
      if status ≠ noErr then ⟨status, some c, calls1⟩
      else ⟨noErr, some { c with isCapturing := 1 }, calls1⟩

/-- `CoreAudio_Capture_Stop` of `coreaudio_capture.c`. -/
def CoreAudio_Capture_Stop (calls : List CoreAudioCall)
    (capture : Option CoreAudio_Capture) :
    Option CoreAudio_Capture × List CoreAudioCall :=
  match capture with
  | none => (none, calls)
  | some c =>
    if c.isCapturing = 0 then (some c, calls)
    else
      (some { c with isCapturing := 0 }, calls ++ [.AudioOutputUnitStop c.audioUnit])

/-- The session after `memset(capture, 0, sizeof(CoreAudio_Capture))`. -/
def CoreAudio_Capture.zeroed : CoreAudio_Capture :=
  { audioUnit := 0, isCapturing := 0, isInitialized := 0, sampleRate := 0,
    channels := 0, bitsPerSample := 0, callback := 0, userData := 0 }

/-- `CoreAudio_Capture_Initialize` of `coreaudio_capture.c`. -/
def CoreAudio_Capture_Initialize (os : CoreAudioOS) (calls : List CoreAudioCall)
    (capture : Option CoreAudio_Capture) : CoreAudioOutcome :=
  match capture with
  | none => ⟨paramErr, none, calls⟩
  | some _ =>
    let c1 := { CoreAudio_Capture.zeroed with
      sampleRate := 48000, channels := 2, bitsPerSample := 16 }
    let component := os.AudioComponentFindNext calls
    let calls1 := calls ++ [.AudioComponentFindNext]
    if component = 0 then ⟨kAudioUnitErr_NoConnection, some c1, calls1⟩
    else
      let created := os.AudioComponentInstanceNew calls1 component
      let calls2 := calls1 ++ [.AudioComponentInstanceNew component]
      let c2 := { c1 with audioUnit := created.2 }
      if created.1 ≠ noErr then ⟨created.1, some c2, calls2⟩
      else
        let st3 := os.AudioUnitSetProperty calls2 c2.audioUnit (.EnableIO_Input 1)
        let calls3 := calls2 ++ [.AudioUnitSetProperty c2.audioUnit (.EnableIO_Input 1)]
        if st3 ≠ noErr then ⟨st3, some c2, calls3⟩
        else
          let calls4 := calls3 ++ [.AudioUnitSetProperty c2.audioUnit (.EnableIO_Output 0)]
          let dev := os.AudioObjectGetPropertyData calls4
          let calls5 := calls4 ++ [.AudioObjectGetPropertyData]
          if dev.1 ≠ noErr then ⟨dev.1, some c2, calls5⟩
          else
            let st6 := os.AudioUnitSetProperty calls5 c2.audioUnit (.CurrentDevice dev.2)
            let calls6 := calls5 ++
              [.AudioUnitSetProperty c2.audioUnit (.CurrentDevice dev.2)]
            if st6 ≠ noErr then ⟨st6, some c2, calls6⟩
            else
              let st7 := os.AudioUnitSetProperty calls6 c2.audioUnit
                (.StreamFormat c2.sampleRate c2.channels 32)
              let calls7 := calls6 ++ [.AudioUnitSetProperty c2.audioUnit
                (.StreamFormat c2.sampleRate c2.channels 32)]
              if st7 ≠ noErr then ⟨st7, some c2, calls7⟩
              else
                let st8 := os.AudioUnitSetProperty calls7 c2.audioUnit .SetInputCallback
                let calls8 := calls7 ++
                  [.AudioUnitSetProperty c2.audioUnit .SetInputCallback]
                if st8 ≠ noErr then ⟨st8, some c2, calls8⟩
                else
                  let st9 := os.AudioUnitInitialize calls8 c2.audioUnit
                  let calls9 := calls8 ++ [.AudioUnitInitialize c2.audioUnit]
                  if st9 ≠ noErr then ⟨st9, some c2, calls9⟩
                  else ⟨noErr, some { c2 with isInitialized := 1 }, calls9⟩

/-- `CoreAudio_Capture_SetCallback` of `coreaudio_capture.c`. -/
def CoreAudio_Capture_SetCallback (capture : Option CoreAudio_Capture)
    (callback userData : Nat) : Option CoreAudio_Capture :=
  match capture with
  | none => none
  | some c => some { c with callback := callback, userData := userData }

/-- `CoreAudio_Capture_Cleanup` of `coreaudio_capture.c`. -/
def CoreAudio_Capture_Cleanup (calls : List CoreAudioCall)
    (capture : Option CoreAudio_Capture) :
    Option CoreAudio_Capture × List CoreAudioCall :=
  match capture with
  | none => (none, calls)
  | some c =>
    match CoreAudio_Capture_Stop calls (some c) with
    | (none, calls1) => (none, calls1)
    | (some c1, calls1) =>
      if c1.audioUnit ≠ 0 ∧ c1.isInitialized ≠ 0 then
        (some { c1 with audioUnit := 0, isInitialized := 0 },
          calls1 ++ [ CoreAudioCall.AudioUnitUninitialize c1.audioUnit,
                     .AudioComponentInstanceDispose c1.audioUnit])
      else (some { c1 with isInitialized := 0 }, calls1)

/-- The conversion loop of `InputCallback` over the samples of the float buffer;
`none` when the cast of a sample is undefined. -/
def InputCallback_convertBuffer : List Float32 → Option (List Int)
  | [] => some []
  | sample :: rest =>
    match InputCallback_convertSample sample, InputCallback_convertBuffer rest with
    | some v, some vs => some (v :: vs)
    | _, _ => none

/-- `InputCallback` of `coreaudio_capture.c`, for the session `c` registered as
`inRefCon`.  The result is `none` when the conversion of a sample is undefined.
The procedure assigns to no field of the session. -/
def InputCallback (os : CoreAudioOS) (calls : List CoreAudioCall)
    (c : CoreAudio_Capture) (inNumberFrames : Nat) : Option CoreAudioOutcome :=
  let numSamples := wrapUInt32 (inNumberFrames * c.channels)
  let bufferSizeFloat := numSamples * 4
  let calls1 := calls ++ [.malloc bufferSizeFloat]
  if os.malloc calls bufferSizeFloat = false then some ⟨noErr, some c, calls1⟩
  else
    let rendered := os.AudioUnitRender calls1 c.audioUnit inNumberFrames
    let calls2 := calls1 ++ [.AudioUnitRender c.audioUnit inNumberFrames]
    if rendered.1 = noErr ∧ c.callback ≠ 0 then
      let bufferSizeInt16 := numSamples * 2
      let calls3 := calls2 ++ [.malloc bufferSizeInt16]
      if os.malloc calls2 bufferSizeInt16 = false then
        some ⟨rendered.1, some c, calls3⟩
      else
        match InputCallback_convertBuffer ((List.range numSamples).map rendered.2) with
        | none => none
        | some int16Buffer =>
          some ⟨rendered.1, some c,
            calls3 ++ [.callback c.callback int16Buffer bufferSizeInt16 c.sampleRate
              c.channels c.bitsPerSample c.userData]⟩
    else some ⟨rendered.1, some c, calls2⟩

/-- `CoreAudio_Capture_GetFormat` of `coreaudio_capture.c`.  Each output pointer is
`none` when null, else the current content of the location it points to. -/
def CoreAudio_Capture_GetFormat (capture : Option CoreAudio_Capture)
    (sampleRate channels bitsPerSample : Option Nat) :
    FormatOutcome CoreAudio_Capture :=
  match capture with
  | none =>
    ⟨none, sampleRate.map (fun _ => 0), channels.map (fun _ => 0),
      bitsPerSample.map (fun _ => 0)⟩
  | some c =>
    if c.isInitialized = 0 then
      ⟨some c, sampleRate.map (fun _ => 0), channels.map (fun _ => 0),
        bitsPerSample.map (fun _ => 0)⟩
    else
      ⟨some c, sampleRate.map (fun _ => c.sampleRate),
        channels.map (fun _ => c.channels),
        bitsPerSample.map (fun _ => c.bitsPerSample)⟩

/-! ## Linux backend (`Linux/pulseaudio_capture.c`) -/

/-- The C structure `PulseAudio_Capture`. -/
structure PulseAudio_Capture where
  pulseAudio : Nat
  captureThread : Nat
  isCapturing : Int
  isInitialized : Int
  sampleRate : Nat
  channels : Nat
  bitsPerSample : Nat
  bufferSize : Nat
  callback : Nat
  userData : Nat
  deriving DecidableEq, Repr

/-- One call of the Linux backend into the thread library, the PulseAudio simple
API or the C allocator, or one invocation of the registered callback
(`free` of the scratch buffer is not logged). -/
inductive PulseCall
  | pthread_create
  | pthread_join (thread : Nat)
  | pa_simple_new (rate : Nat) (channels : Nat) (fragsize : Nat)
  | pa_simple_free (s : Nat)
  | pa_simple_read (s : Nat) (bytes : Nat)
  | malloc (size : Nat)
  | callback (fn : Nat) (audioData : List Nat) (dataSize : Nat) (sampleRate : Nat)
      (channels : Nat) (bitsPerSample : Nat) (userData : Nat)
  deriving DecidableEq, Repr

/-- The thread library, PulseAudio and the allocator as seen by the backend. -/
structure PulseOS where
  /-- Given the log and the current content of `*thread`, returns the result code
  and the content of `*thread` afterwards. -/
  pthread_create : List PulseCall → Nat → Int × Nat
  /-- The new stream handle (`0` is `NULL`). -/
  pa_simple_new : List PulseCall → Nat
  /-- Given the stream and the byte count, the result code and the bytes read. -/
  pa_simple_read : List PulseCall → Nat → Nat → Int × List Nat
  /-- Whether the allocation of that many bytes succeeds. -/
  malloc : List PulseCall → Nat → Bool

/-- Return value, structure behind the pointer and call log of a Linux function. -/
structure PulseOutcome where
  ret : Int
  capture : Option PulseAudio_Capture
  calls : List PulseCall
  deriving DecidableEq, Repr

/-- `PulseAudio_Capture_Start` of `pulseaudio_capture.c`.  The new thread runs
`CaptureThreadProc` concurrently; Start itself only creates it. -/
def PulseAudio_Capture_Start (os : PulseOS) (calls : List PulseCall)
    (capture : Option PulseAudio_Capture) : PulseOutcome :=
  match capture with
  | none => ⟨-1, none, calls⟩
  | some c =>
    if c.isInitialized = 0 then ⟨-1, some c, calls⟩
    else if c.isCapturing ≠ 0 then ⟨0, some c, calls⟩
    else
      let result := os.pthread_create calls c.captureThread
      let c1 := { c with isCapturing := 1, captureThread := result.2 }
      let calls1 := calls ++ [.pthread_create]
      if result.1 ≠ 0 then ⟨-1, some { c1 with isCapturing := 0 }, calls1⟩
      else ⟨0, some c1, calls1⟩

/-- `PulseAudio_Capture_Stop` of `pulseaudio_capture.c`. -/
def PulseAudio_Capture_Stop (calls : List PulseCall)
    (capture : Option PulseAudio_Capture) :
    Option PulseAudio_Capture × List PulseCall :=
  match capture with
  | none => (none, calls)
  | some c =>
    if c.isCapturing = 0 then (some c, calls)
    else if c.captureThread ≠ 0 then
      (some { c with isCapturing := 0, captureThread := 0 },
        calls ++ [.pthread_join c.captureThread])
    else (some { c with isCapturing := 0 }, calls)

/-- The session after `memset(capture, 0, sizeof(PulseAudio_Capture))`. -/
def PulseAudio_Capture.zeroed : PulseAudio_Capture :=
  { pulseAudio := 0, captureThread := 0, isCapturing := 0, isInitialized := 0,
    sampleRate := 0, channels := 0, bitsPerSample := 0, bufferSize := 0,
    callback := 0, userData := 0 }

/-- The expression
`(sampleRate * 20 / 1000) * channels * (bitsPerSample / 8)` of
`PulseAudio_Capture_Initialize`, evaluated in `unsigned int` arithmetic. -/
def PulseAudio_bufferSize (sampleRate channels bitsPerSample : Nat) : Nat :=
  wrapUInt32 (wrapUInt32 (wrapUInt32 (sampleRate * 20) / 1000 * channels)
    * (bitsPerSample / 8))

/-- `PulseAudio_Capture_Initialize` of `pulseaudio_capture.c`. -/
def PulseAudio_Capture_Initialize (os : PulseOS) (calls : List PulseCall)
    (capture : Option PulseAudio_Capture) : PulseOutcome :=
  match capture with
  | none => ⟨-1, none, calls⟩
  | some _ =>
    let c1 := { PulseAudio_Capture.zeroed with
      sampleRate := 48000, channels := 2, bitsPerSample := 16 }
    let c2 := { c1 with
      bufferSize := PulseAudio_bufferSize c1.sampleRate c1.channels c1.bitsPerSample }
    let handle := os.pa_simple_new calls
    let calls1 := calls ++
      [.pa_simple_new c2.sampleRate c2.channels (wrapUInt32 c2.bufferSize)]
    let c3 := { c2 with pulseAudio := handle }
    if handle = 0 then ⟨-1, some c3, calls1⟩
    else ⟨0, some { c3 with isInitialized := 1 }, calls1⟩

/-- `PulseAudio_Capture_SetCallback` of `pulseaudio_capture.c`. -/
def PulseAudio_Capture_SetCallback (capture : Option PulseAudio_Capture)
    (callback userData : Nat) : Option PulseAudio_Capture :=
  match capture with
  | none => none
  | some c => some { c with callback := callback, userData := userData }

/-- `PulseAudio_Capture_Cleanup` of `pulseaudio_capture.c`. -/
def PulseAudio_Capture_Cleanup (calls : List PulseCall)
    (capture : Option PulseAudio_Capture) :
    Option PulseAudio_Capture × List PulseCall :=
  match capture with
  | none => (none, calls)
  | some c =>
    match PulseAudio_Capture_Stop calls (some c) with
    | (none, calls1) => (none, calls1)
    | (some c1, calls1) =>
      if c1.pulseAudio ≠ 0 then
        (some { c1 with pulseAudio := 0, isInitialized := 0 },
          calls1 ++ [.pa_simple_free c1.pulseAudio])
      else (some { c1 with isInitialized := 0 }, calls1)

/-- `PulseAudio_Capture_GetFormat` of `pulseaudio_capture.c`.  Each output pointer
is `none` when null, else the current content of the location it points to. -/
def PulseAudio_Capture_GetFormat (capture : Option PulseAudio_Capture)
    (sampleRate channels bitsPerSample : Option Nat) :
    FormatOutcome PulseAudio_Capture :=
  match capture with
  | none =>
    ⟨none, sampleRate.map (fun _ => 0), channels.map (fun _ => 0),
      bitsPerSample.map (fun _ => 0)⟩
  | some c =>
    if c.isInitialized = 0 then
      ⟨some c, sampleRate.map (fun _ => 0), channels.map (fun _ => 0),
        bitsPerSample.map (fun _ => 0)⟩
    else
      ⟨some c, sampleRate.map (fun _ => c.sampleRate),
        channels.map (fun _ => c.channels),
        bitsPerSample.map (fun _ => c.bitsPerSample)⟩

namespace PulseAudio

/-- The `while (capture->isCapturing)` loop of `CaptureThreadProc`, from its `i`-th
test of the flag on.  `flag i` is the value of `capture->isCapturing` which that
test finds (the thread that owns the session may clear the flag while the loop
runs); the other fields are read from `c`.  The result is the call log at loop
exit, or `none` when the fuel is used up before the loop exits. -/
def captureLoop (os : PulseOS) (c : PulseAudio_Capture) (flag : Nat → Int) :
    Nat → Nat → List PulseCall → Option (List PulseCall)
  | 0, _, _ => none
  | fuel + 1, i, calls =>
    if flag i = 0 then some calls
    else
      let r := os.pa_simple_read calls c.pulseAudio c.bufferSize
      let calls1 := calls ++ [.pa_simple_read c.pulseAudio c.bufferSize]
      if r.1 < 0 then some calls1
      else if c.callback ≠ 0 then
        captureLoop os c flag fuel (i + 1)
          (calls1 ++ [.callback c.callback r.2 c.bufferSize c.sampleRate c.channels
            c.bitsPerSample c.userData])
      else captureLoop os c flag fuel (i + 1) calls1

/-- `CaptureThreadProc` of `pulseaudio_capture.c`.  The procedure assigns to no
field of `*capture`, so the session it returns is the one it was given; its return
value is the null pointer (`0`). -/
def CaptureThreadProc (os : PulseOS) (c : PulseAudio_Capture) (flag : Nat → Int)
    (fuel : Nat) (calls : List PulseCall) : Option PulseOutcome :=
  if os.malloc calls c.bufferSize = false then
    some ⟨0, some c, calls ++ [.malloc c.bufferSize]⟩
  else
    match captureLoop os c flag fuel 0 (calls ++ [.malloc c.bufferSize]) with
    | none => none
    | some calls1 => some ⟨0, some c, calls1⟩

end PulseAudio

/-! ## Windows backend (`Windows/wasapi_audio_capture.c`) -/

/-- The `HRESULT` `S_OK` of `winerror.h`. -/
def S_OK : Int := 0

/-- The `HRESULT` `S_FALSE` of `winerror.h`. -/
def S_FALSE : Int := 1

/-- The `HRESULT` `E_FAIL` of `winerror.h` (`0x80004005` as a signed 32-bit value). -/
def E_FAIL : Int := -2147467259

/-- The `HRESULT` `E_POINTER` of `winerror.h` (`0x80004003`). -/
def E_POINTER : Int := -2147467261

/-- The `HRESULT` `RPC_E_CHANGED_MODE` of `winerror.h` (`0x80010106`). -/
def RPC_E_CHANGED_MODE : Int := -2147417850

/-- The flag `AUDCLNT_BUFFERFLAGS_SILENT` of `audioclient.h`. -/
def AUDCLNT_BUFFERFLAGS_SILENT : Nat := 2

/-- The macro `FAILED(hr)` of `winerror.h`: a negative `HRESULT` is a failure. -/
def FAILED (hr : Int) : Bool := decide (hr < 0)

/-- How a procedure with loops ends: with a result, with its fuel used up before
the loops exit, or in undefined behaviour (a null pointer is dereferenced). -/
inductive Run (α : Type)
  | done (a : α)
  | outOfFuel
  | undefined
  deriving DecidableEq, Repr

/-- The fields of `WAVEFORMATEX` that the backend reads. -/
structure WAVEFORMATEX where
  nChannels : Nat
  nSamplesPerSec : Nat
  nBlockAlign : Nat
  wBitsPerSample : Nat
  deriving DecidableEq, Repr

/-- The C structure `WASAPI_AudioCapture`. -/
structure WASAPI_AudioCapture where
  deviceEnumerator : Nat
  audioDevice : Nat
  audioClient : Nat
  captureClient : Nat
  mixFormat : Option WAVEFORMATEX
  captureThread : Nat
  stopEvent : Nat
  callback : Nat
  userData : Nat
  isCapturing : Int
  isInitialized : Int
  deriving DecidableEq, Repr

/-- One Windows API call of the backend, or one invocation of the registered
callback.  `WaitForSingleObject` is the wait with `INFINITE` of Stop,
`WaitForSingleObject_timeout` the wait with a timeout of the capture thread;
`Release` is the `Release` method of the COM interface given. -/
inductive WasapiCall
  | IAudioClient_Start (client : Nat)
  | IAudioClient_Stop (client : Nat)
  | CreateThread
  | SetEvent (event : Nat)
  | WaitForSingleObject (handle : Nat)
  | CloseHandle (handle : Nat)
  | CoInitializeEx
  | CoCreateInstance
  | GetDefaultAudioEndpoint (enumerator : Nat)
  | Activate (device : Nat)
  | GetMixFormat (client : Nat)
  | IAudioClient_Initialize (client : Nat) (format : Option WAVEFORMATEX)
  | GetService (client : Nat)
  | CreateEvent
  | Release (iface : Nat)
  | CoTaskMemFree (format : WAVEFORMATEX)
  | SetThreadPriority
  | WaitForSingleObject_timeout (handle : Nat) (milliseconds : Nat)
  | GetNextPacketSize (captureClient : Nat)
  | GetBuffer (captureClient : Nat)
  | ReleaseBuffer (captureClient : Nat) (numFrames : Nat)
  | callback (fn : Nat) (audioData : List Nat) (dataSize : Nat) (sampleRate : Nat)
      (channels : Nat) (bitsPerSample : Nat) (userData : Nat)
  deriving DecidableEq, Repr

/-- What `IAudioCaptureClient::GetBuffer` hands back. -/
structure PacketBuffer where
  hr : Int
  audioData : List Nat
  numFramesAvailable : Nat
  flags : Nat
  deriving DecidableEq, Repr

/-- Windows as seen by the backend: the result of each call whose result is used,
given the log of the earlier calls.  A call with an output pointer returns the
`HRESULT` together with the content of the output location afterwards. -/
structure WasapiOS where
  IAudioClient_Start : List WasapiCall → Nat → Int
  /-- The new thread handle (`0` is `NULL`). -/
  CreateThread : List WasapiCall → Nat
  CoInitializeEx : List WasapiCall → Int
  CoCreateInstance : List WasapiCall → Int × Nat
  GetDefaultAudioEndpoint : List WasapiCall → Nat → Int × Nat
  Activate : List WasapiCall → Nat → Int × Nat
  GetMixFormat : List WasapiCall → Nat → Int × Option WAVEFORMATEX
  IAudioClient_Initialize : List WasapiCall → Nat → Option WAVEFORMATEX → Int
  GetService : List WasapiCall → Nat → Int × Nat
  /-- The new event handle (`0` is `NULL`). -/
  CreateEvent : List WasapiCall → Nat
  /-- Whether the timed wait on the stop event returns `WAIT_OBJECT_0`. -/
  WaitForSingleObject_timeout : List WasapiCall → Nat → Bool
  GetNextPacketSize : List WasapiCall → Nat → Int × Nat
  GetBuffer : List WasapiCall → Nat → PacketBuffer
  ReleaseBuffer : List WasapiCall → Nat → Nat → Int

/-- Return value, structure behind the pointer and call log of a Windows function. -/
structure WasapiOutcome where
  ret : Int
  capture : Option WASAPI_AudioCapture
  calls : List WasapiCall
  deriving DecidableEq, Repr

/-- `WASAPI_AudioCapture_Start` of `wasapi_audio_capture.c`.  The result is `none`
when the function dereferences a null `audioClient` (undefined behaviour).  The new
thread runs `CaptureThreadProc` concurrently; Start itself only creates it. -/
def WASAPI_AudioCapture_Start (os : WasapiOS) (calls : List WasapiCall)
    (capture : Option WASAPI_AudioCapture) : Option WasapiOutcome :=
  match capture with
  | none => some ⟨E_FAIL, none, calls⟩
  | some c =>
    if c.isInitialized = 0 then some ⟨E_FAIL, some c, calls⟩
    else if c.isCapturing ≠ 0 then some ⟨S_FALSE, some c, calls⟩
    else if c.audioClient = 0 then none
    else
      let hr := os.IAudioClient_Start calls c.audioClient
      let calls1 := calls ++ [.IAudioClient_Start c.audioClient]
      if FAILED hr then some ⟨hr, some c, calls1⟩
      else
        let thread := os.CreateThread calls1
        let calls2 := calls1 ++ [.CreateThread]
        let c1 := { c with isCapturing := 1, captureThread := thread }
        if thread = 0 then
          some ⟨E_FAIL, some { c1 with isCapturing := 0 },
            calls2 ++ [.IAudioClient_Stop c.audioClient]⟩
        else some ⟨S_OK, some c1, calls2⟩

/-- `WASAPI_AudioCapture_Stop` of `wasapi_audio_capture.c`. -/
def WASAPI_AudioCapture_Stop (calls : List WasapiCall)
    (capture : Option WASAPI_AudioCapture) :
    Option WASAPI_AudioCapture × List WasapiCall :=
  match capture with
  | none => (none, calls)
  | some c =>
    if c.isCapturing = 0 then (some c, calls)
    else
      let c1 := { c with isCapturing := 0 }
      let calls1 := if c.stopEvent ≠ 0 then calls ++ [.SetEvent c.stopEvent] else calls
      let c2 := if c.captureThread ≠ 0 then { c1 with captureThread := 0 } else c1
      let calls2 :=
        if c.captureThread ≠ 0 then
          calls1 ++ [.WaitForSingleObject c.captureThread, .CloseHandle c.captureThread]
        else calls1
      let calls3 :=
        if c.audioClient ≠ 0 then calls2 ++ [.IAudioClient_Stop c.audioClient]
        else calls2
      (some c2, calls3)

/-- The session after `ZeroMemory(capture, sizeof(WASAPI_AudioCapture))`. -/
def WASAPI_AudioCapture.zeroed : WASAPI_AudioCapture :=
  { deviceEnumerator := 0, audioDevice := 0, audioClient := 0, captureClient := 0,
    mixFormat := none, captureThread := 0, stopEvent := 0, callback := 0,
    userData := 0, isCapturing := 0, isInitialized := 0 }

/-- `WASAPI_AudioCapture_Initialize` of `wasapi_audio_capture.c`.  The result is
`none` when the function calls a method through a null interface pointer
(undefined behaviour). -/
def WASAPI_AudioCapture_Initialize (os : WasapiOS) (calls : List WasapiCall)
    (capture : Option WASAPI_AudioCapture) : Option WasapiOutcome :=
  match capture with
  | none => some ⟨E_POINTER, none, calls⟩
  | some _ =>
    let c0 := WASAPI_AudioCapture.zeroed
    let hr1 := os.CoInitializeEx calls
    let calls1 := calls ++ [.CoInitializeEx]
    if FAILED hr1 ∧ hr1 ≠ RPC_E_CHANGED_MODE then some ⟨hr1, some c0, calls1⟩
    else
      let r2 := os.CoCreateInstance calls1
      let calls2 := calls1 ++ [.CoCreateInstance]
      let c2 := { c0 with deviceEnumerator := r2.2 }
      if FAILED r2.1 then some ⟨r2.1, some c2, calls2⟩
      else if c2.deviceEnumerator = 0 then none
      else
        let r3 := os.GetDefaultAudioEndpoint calls2 c2.deviceEnumerator
        let calls3 := calls2 ++ [.GetDefaultAudioEndpoint c2.deviceEnumerator]
        let c3 := { c2 with audioDevice := r3.2 }
        if FAILED r3.1 then some ⟨r3.1, some c3, calls3⟩
        else if c3.audioDevice = 0 then none
        else
          let r4 := os.Activate calls3 c3.audioDevice
          let calls4 := calls3 ++ [.Activate c3.audioDevice]
          let c4 := { c3 with audioClient := r4.2 }
          if FAILED r4.1 then some ⟨r4.1, some c4, calls4⟩
          else if c4.audioClient = 0 then none
          else
            let r5 := os.GetMixFormat calls4 c4.audioClient
            let calls5 := calls4 ++ [.GetMixFormat c4.audioClient]
            let c5 := { c4 with mixFormat := r5.2 }
            if FAILED r5.1 then some ⟨r5.1, some c5, calls5⟩
            else
              let hr6 := os.IAudioClient_Initialize calls5 c5.audioClient c5.mixFormat
              let calls6 := calls5 ++
                [.IAudioClient_Initialize c5.audioClient c5.mixFormat]
              if FAILED hr6 then some ⟨hr6, some c5, calls6⟩
              else
                let r7 := os.GetService calls6 c5.audioClient
                let calls7 := calls6 ++ [.GetService c5.audioClient]
                let c7 := { c5 with captureClient := r7.2 }
                if FAILED r7.1 then some ⟨r7.1, some c7, calls7⟩
                else
                  let event := os.CreateEvent calls7
                  let calls8 := calls7 ++ [.CreateEvent]
                  let c8 := { c7 with stopEvent := event }
                  if event = 0 then some ⟨E_FAIL, some c8, calls8⟩
                  else some ⟨S_OK, some { c8 with isInitialized := 1 }, calls8⟩

/-- `WASAPI_AudioCapture_SetCallback` of `wasapi_audio_capture.c`. -/
def WASAPI_AudioCapture_SetCallback (capture : Option WASAPI_AudioCapture)
    (callback userData : Nat) : Option WASAPI_AudioCapture :=
  match capture with
  | none => none
  | some c => some { c with callback := callback, userData := userData }

/-- The release section of `WASAPI_AudioCapture_Cleanup`: every non-null handle is
released and set to null, in the order capture client, audio client, audio device,
device enumerator, mix format, stop event; then `isInitialized` is cleared. -/
def WASAPI_AudioCapture_release (calls : List WasapiCall) (c : WASAPI_AudioCapture) :
    WASAPI_AudioCapture × List WasapiCall :=
  let calls1 :=
    if c.captureClient ≠ 0 then calls ++ [.Release c.captureClient] else calls
  let calls2 :=
    if c.audioClient ≠ 0 then calls1 ++ [.Release c.audioClient] else calls1
  let calls3 :=
    if c.audioDevice ≠ 0 then calls2 ++ [.Release c.audioDevice] else calls2
  let calls4 :=
    if c.deviceEnumerator ≠ 0 then calls3 ++ [.Release c.deviceEnumerator] else calls3
  let calls5 :=
    match c.mixFormat with
    | some format => calls4 ++ [.CoTaskMemFree format]
    | none => calls4
  let calls6 :=
    if c.stopEvent ≠ 0 then calls5 ++ [.CloseHandle c.stopEvent] else calls5
  ({ c with captureClient := 0, audioClient := 0, audioDevice := 0,
            deviceEnumerator := 0, mixFormat := none, stopEvent := 0,
            isInitialized := 0 }, calls6)

/-- `WASAPI_AudioCapture_Cleanup` of `wasapi_audio_capture.c`. -/
def WASAPI_AudioCapture_Cleanup (calls : List WasapiCall)
    (capture : Option WASAPI_AudioCapture) :
    Option WASAPI_AudioCapture × List WasapiCall :=
  match capture with
  | none => (none, calls)
  | some c =>
    match WASAPI_AudioCapture_Stop calls (some c) with
    | (none, calls1) => (none, calls1)
    | (some c1, calls1) =>
      (some (WASAPI_AudioCapture_release calls1 c1).1,
        (WASAPI_AudioCapture_release calls1 c1).2)

/-- `WASAPI_AudioCapture_GetFormat` of `wasapi_audio_capture.c`.  Each output
pointer is `none` when null, else the current content of the location it points
to. -/
def WASAPI_AudioCapture_GetFormat (capture : Option WASAPI_AudioCapture)
    (sampleRate channels bitsPerSample : Option Nat) :
    FormatOutcome WASAPI_AudioCapture :=
  match capture with
  | none =>
    ⟨none, sampleRate.map (fun _ => 0), channels.map (fun _ => 0),
      bitsPerSample.map (fun _ => 0)⟩
  | some c =>
    match c.mixFormat with
    | none =>
      ⟨some c, sampleRate.map (fun _ => 0), channels.map (fun _ => 0),
        bitsPerSample.map (fun _ => 0)⟩
    | some format =>
      if c.isInitialized = 0 then
        ⟨some c, sampleRate.map (fun _ => 0), channels.map (fun _ => 0),
          bitsPerSample.map (fun _ => 0)⟩
      else
        ⟨some c, sampleRate.map (fun _ => format.nSamplesPerSec),
          channels.map (fun _ => format.nChannels),
          bitsPerSample.map (fun _ => format.wBitsPerSample)⟩

namespace WASAPI

/-- The delivery step of the inner loop of `CaptureThreadProc`: the callback is
invoked for a packet that is not silent, has frames, when a callback is
registered.  `none`: the null `mixFormat` is dereferenced. -/
def deliver (c : WASAPI_AudioCapture) (packet : PacketBuffer)
    (calls : List WasapiCall) : Option (List WasapiCall) :=
  if packet.flags &&& AUDCLNT_BUFFERFLAGS_SILENT = 0 ∧ packet.numFramesAvailable > 0 ∧
      c.callback ≠ 0 then
    match c.mixFormat with
    | none => none
    | some format =>
      some (calls ++ [.callback c.callback packet.audioData
        (wrapUInt32 (packet.numFramesAvailable * format.nBlockAlign))
        format.nSamplesPerSec format.nChannels format.wBitsPerSample c.userData])
  else some calls

/-- The inner loop `while (packetLength != 0)` of `CaptureThreadProc`. -/
def drainPackets (os : WasapiOS) (c : WASAPI_AudioCapture) :
    Nat → Nat → List WasapiCall → Run (List WasapiCall)
  | 0, _, _ => .outOfFuel
  | fuel + 1, packetLength, calls =>
    if packetLength = 0 then .done calls
    else if c.captureClient = 0 then .undefined
    else
      let packet := os.GetBuffer calls c.captureClient
      let calls1 := calls ++ [.GetBuffer c.captureClient]
      if FAILED packet.hr then .done calls1
      else
        match deliver c packet calls1 with
        | none => .undefined
        | some calls2 =>
          let hr3 := os.ReleaseBuffer calls2 c.captureClient packet.numFramesAvailable
          let calls3 := calls2 ++
            [.ReleaseBuffer c.captureClient packet.numFramesAvailable]
          if FAILED hr3 then .done calls3
          else
            let next := os.GetNextPacketSize calls3 c.captureClient
            let calls4 := calls3 ++ [.GetNextPacketSize c.captureClient]
            if FAILED next.1 then .done calls4
            else drainPackets os c fuel next.2 calls4

/-- The outer loop `while (capture->isCapturing)` of `CaptureThreadProc`, from its
`i`-th test of the flag on.  `flag i` is the value of `capture->isCapturing` which
that test finds (the thread that owns the session may clear the flag while the
loop runs); the other fields are read from `c`. -/
def captureLoop (os : WasapiOS) (c : WASAPI_AudioCapture) (flag : Nat → Int) :
    Nat → Nat → List WasapiCall → Run (List WasapiCall)
  | 0, _, _ => .outOfFuel
  | fuel + 1, i, calls =>
    if flag i = 0 then .done calls
    else
      let calls1 := calls ++ [.WaitForSingleObject_timeout c.stopEvent 10]
      if os.WaitForSingleObject_timeout calls c.stopEvent then .done calls1
      else if c.captureClient = 0 then .undefined
      else
        let next := os.GetNextPacketSize calls1 c.captureClient
        let calls2 := calls1 ++ [.GetNextPacketSize c.captureClient]
        if FAILED next.1 then .done calls2
        else
          match drainPackets os c fuel next.2 calls2 with
          | .done calls3 => captureLoop os c flag fuel (i + 1) calls3
          | .outOfFuel => .outOfFuel
          | .undefined => .undefined

/-- `CaptureThreadProc` of `wasapi_audio_capture.c`.  The procedure assigns to no
field of `*capture`, so the session it returns is the one it was given; its return
value is `0`. -/
def CaptureThreadProc (os : WasapiOS) (c : WASAPI_AudioCapture) (flag : Nat → Int)
    (fuel : Nat) (calls : List WasapiCall) : Run WasapiOutcome :=
  match captureLoop os c flag fuel 0 (calls ++ [.SetThreadPriority]) with
  | .done calls1 => .done ⟨0, some c, calls1⟩
  | .outOfFuel => .outOfFuel
  | .undefined => .undefined

end WASAPI

/-! ## Sessions and native libraries for concrete evaluations -/

/-- A Linux session after a successful Initialize (48 kHz stereo, 3840-byte chunks),
not capturing. -/
def demoPulse : PulseAudio_Capture :=
  { pulseAudio := 11, captureThread := 0, isCapturing := 0, isInitialized := 1,
    sampleRate := 48000, channels := 2, bitsPerSample := 16, bufferSize := 3840,
    callback := 5, userData := 6 }

/-- A Linux whose `pthread_create` succeeds with thread id `21`, whose
`pa_simple_new` yields stream `11`, whose allocations succeed and whose
`pa_simple_read` delivers one chunk (first read) and then fails. -/
def demoPulseOS : PulseOS :=
  { pthread_create := fun _ _ => (0, 21)
    pa_simple_new := fun _ => 11
    pa_simple_read := fun calls _ bytes =>
      if calls.any (fun e => match e with | .pa_simple_read _ _ => true | _ => false)
      then (-1, []) else (0, List.replicate bytes 0)
    malloc := fun _ _ => true }

/-- A macOS session after a successful Initialize, not capturing. -/
def demoCoreAudio : CoreAudio_Capture :=
  { audioUnit := 12, isCapturing := 0, isInitialized := 1, sampleRate := 48000,
    channels := 2, bitsPerSample := 16, callback := 5, userData := 6 }

/-- A Core Audio whose calls succeed: component `1`, audio unit `12`, output device
`40`, and a render that fills the buffer with silence. -/
def demoCoreAudioOS : CoreAudioOS :=
  { AudioOutputUnitStart := fun _ _ => 0
    AudioComponentFindNext := fun _ => 1
    AudioComponentInstanceNew := fun _ _ => (0, 12)
    AudioUnitSetProperty := fun _ _ _ => 0
    AudioObjectGetPropertyData := fun _ => (0, 40)
    AudioUnitInitialize := fun _ _ => 0
    AudioUnitRender := fun _ _ _ => (0, fun _ => Float32.finite 0 0)
    malloc := fun _ _ => true }

/-- A Windows session after a successful Initialize, not capturing. -/
def demoWasapi : WASAPI_AudioCapture :=
  { deviceEnumerator := 1, audioDevice := 2, audioClient := 3, captureClient := 4,
    mixFormat := some { nChannels := 2, nSamplesPerSec := 48000, nBlockAlign := 8,
                        wBitsPerSample := 32 },
    captureThread := 0, stopEvent := 9, callback := 5, userData := 6,
    isCapturing := 0, isInitialized := 1 }

/-- A Windows whose calls succeed; the new thread gets handle `31`, the interfaces
the handles `1` to `4`, the stop event the handle `9`; the mix format is 48 kHz
stereo float32; no packet is pending and the stop event is never signalled. -/
def demoWasapiOS : WasapiOS :=
  { IAudioClient_Start := fun _ _ => 0
    CreateThread := fun _ => 31
    CoInitializeEx := fun _ => 0
    CoCreateInstance := fun _ => (0, 1)
    GetDefaultAudioEndpoint := fun _ _ => (0, 2)
    Activate := fun _ _ => (0, 3)
    GetMixFormat := fun _ _ =>
      (0, some { nChannels := 2, nSamplesPerSec := 48000, nBlockAlign := 8,
                 wBitsPerSample := 32 })
    IAudioClient_Initialize := fun _ _ _ => 0
    GetService := fun _ _ => (0, 4)
    CreateEvent := fun _ => 9
    WaitForSingleObject_timeout := fun _ _ => false
    GetNextPacketSize := fun _ _ => (0, 0)
    GetBuffer := fun _ _ => ⟨0, [], 0, 0⟩
    ReleaseBuffer := fun _ _ _ => 0 }

/-! ## Release calls -/

/-- The calls by which the Linux backend gives a native resource back. -/
def PulseCall.isRelease : PulseCall → Bool
  | .pa_simple_free _ => true
  | _ => false

/-- The calls by which the macOS backend gives a native resource back. -/
def CoreAudioCall.isRelease : CoreAudioCall → Bool
  | CoreAudioCall.AudioUnitUninitialize _ => true
  | .AudioComponentInstanceDispose _ => true
  | _ => false

/-- The calls by which the Windows backend gives a native resource back. -/
def WasapiCall.isRelease : WasapiCall → Bool
  | .Release _ => true
  | .CoTaskMemFree _ => true
  | .CloseHandle _ => true
  | _ => false

/-- A Core Audio that creates the audio unit `12` and then refuses every
`AudioUnitSetProperty` call with `kAudioUnitErr_InvalidProperty`. -/
def refusingPropertyOS : CoreAudioOS :=
  { demoCoreAudioOS with AudioUnitSetProperty := fun _ _ _ => -10879 }

/-- A Windows that creates the device enumerator `1` and then finds no default
audio endpoint (`HRESULT` `0x80070490`, element not found). -/
def noEndpointOS : WasapiOS :=
  { demoWasapiOS with GetDefaultAudioEndpoint := fun _ _ => (-2147023728, 0) }

/-- A Windows as `demoWasapiOS` whose audio client refuses the capture service
(`GetService` fails with `E_FAIL` and yields no interface). -/
def noServiceOS : WasapiOS :=
  { demoWasapiOS with GetService := fun _ _ => (E_FAIL, 0) }

/-! ## Loop passes and chunk events -/

/-- The call log after `n` passes through the loop of the Linux `CaptureThreadProc`
in each of which `pa_simple_read` succeeds: every pass appends the read and, when a
callback is registered, the invocation of the callback with the bytes read. -/
def PulseAudio.chunkLog (os : PulseOS) (c : PulseAudio_Capture) :
    Nat → List PulseCall → List PulseCall
  | 0, calls => calls
  | n + 1, calls =>
    let r := os.pa_simple_read calls c.pulseAudio c.bufferSize
    let calls1 := calls ++ [.pa_simple_read c.pulseAudio c.bufferSize]
    if c.callback ≠ 0 then
      PulseAudio.chunkLog os c n
        (calls1 ++ [.callback c.callback r.2 c.bufferSize c.sampleRate c.channels
          c.bitsPerSample c.userData])
    else PulseAudio.chunkLog os c n calls1

/-- The Linux session `demoPulse` after a successful Start: capturing, with the
thread `21`. -/
def demoPulseStarted : PulseAudio_Capture :=
  { demoPulse with isCapturing := 1, captureThread := 21 }

/-- What the Linux thread procedure passes when it invokes the callback of the
session `c`: an event that is an invocation of the callback carries the session's
callback, `bufferSize`, format fields and user data. -/
def PulseCall.isChunkOf (c : PulseAudio_Capture) : PulseCall → Prop
  | .callback fn _ dataSize sampleRate channels bitsPerSample userData =>
    fn = c.callback ∧ dataSize = c.bufferSize ∧ sampleRate = c.sampleRate ∧
    channels = c.channels ∧ bitsPerSample = c.bitsPerSample ∧ userData = c.userData
  | _ => True

/-- What the macOS `InputCallback` passes when it invokes the callback of the
session `c` for `inNumberFrames` rendered frames: one 16-bit value per rendered
sample, `inNumberFrames * channels` of them (in `UInt32` arithmetic), and twice that
number as the size in bytes. -/
def CoreAudioCall.isChunkOf (c : CoreAudio_Capture) (inNumberFrames : Nat) :
    CoreAudioCall → Prop
  | .callback fn audioData dataSize sampleRate channels bitsPerSample userData =>
    fn = c.callback ∧ audioData.length = wrapUInt32 (inNumberFrames * c.channels) ∧
    dataSize = wrapUInt32 (inNumberFrames * c.channels) * 2 ∧
    sampleRate = c.sampleRate ∧ channels = c.channels ∧
    bitsPerSample = c.bitsPerSample ∧ userData = c.userData
  | _ => True

/-- What the Windows thread procedure passes when it invokes the callback of the
session `c`: the bytes of a packet of some positive number of frames, that number
times the block size of the mix format (in `UINT32` arithmetic) as the size, and the
rate, channel count and bits per sample of the mix format. -/
def WasapiCall.isChunkOf (c : WASAPI_AudioCapture) : WasapiCall → Prop
  | .callback fn _ dataSize sampleRate channels bitsPerSample userData =>
    ∃ format : WAVEFORMATEX, c.mixFormat = some format ∧ fn = c.callback ∧
      (∃ numFramesAvailable : Nat, 0 < numFramesAvailable ∧
        dataSize = wrapUInt32 (numFramesAvailable * format.nBlockAlign)) ∧
      sampleRate = format.nSamplesPerSec ∧ channels = format.nChannels ∧
      bitsPerSample = format.wBitsPerSample ∧ userData = c.userData
  | _ => True

/-- The macOS session `demoCoreAudio` after a successful Start. -/
def demoCoreAudioStarted : CoreAudio_Capture :=
  { demoCoreAudio with isCapturing := 1 }

/-- The Windows session `demoWasapi` after a successful Start, with the thread
`31`. -/
def demoWasapiStarted : WASAPI_AudioCapture :=
  { demoWasapi with isCapturing := 1, captureThread := 31 }

/-- A packet of 441 frames of 8 bytes each, not flagged as silent. -/
def demoPacket : PacketBuffer :=
  { hr := 0, audioData := List.replicate 3528 0, numFramesAvailable := 441, flags := 0 }

/-- A Core Audio as `demoCoreAudioOS` whose allocator has memory for one buffer
only: `malloc` succeeds while the log holds no earlier `malloc`, and fails after. -/
def scarceMemoryOS : CoreAudioOS :=
  { demoCoreAudioOS with
    malloc := fun calls _ =>
      !calls.any (fun e => match e with | .malloc _ => true | _ => false) }

/-! ## Sequences of API calls -/

/-- One call of the capture API on a session. -/
inductive CaptureOp
  | Initialize
  | SetCallback (callback userData : Nat)
  | Start
  | Stop
  | Cleanup
  deriving DecidableEq, Repr

/-- The effect of one API call of the Linux backend: the session behind the pointer
and the call log before, and after. -/
def PulseAudio.applyOp (os : PulseOS)
    (st : Option PulseAudio_Capture × List PulseCall) :
    CaptureOp → Option PulseAudio_Capture × List PulseCall
  | .Initialize =>
    ((PulseAudio_Capture_Initialize os st.2 st.1).capture,
      (PulseAudio_Capture_Initialize os st.2 st.1).calls)
  | .SetCallback callback userData =>
    (PulseAudio_Capture_SetCallback st.1 callback userData, st.2)
  | .Start =>
    ((PulseAudio_Capture_Start os st.2 st.1).capture,
      (PulseAudio_Capture_Start os st.2 st.1).calls)
  | .Stop => PulseAudio_Capture_Stop st.2 st.1
  | .Cleanup => PulseAudio_Capture_Cleanup st.2 st.1

/-- A sequence of API calls of the Linux backend on a zeroed session, with an empty
log at the start. -/
def PulseAudio.runOps (os : PulseOS) (ops : List CaptureOp) :
    Option PulseAudio_Capture × List PulseCall :=
  ops.foldl (PulseAudio.applyOp os) (some PulseAudio_Capture.zeroed, [])

/-- The effect of one API call of the macOS backend: the session behind the pointer
and the call log before, and after. -/
def CoreAudio.applyOp (os : CoreAudioOS)
    (st : Option CoreAudio_Capture × List CoreAudioCall) :
    CaptureOp → Option CoreAudio_Capture × List CoreAudioCall
  | .Initialize =>
    ((CoreAudio_Capture_Initialize os st.2 st.1).capture,
      (CoreAudio_Capture_Initialize os st.2 st.1).calls)
  | .SetCallback callback userData =>
    (CoreAudio_Capture_SetCallback st.1 callback userData, st.2)
  | .Start =>
    ((CoreAudio_Capture_Start os st.2 st.1).capture,
      (CoreAudio_Capture_Start os st.2 st.1).calls)
  | .Stop => CoreAudio_Capture_Stop st.2 st.1
  | .Cleanup => CoreAudio_Capture_Cleanup st.2 st.1

/-- A sequence of API calls of the macOS backend on a zeroed session, with an empty
log at the start. -/
def CoreAudio.runOps (os : CoreAudioOS) (ops : List CaptureOp) :
    Option CoreAudio_Capture × List CoreAudioCall :=
  ops.foldl (CoreAudio.applyOp os) (some CoreAudio_Capture.zeroed, [])

/-- The effect of one API call of the Windows backend: the session behind the
pointer and the call log before, and after; `none` when the call dereferences a null
interface pointer. -/
def WASAPI.applyOp (os : WasapiOS)
    (st : Option WASAPI_AudioCapture × List WasapiCall) :
    CaptureOp → Option (Option WASAPI_AudioCapture × List WasapiCall)
  | .Initialize =>
    (WASAPI_AudioCapture_Initialize os st.2 st.1).map
      (fun out => (out.capture, out.calls))
  | .SetCallback callback userData =>
    some (WASAPI_AudioCapture_SetCallback st.1 callback userData, st.2)
  | .Start =>
    (WASAPI_AudioCapture_Start os st.2 st.1).map (fun out => (out.capture, out.calls))
  | .Stop => some (WASAPI_AudioCapture_Stop st.2 st.1)
  | .Cleanup => some (WASAPI_AudioCapture_Cleanup st.2 st.1)

/-- A sequence of API calls of the Windows backend, from the state `st` on; `none`
as soon as one of them dereferences a null interface pointer. -/
def WASAPI.runOpsFrom (os : WasapiOS) :
    List CaptureOp → Option WASAPI_AudioCapture × List WasapiCall →
    Option (Option WASAPI_AudioCapture × List WasapiCall)
  | [], st => some st
  | op :: ops, st =>
    match WASAPI.applyOp os st op with
    | none => none
    | some st1 => WASAPI.runOpsFrom os ops st1

/-- A sequence of API calls of the Windows backend on a zeroed session, with an
empty log at the start. -/
def WASAPI.runOps (os : WasapiOS) (ops : List CaptureOp) :
    Option (Option WASAPI_AudioCapture × List WasapiCall) :=
  WASAPI.runOpsFrom os ops (some WASAPI_AudioCapture.zeroed, [])

/-- One call of the encoder API on a wrapper, with its arguments. -/
inductive EncoderOp
  | Initialize (sampleRate channels bitrate application : Int)
  | Encode (pcm : Option (List Int)) (frameSize : Int) (output : Nat)
      (maxOutputSize : Int)
  | SetBitrate (bitrate : Int)
  | SetComplexity (complexity : Int)
  | GetFrameSize
  | Cleanup
  deriving DecidableEq, Repr

/-- The effect of one encoder API call: the wrapper behind the pointer and the log
of Opus calls before, and after.  `OpusEncoder_GetFrameSize` only reads the wrapper
and calls nothing, so it leaves both as they are. -/
def OpusEncoder_applyOp (lib : OpusLib)
    (st : Option OpusEncoderWrapper × List OpusCall) :
    EncoderOp → Option OpusEncoderWrapper × List OpusCall
  | .Initialize sampleRate channels bitrate application =>
    ((OpusEncoder_Initialize lib st.2 st.1 sampleRate channels bitrate
        application).wrapper,
      (OpusEncoder_Initialize lib st.2 st.1 sampleRate channels bitrate
        application).calls)
  | .Encode pcm frameSize output maxOutputSize =>
    ((OpusEncoder_Encode lib st.2 st.1 pcm frameSize output maxOutputSize).wrapper,
      (OpusEncoder_Encode lib st.2 st.1 pcm frameSize output maxOutputSize).calls)
  | .SetBitrate bitrate =>
    ((OpusEncoder_SetBitrate lib st.2 st.1 bitrate).wrapper,
      (OpusEncoder_SetBitrate lib st.2 st.1 bitrate).calls)
  | .SetComplexity complexity =>
    ((OpusEncoder_SetComplexity lib st.2 st.1 complexity).wrapper,
      (OpusEncoder_SetComplexity lib st.2 st.1 complexity).calls)
  | .GetFrameSize => st
  | .Cleanup => OpusEncoder_Cleanup st.2 st.1

/-- A sequence of encoder API calls from the state `st` on. -/
def OpusEncoder_runOps (lib : OpusLib)
    (st : Option OpusEncoderWrapper × List OpusCall) (ops : List EncoderOp) :
    Option OpusEncoderWrapper × List OpusCall :=
  ops.foldl (OpusEncoder_applyOp lib) st

/-! ## Exact values of samples and the steps of the rounding -/

/-- The C cast of an exact value to an integer type: the fractional part is
discarded (truncation toward zero). -/
def truncate (q : ℚ) : Int := if 0 ≤ q then ⌊q⌋ else ⌈q⌉

/-- The value the conversion is claimed to have: 32767 times the sample clamped to
`[-1, 1]`, truncated toward zero. -/
def truncClamp (x : ℚ) : Int := truncate (32767 * max (-1) (min x 1))

namespace Float32

/-- The C negation `-a`. -/
def neg : Float32 → Float32
  | nan => nan
  | inf negative => inf (!negative)
  | finite m e => finite (-m) e

/-- The exact value of a finite binary32 number (`none` for a NaN or an infinity). -/
def value : Float32 → Option ℚ
  | finite m e => some ((m : ℚ) * 2 ^ e)
  | _ => none

/-- The quotient `n / 2 ^ k` rounded to the nearest integer, ties to even: the
significand that `round` keeps when it drops `k` low bits of the magnitude `n`. -/
def roundNearestEven (k n : Nat) : Nat :=
  if 2 * (n % 2 ^ k) > 2 ^ k ∨ (2 * (n % 2 ^ k) = 2 ^ k ∧ n / 2 ^ k % 2 = 1)
  then n / 2 ^ k + 1 else n / 2 ^ k

/-- The number of low bits that `round` drops from the magnitude `n` of the value
`n * 2 ^ (-d)`. -/
def droppedBits (n d : Nat) : Nat := max (excessBits n n) (d - 149)

/-- The integral part of the magnitude `n * 2 ^ (-d)` after rounding to binary32. -/
def roundedIntegralPart (n d : Nat) : Nat :=
  roundNearestEven (droppedBits n d) n / 2 ^ (d - droppedBits n d)

end Float32

/-- The value of the conversion for a sample `m * 2 ^ (-d)` of magnitude at most 1:
the integral part of the rounded product `32767 * |m| * 2 ^ (-d)`, with the sign
of the sample. -/
def convertSample_inRange (m : Int) (d : Nat) : Int :=
  if m < 0 then -((Float32.roundedIntegralPart (m.natAbs * 32767) d : Nat) : Int)
  else ((Float32.roundedIntegralPart (m.natAbs * 32767) d : Nat) : Int)

/-! ## Theorems: Opus encoder wrapper -/

/-- The supported sample rates never overflow `sampleRate * 20` and divide exactly. -/
theorem frameSize_of_supported (r : Int)
    (hr : r = 8000 ∨ r = 12000 ∨ r = 16000 ∨ r = 24000 ∨ r = 48000) :
    wrapInt32 (r * 20) = r * 20 ∧ cDiv (r * 20) 1000 = r * 20 / 1000 ∧
      cDiv (r * 20) 1000 * 1000 = r * 20 := by
  rcases hr with h | h | h | h | h <;> subst h <;> decide

/-- Initialize on valid arguments, when `opus_encoder_create` reports `OPUS_OK`. -/
theorem OpusEncoder_Initialize_ok (lib : OpusLib) (calls : List OpusCall)
    (w : OpusEncoderWrapper) (r channels bitrate application : Int)
    (hr : r = 8000 ∨ r = 12000 ∨ r = 16000 ∨ r = 24000 ∨ r = 48000)
    (hc : channels = 1 ∨ channels = 2)
    (hok : (lib.opus_encoder_create calls r channels application).2 = lib.OPUS_OK) :
    OpusEncoder_Initialize lib calls (some w) r channels bitrate application =
      ⟨0, some { encoder := (lib.opus_encoder_create calls r channels application).1,
                 sampleRate := r, channels := channels, bitrate := bitrate,
                 frameSize := cDiv (r * 20) 1000, isInitialized := 1 },
        calls ++ [.opus_encoder_create r channels application] ++
          initCtlCalls lib (lib.opus_encoder_create calls r channels application).1
            bitrate⟩ := by
  have hch : ¬ (channels < 1 ∨ channels > 2) := by omega
  have hrate : ¬ (r ≠ 8000 ∧ r ≠ 12000 ∧ r ≠ 16000 ∧ r ≠ 24000 ∧ r ≠ 48000) := by omega
  have hw := (frameSize_of_supported r hr).1
  simp only [OpusEncoder_Initialize, if_neg hch, if_neg hrate, hok, ne_eq,
    not_true_eq_false, if_false, hw, OpusEncoderWrapper.zeroed]

/-- C1: for every supported sample rate `r` and `channels ∈ {1, 2}`, when
`opus_encoder_create` reports success, `OpusEncoder_Initialize` returns 0 and
`OpusEncoder_GetFrameSize` then returns exactly `r * 20 / 1000` — 160, 240, 320,
480 and 960 for the five rates — where the division is exact and `r * 20` stays
inside the 32-bit `int` range (wrapping changes nothing). -/
theorem C1_frameSize_after_Initialize (lib : OpusLib) (calls : List OpusCall)
    (w : OpusEncoderWrapper) (r channels bitrate application : Int)
    (hr : r = 8000 ∨ r = 12000 ∨ r = 16000 ∨ r = 24000 ∨ r = 48000)
    (hc : channels = 1 ∨ channels = 2)
    (hok : (lib.opus_encoder_create calls r channels application).2 = lib.OPUS_OK) :
    (OpusEncoder_Initialize lib calls (some w) r channels bitrate application).ret = 0 ∧
    OpusEncoder_GetFrameSize
        (OpusEncoder_Initialize lib calls (some w) r channels bitrate application).wrapper
      = r * 20 / 1000 ∧
    OpusEncoder_GetFrameSize
        (OpusEncoder_Initialize lib calls (some w) r channels bitrate application).wrapper
        * 1000 = r * 20 ∧
    OpusEncoder_GetFrameSize
        (OpusEncoder_Initialize lib calls (some w) r channels bitrate application).wrapper
      = (if r = 8000 then 160 else if r = 12000 then 240 else if r = 16000 then 320
          else if r = 24000 then 480 else 960) ∧
    wrapInt32 (r * 20) = r * 20 ∧ -2147483648 ≤ r * 20 ∧ r * 20 ≤ 2147483647 := by
  rw [OpusEncoder_Initialize_ok lib calls w r channels bitrate application hr hc hok]
  obtain ⟨h1, h2, h3⟩ := frameSize_of_supported r hr
  refine ⟨rfl, ?_, ?_, ?_, h1, by omega, by omega⟩
  · simpa [OpusEncoder_GetFrameSize] using h2
  · simpa [OpusEncoder_GetFrameSize] using h3
  · rcases hr with h | h | h | h | h <;> subst h <;>
      simp only [OpusEncoder_GetFrameSize] <;> decide

/-- The scenario of C1: rate 48000, 2 channels, bitrate 64000 gives frame size 960. -/
theorem C1_frameSize_after_Initialize_witness :
    (OpusEncoder_Initialize demoLib [] (some OpusEncoderWrapper.zeroed)
        48000 2 64000 2049).ret = 0 ∧
    OpusEncoder_GetFrameSize
        (OpusEncoder_Initialize demoLib [] (some OpusEncoderWrapper.zeroed)
          48000 2 64000 2049).wrapper = 960 := by
  have h := C1_frameSize_after_Initialize demoLib [] OpusEncoderWrapper.zeroed
    48000 2 64000 2049 (by decide) (by decide) rfl
  exact ⟨h.1, h.2.2.2.1⟩

/-- The sample wrapper `demoWrapper` is what a successful Initialize at 48 kHz,
stereo, 64 kbit/s leaves behind. -/
theorem demoWrapper_of_Initialize :
    OpusEncoder_Initialize demoLib [] (some OpusEncoderWrapper.zeroed) 48000 2 64000 2049
      = ⟨0, some demoWrapper,
          .opus_encoder_create 48000 2 2049 :: initCtlCalls demoLib 7 64000⟩ := by
  decide

/-- C2: on every wrapper, in particular on every initialized one,
`OpusEncoder_Encode` with a `frameSize` different from the wrapper's frame size (the
value stored by Initialize) returns -1 whatever the PCM buffer, the output buffer
and `maxOutputSize` are; the wrapper is unchanged and the call log is unchanged, so
`opus_encode` is not invoked. -/
theorem C2_Encode_frameSize_mismatch (lib : OpusLib) (calls : List OpusCall)
    (w : OpusEncoderWrapper) (pcm : Option (List Int)) (frameSize : Int) (output : Nat)
    (maxOutputSize : Int) (hne : frameSize ≠ w.frameSize) :
    OpusEncoder_Encode lib calls (some w) pcm frameSize output maxOutputSize
      = ⟨-1, some w, calls⟩ := by
  unfold OpusEncoder_Encode
  by_cases hg : w.isInitialized = 0 ∨ w.encoder = 0
  · simp only [if_pos hg]
  · simp only [if_neg hg]
    cases pcm with
    | none => rfl
    | some samples =>
      by_cases ho : output = 0
      · simp only [if_pos ho]
      · simp only [if_neg ho, if_pos hne]

/-- Witness of C2 on the wrapper that a successful Initialize at 48 kHz stereo
leaves behind (frame size 960): a 480-sample call is rejected, nothing is encoded. -/
theorem C2_Encode_frameSize_mismatch_witness :
    OpusEncoder_Encode demoLib [] (some demoWrapper) (some [0, 0, 0, 0]) 480 1 4000
      = ⟨-1, some demoWrapper, []⟩ :=
  C2_Encode_frameSize_mismatch demoLib [] demoWrapper (some [0, 0, 0, 0]) 480 1 4000
    (by decide)

/-- C3: with `channels` outside {1, 2} or `sampleRate` outside
{8000, 12000, 16000, 24000, 48000} (any bitrate and application),
`OpusEncoder_Initialize` returns -1, makes no Opus call (no codec instance is
created) and leaves the wrapper zeroed, hence with `isInitialized = 0`; every
later `OpusEncoder_Encode` on that wrapper returns -1 without calling the codec,
and `OpusEncoder_GetFrameSize` returns -1. -/
theorem C3_Initialize_invalid_arguments (lib : OpusLib) (calls : List OpusCall)
    (w : OpusEncoderWrapper) (sampleRate channels bitrate application : Int)
    (hbad : (channels ≠ 1 ∧ channels ≠ 2) ∨
      (sampleRate ≠ 8000 ∧ sampleRate ≠ 12000 ∧ sampleRate ≠ 16000 ∧
        sampleRate ≠ 24000 ∧ sampleRate ≠ 48000)) :
    OpusEncoder_Initialize lib calls (some w) sampleRate channels bitrate application
      = ⟨-1, some OpusEncoderWrapper.zeroed, calls⟩ ∧
    OpusEncoderWrapper.zeroed.isInitialized = 0 ∧
    (∀ (lib2 : OpusLib) (calls2 : List OpusCall) (pcm : Option (List Int))
        (frameSize : Int) (output : Nat) (maxOutputSize : Int),
      OpusEncoder_Encode lib2 calls2
          (OpusEncoder_Initialize lib calls (some w) sampleRate channels bitrate
            application).wrapper pcm frameSize output maxOutputSize
        = ⟨-1, some OpusEncoderWrapper.zeroed, calls2⟩) ∧
    OpusEncoder_GetFrameSize
      (OpusEncoder_Initialize lib calls (some w) sampleRate channels bitrate
        application).wrapper = -1 := by
  have hinit : OpusEncoder_Initialize lib calls (some w) sampleRate channels bitrate
      application = ⟨-1, some OpusEncoderWrapper.zeroed, calls⟩ := by
    unfold OpusEncoder_Initialize
    by_cases hch : channels < 1 ∨ channels > 2
    · simp only [if_pos hch]
    · have hrate : sampleRate ≠ 8000 ∧ sampleRate ≠ 12000 ∧ sampleRate ≠ 16000 ∧
          sampleRate ≠ 24000 ∧ sampleRate ≠ 48000 := by
        rcases hbad with h | h
        · exact absurd (by omega) hch
        · exact h
      simp only [if_neg hch, if_pos hrate]
  rw [hinit]
  refine ⟨rfl, rfl, ?_, rfl⟩
  intro lib2 calls2 pcm frameSize output maxOutputSize
  rfl

/-- Witness of C3: three channels at 48 kHz, then 44100 Hz stereo. -/
theorem C3_Initialize_invalid_arguments_witness :
    OpusEncoder_Initialize demoLib [] (some demoWrapper) 48000 3 64000 2049
      = ⟨-1, some OpusEncoderWrapper.zeroed, []⟩ ∧
    OpusEncoder_Initialize demoLib [] (some demoWrapper) 44100 2 64000 2049
      = ⟨-1, some OpusEncoderWrapper.zeroed, []⟩ :=
  ⟨(C3_Initialize_invalid_arguments demoLib [] demoWrapper 48000 3 64000 2049
      (Or.inl (by decide))).1,
   (C3_Initialize_invalid_arguments demoLib [] demoWrapper 44100 2 64000 2049
      (Or.inr (by decide))).1⟩

/-- Encode on a wrapper that passes all guards: the codec is called exactly once and
its result decides the return value. -/
theorem OpusEncoder_Encode_ready (lib : OpusLib) (calls : List OpusCall)
    (w : OpusEncoderWrapper) (samples : List Int) (output : Nat) (maxOutputSize : Int)
    (hinit : w.isInitialized ≠ 0) (henc : w.encoder ≠ 0) (hout : output ≠ 0) :
    OpusEncoder_Encode lib calls (some w) (some samples) w.frameSize output maxOutputSize
      = ⟨if lib.opus_encode calls w.encoder samples w.frameSize output maxOutputSize < 0
          then -1
          else lib.opus_encode calls w.encoder samples w.frameSize output maxOutputSize,
         some w,
         calls ++ [.opus_encode w.encoder samples w.frameSize output maxOutputSize]⟩ := by
  have hg : ¬ (w.isInitialized = 0 ∨ w.encoder = 0) := by
    rintro (h | h)
    · exact hinit h
    · exact henc h
  unfold OpusEncoder_Encode
  simp only [if_neg hg, if_neg hout, ne_eq, not_true_eq_false, if_false]
  split <;> rfl

/-- C5 as stated fails: when the codec reports the error code `-2`, Encode returns
`-1`, which is greater than the codec's result. -/
theorem C5_Encode_result_counterexample :
    demoWrapper.isInitialized ≠ 0 ∧ demoWrapper.encoder ≠ 0 ∧
    demoLib.opus_encode [] demoWrapper.encoder (List.replicate 1920 0) 960 1 1 = -2 ∧
    (OpusEncoder_Encode demoLib [] (some demoWrapper) (some (List.replicate 1920 0))
        960 1 1).ret = -1 ∧
    ¬ ((OpusEncoder_Encode demoLib [] (some demoWrapper) (some (List.replicate 1920 0))
        960 1 1).ret
      ≤ demoLib.opus_encode [] demoWrapper.encoder (List.replicate 1920 0) 960 1 1) := by
  refine ⟨by decide, by decide, rfl, rfl, ?_⟩
  show ¬ ((-1 : Int) ≤ -2)
  decide

/-- C5 (amended): on a wrapper with `isInitialized` set and a live encoder handle,
with non-null `pcm` and `output` and `frameSize` equal to the wrapper's frame size,
`OpusEncoder_Encode` calls `opus_encode` exactly once, leaves the wrapper unchanged,
returns the codec's byte count `n` when `n ≥ 0` (so a result within
`0 .. maxOutputSize` when the codec keeps to that bound) and returns -1 when the
codec returns a negative code; the only negative value it returns is -1, and its
result never exceeds the codec's result when that result is at least -1 (in general
it never exceeds `max n (-1)`). -/
theorem C5_Encode_result (lib : OpusLib) (calls : List OpusCall)
    (w : OpusEncoderWrapper) (samples : List Int) (output : Nat) (maxOutputSize : Int)
    (hinit : w.isInitialized ≠ 0) (henc : w.encoder ≠ 0) (hout : output ≠ 0) :
    (OpusEncoder_Encode lib calls (some w) (some samples) w.frameSize output
        maxOutputSize).wrapper = some w ∧
    (OpusEncoder_Encode lib calls (some w) (some samples) w.frameSize output
        maxOutputSize).calls
      = calls ++ [.opus_encode w.encoder samples w.frameSize output maxOutputSize] ∧
    (0 ≤ lib.opus_encode calls w.encoder samples w.frameSize output maxOutputSize →
      (OpusEncoder_Encode lib calls (some w) (some samples) w.frameSize output
          maxOutputSize).ret
        = lib.opus_encode calls w.encoder samples w.frameSize output maxOutputSize) ∧
    (0 ≤ lib.opus_encode calls w.encoder samples w.frameSize output maxOutputSize →
      lib.opus_encode calls w.encoder samples w.frameSize output maxOutputSize
        ≤ maxOutputSize →
      0 ≤ (OpusEncoder_Encode lib calls (some w) (some samples) w.frameSize output
          maxOutputSize).ret ∧
      (OpusEncoder_Encode lib calls (some w) (some samples) w.frameSize output
          maxOutputSize).ret ≤ maxOutputSize) ∧
    (lib.opus_encode calls w.encoder samples w.frameSize output maxOutputSize < 0 →
      (OpusEncoder_Encode lib calls (some w) (some samples) w.frameSize output
          maxOutputSize).ret = -1) ∧
    ((OpusEncoder_Encode lib calls (some w) (some samples) w.frameSize output
          maxOutputSize).ret < 0 →
      (OpusEncoder_Encode lib calls (some w) (some samples) w.frameSize output
          maxOutputSize).ret = -1) ∧
    (-1 ≤ lib.opus_encode calls w.encoder samples w.frameSize output maxOutputSize →
      (OpusEncoder_Encode lib calls (some w) (some samples) w.frameSize output
          maxOutputSize).ret
        ≤ lib.opus_encode calls w.encoder samples w.frameSize output maxOutputSize) ∧
    (OpusEncoder_Encode lib calls (some w) (some samples) w.frameSize output
        maxOutputSize).ret
      ≤ max (lib.opus_encode calls w.encoder samples w.frameSize output maxOutputSize)
          (-1) := by
  rw [OpusEncoder_Encode_ready lib calls w samples output maxOutputSize hinit henc hout]
  generalize lib.opus_encode calls w.encoder samples w.frameSize output maxOutputSize = n
  refine ⟨rfl, rfl, ?_, ?_, ?_, ?_, ?_, ?_⟩
  · intro h
    simp only [if_neg (not_lt.mpr h)]
  · intro h hmax
    simp only [if_neg (not_lt.mpr h)]
    exact ⟨h, hmax⟩
  · intro h
    simp only [if_pos h]
  · intro h
    by_cases hn : n < 0
    · simp only [if_pos hn]
    · simp only [if_neg hn] at h
      exact absurd h hn
  · intro h
    by_cases hn : n < 0
    · simp only [if_pos hn]
      omega
    · simp only [if_neg hn]
      exact le_refl n
  · by_cases hn : n < 0
    · simp only [if_pos hn]
      exact le_max_right n (-1)
    · simp only [if_neg hn]
      exact le_max_left n (-1)

/-- Witness of C5 (amended): a silent 960-sample stereo frame into a 4000-byte
buffer yields the codec's three bytes. -/
theorem C5_Encode_result_witness :
    (OpusEncoder_Encode demoLib [] (some demoWrapper) (some (List.replicate 1920 0))
        960 1 4000).ret = 3 ∧
    (OpusEncoder_Encode demoLib [] (some demoWrapper) (some (List.replicate 1920 0))
        960 1 4000).wrapper = some demoWrapper :=
  ⟨(C5_Encode_result demoLib [] demoWrapper (List.replicate 1920 0) 1 4000
      (by decide) (by decide) (by decide)).2.2.1 (by decide),
   (C5_Encode_result demoLib [] demoWrapper (List.replicate 1920 0) 1 4000
      (by decide) (by decide) (by decide)).1⟩

/-- C6: on a wrapper with `isInitialized` set and a live encoder handle,
`OpusEncoder_SetComplexity` returns -1 and issues no codec control call (the wrapper
and the call log are unchanged) when `complexity < 0` or `complexity > 10`; when
`0 ≤ complexity ≤ 10` it issues exactly one `opus_encoder_ctl` call carrying
`OPUS_SET_COMPLEXITY(complexity)`, leaves the wrapper unchanged, and returns 0 if and
only if the codec reported `OPUS_OK` (and -1 otherwise). -/
theorem C6_SetComplexity_range (lib : OpusLib) (calls : List OpusCall)
    (w : OpusEncoderWrapper) (complexity : Int)
    (hinit : w.isInitialized ≠ 0) (henc : w.encoder ≠ 0) :
    (complexity < 0 ∨ complexity > 10 →
      OpusEncoder_SetComplexity lib calls (some w) complexity = ⟨-1, some w, calls⟩) ∧
    (0 ≤ complexity ∧ complexity ≤ 10 →
      (OpusEncoder_SetComplexity lib calls (some w) complexity).calls
        = calls ++ [.opus_encoder_ctl w.encoder (.OPUS_SET_COMPLEXITY complexity)] ∧
      (OpusEncoder_SetComplexity lib calls (some w) complexity).wrapper = some w ∧
      ((OpusEncoder_SetComplexity lib calls (some w) complexity).ret = 0 ↔
        lib.opus_encoder_ctl calls w.encoder (.OPUS_SET_COMPLEXITY complexity)
          = lib.OPUS_OK) ∧
      ((OpusEncoder_SetComplexity lib calls (some w) complexity).ret = -1 ↔
        lib.opus_encoder_ctl calls w.encoder (.OPUS_SET_COMPLEXITY complexity)
          ≠ lib.OPUS_OK)) := by
  have hg : ¬ (w.isInitialized = 0 ∨ w.encoder = 0) := by
    rintro (h | h)
    · exact hinit h
    · exact henc h
  constructor
  · intro hbad
    unfold OpusEncoder_SetComplexity
    simp only [if_neg hg, if_pos hbad]
  · intro hrange
    have hr : ¬ (complexity < 0 ∨ complexity > 10) := by omega
    unfold OpusEncoder_SetComplexity
    simp only [if_neg hg, if_neg hr]
    by_cases hok : lib.opus_encoder_ctl calls w.encoder
        (.OPUS_SET_COMPLEXITY complexity) = lib.OPUS_OK
    · simp [hok]
    · simp [hok]

/-- Witness of C6: complexity 11 is rejected without a call, complexity 5 is passed
to the codec and accepted. -/
theorem C6_SetComplexity_range_witness :
    OpusEncoder_SetComplexity demoLib [] (some demoWrapper) 11
      = ⟨-1, some demoWrapper, []⟩ ∧
    (OpusEncoder_SetComplexity demoLib [] (some demoWrapper) 5).calls
      = [.opus_encoder_ctl 7 (.OPUS_SET_COMPLEXITY 5)] ∧
    (OpusEncoder_SetComplexity demoLib [] (some demoWrapper) 5).ret = 0 :=
  ⟨(C6_SetComplexity_range demoLib [] demoWrapper 11 (by decide) (by decide)).1
      (Or.inr (by decide)),
   ((C6_SetComplexity_range demoLib [] demoWrapper 5 (by decide) (by decide)).2
      ⟨by decide, by decide⟩).1,
   ((C6_SetComplexity_range demoLib [] demoWrapper 5 (by decide) (by decide)).2
      ⟨by decide, by decide⟩).2.2.1.mpr rfl⟩

/-- C7: on a wrapper with `isInitialized` set and a live encoder handle,
`OpusEncoder_SetBitrate` issues one `opus_encoder_ctl` call with
`OPUS_SET_BITRATE(bitrate)`; when the codec reports `OPUS_OK` it returns 0 and the
wrapper's `bitrate` field holds the new value (the other fields unchanged); when
the codec reports anything else it returns -1 and every wrapper field, the stored
bitrate included, is unchanged.  On an uninitialized wrapper (null pointer,
`isInitialized = 0`, or null encoder handle) it returns -1 without any codec call. -/
theorem C7_SetBitrate (lib : OpusLib) (calls : List OpusCall)
    (w : OpusEncoderWrapper) (bitrate : Int) :
    (w.isInitialized ≠ 0 → w.encoder ≠ 0 →
      lib.opus_encoder_ctl calls w.encoder (.OPUS_SET_BITRATE bitrate) = lib.OPUS_OK →
      OpusEncoder_SetBitrate lib calls (some w) bitrate
        = ⟨0, some { w with bitrate := bitrate },
            calls ++ [.opus_encoder_ctl w.encoder (.OPUS_SET_BITRATE bitrate)]⟩) ∧
    (w.isInitialized ≠ 0 → w.encoder ≠ 0 →
      lib.opus_encoder_ctl calls w.encoder (.OPUS_SET_BITRATE bitrate) ≠ lib.OPUS_OK →
      OpusEncoder_SetBitrate lib calls (some w) bitrate
        = ⟨-1, some w,
            calls ++ [.opus_encoder_ctl w.encoder (.OPUS_SET_BITRATE bitrate)]⟩) ∧
    (w.isInitialized = 0 ∨ w.encoder = 0 →
      OpusEncoder_SetBitrate lib calls (some w) bitrate = ⟨-1, some w, calls⟩) ∧
    OpusEncoder_SetBitrate lib calls none bitrate = ⟨-1, none, calls⟩ := by
  refine ⟨?_, ?_, ?_, rfl⟩
  · intro hinit henc hok
    have hg : ¬ (w.isInitialized = 0 ∨ w.encoder = 0) := by
      rintro (h | h)
      · exact hinit h
      · exact henc h
    unfold OpusEncoder_SetBitrate
    simp only [if_neg hg, hok, ne_eq, not_true_eq_false, if_false]
  · intro hinit henc hfail
    have hg : ¬ (w.isInitialized = 0 ∨ w.encoder = 0) := by
      rintro (h | h)
      · exact hinit h
      · exact henc h
    unfold OpusEncoder_SetBitrate
    simp only [if_neg hg, if_pos hfail]
  · intro hun
    unfold OpusEncoder_SetBitrate
    simp only [if_pos hun]

/-- Witness of C7: a successful change to 96000, a change refused by the codec, and
a call on a zeroed wrapper. -/
theorem C7_SetBitrate_witness :
    OpusEncoder_SetBitrate demoLib [] (some demoWrapper) 96000
      = ⟨0, some { demoWrapper with bitrate := 96000 },
          [.opus_encoder_ctl 7 (.OPUS_SET_BITRATE 96000)]⟩ ∧
    OpusEncoder_SetBitrate failingCtlLib [] (some demoWrapper) 96000
      = ⟨-1, some demoWrapper, [.opus_encoder_ctl 7 (.OPUS_SET_BITRATE 96000)]⟩ ∧
    OpusEncoder_SetBitrate demoLib [] (some OpusEncoderWrapper.zeroed) 96000
      = ⟨-1, some OpusEncoderWrapper.zeroed, []⟩ :=
  ⟨(C7_SetBitrate demoLib [] demoWrapper 96000).1 (by decide) (by decide) rfl,
   (C7_SetBitrate failingCtlLib [] demoWrapper 96000).2.1 (by decide) (by decide)
      (by decide),
   (C7_SetBitrate demoLib [] OpusEncoderWrapper.zeroed 96000).2.2.1
      (Or.inl rfl)⟩

/-- C8: for every wrapper state, after `OpusEncoder_Cleanup` the encoder handle is
NULL and `isInitialized` is 0 (the other fields are kept), so
`OpusEncoder_GetFrameSize` returns -1 and `OpusEncoder_Encode` returns -1 without a
codec call.  The first Cleanup destroys the codec instance once if the handle was
live; a second Cleanup leaves the state as it is and adds no call, so the instance
is not destroyed a second time.  On a null pointer Cleanup does nothing. -/
theorem C8_Cleanup_idempotent (calls : List OpusCall) (w : OpusEncoderWrapper) :
    (OpusEncoder_Cleanup calls (some w)).1
      = some { w with encoder := 0, isInitialized := 0 } ∧
    (OpusEncoder_Cleanup calls (some w)).2
      = calls ++ (if w.encoder ≠ 0 then [.opus_encoder_destroy w.encoder] else []) ∧
    OpusEncoder_GetFrameSize (OpusEncoder_Cleanup calls (some w)).1 = -1 ∧
    (∀ (lib : OpusLib) (calls2 : List OpusCall) (pcm : Option (List Int))
        (frameSize : Int) (output : Nat) (maxOutputSize : Int),
      OpusEncoder_Encode lib calls2 (OpusEncoder_Cleanup calls (some w)).1 pcm
          frameSize output maxOutputSize
        = ⟨-1, (OpusEncoder_Cleanup calls (some w)).1, calls2⟩) ∧
    OpusEncoder_Cleanup (OpusEncoder_Cleanup calls (some w)).2
        (OpusEncoder_Cleanup calls (some w)).1
      = OpusEncoder_Cleanup calls (some w) ∧
    OpusEncoder_Cleanup calls none = (none, calls) := by
  by_cases h : w.encoder ≠ 0
  · have hc : OpusEncoder_Cleanup calls (some w)
        = (some { w with encoder := 0, isInitialized := 0 },
            calls ++ [.opus_encoder_destroy w.encoder]) := by
      unfold OpusEncoder_Cleanup
      simp only [if_pos h]
    rw [hc]
    refine ⟨rfl, by simp only [if_pos h], rfl, ?_, rfl, rfl⟩
    intro lib calls2 pcm frameSize output maxOutputSize
    rfl
  · have h0 : w.encoder = 0 := not_not.mp h
    have hc : OpusEncoder_Cleanup calls (some w)
        = (some { w with encoder := 0, isInitialized := 0 }, calls) := by
      unfold OpusEncoder_Cleanup
      simp only [if_neg h]
      cases w
      simp only at h0
      subst h0
      rfl
    rw [hc]
    refine ⟨rfl, by simp only [if_neg h, List.append_nil], rfl, ?_, rfl, rfl⟩
    intro lib calls2 pcm frameSize output maxOutputSize
    rfl

/-! ## Theorems: sample conversion -/

/-- No value is both below `-1.0f` and above `1.0f`. -/
theorem Float32.not_gt_one_of_lt_negOne (x : Float32)
    (h : Float32.lt x Float32.negOne = true) : Float32.gt x Float32.one = false := by
  cases x with
  | nan => rfl
  | inf negative => cases negative <;> first | rfl | exact absurd h (by decide)
  | finite m e =>
    simp only [Float32.lt, Float32.negOne, decide_eq_true_eq] at h
    simp only [Float32.gt, Float32.lt, Float32.one, decide_eq_false_iff_not, not_lt]
    rw [min_comm 0 e]
    have hp : (0 : Int) < 2 ^ (0 - min e 0).toNat := by positivity
    generalize (2 : Int) ^ (0 - min e 0).toNat = b at h hp ⊢
    generalize m * 2 ^ (e - min e 0).toNat = a at h ⊢
    omega

/-- C4: the float-to-int16 conversion of the macOS backend (clamp to [-1.0, 1.0],
multiply by 32767, cast to int16) maps `+1.0` to 32767 and `-1.0` to -32767; every
input above `1.0` (positive infinity included) gives the same value as `+1.0`, 32767,
and every input below `-1.0` (negative infinity included) gives the same value as
`-1.0`, -32767. -/
theorem C4_convertSample_clamp :
    InputCallback_convertSample Float32.one = some 32767 ∧
    InputCallback_convertSample Float32.negOne = some (-32767) ∧
    (∀ x : Float32, Float32.gt x Float32.one = true →
      InputCallback_convertSample x = InputCallback_convertSample Float32.one ∧
      InputCallback_convertSample x = some 32767) ∧
    (∀ x : Float32, Float32.lt x Float32.negOne = true →
      InputCallback_convertSample x = InputCallback_convertSample Float32.negOne ∧
      InputCallback_convertSample x = some (-32767)) := by
  have h1 : InputCallback_convertSample Float32.one = some 32767 := by decide
  have h2 : InputCallback_convertSample Float32.negOne = some (-32767) := by decide
  refine ⟨h1, h2, ?_, ?_⟩
  · intro x hx
    have hx1 : InputCallback_convertSample x = some 32767 := by
      simp only [InputCallback_convertSample, hx, if_true]
      decide
    exact ⟨hx1.trans h1.symm, hx1⟩
  · intro x hx
    have hgt := Float32.not_gt_one_of_lt_negOne x hx
    have hx2 : InputCallback_convertSample x = some (-32767) := by
      simp only [InputCallback_convertSample, hgt, hx, Bool.false_eq_true, if_false,
        if_true]
      decide
    exact ⟨hx2.trans h2.symm, hx2⟩

/-- Witness of C4: the samples `2.5` and positive infinity convert to 32767, the
samples `-1.5` and negative infinity to -32767. -/
theorem C4_convertSample_clamp_witness :
    InputCallback_convertSample (Float32.finite 5 (-1)) = some 32767 ∧
    InputCallback_convertSample (Float32.inf false) = some 32767 ∧
    InputCallback_convertSample (Float32.finite (-3) (-1)) = some (-32767) ∧
    InputCallback_convertSample (Float32.inf true) = some (-32767) :=
  ⟨(C4_convertSample_clamp.2.2.1 (Float32.finite 5 (-1)) (by decide)).2,
   (C4_convertSample_clamp.2.2.1 (Float32.inf false) (by decide)).2,
   (C4_convertSample_clamp.2.2.2 (Float32.finite (-3) (-1)) (by decide)).2,
   (C4_convertSample_clamp.2.2.2 (Float32.inf true) (by decide)).2⟩

/-! ## Theorems: capture session lifecycle -/

/-- Linux Start on a session that is initialized and already capturing. -/
theorem PulseAudio_Capture_Start_capturing (os : PulseOS) (calls : List PulseCall)
    (c : PulseAudio_Capture) (hinit : c.isInitialized ≠ 0) (hcap : c.isCapturing ≠ 0) :
    PulseAudio_Capture_Start os calls (some c) = ⟨0, some c, calls⟩ := by
  unfold PulseAudio_Capture_Start
  simp only [if_neg hinit, if_pos hcap]

/-- The macOS Start on a session that is initialized and already capturing. -/
theorem CoreAudio_Capture_Start_capturing (os : CoreAudioOS)
    (calls : List CoreAudioCall) (c : CoreAudio_Capture)
    (hinit : c.isInitialized ≠ 0) (hcap : c.isCapturing ≠ 0) :
    CoreAudio_Capture_Start os calls (some c) = ⟨noErr, some c, calls⟩ := by
  unfold CoreAudio_Capture_Start
  simp only [if_neg hinit, if_pos hcap]

/-- Windows Start on a session that is initialized and already capturing. -/
theorem WASAPI_AudioCapture_Start_capturing (os : WasapiOS) (calls : List WasapiCall)
    (c : WASAPI_AudioCapture) (hinit : c.isInitialized ≠ 0) (hcap : c.isCapturing ≠ 0) :
    WASAPI_AudioCapture_Start os calls (some c) = some ⟨S_FALSE, some c, calls⟩ := by
  unfold WASAPI_AudioCapture_Start
  simp only [if_neg hinit, if_pos hcap]

/-- C9: Start is idempotent on every backend.  On a session that is initialized and
already capturing, Start returns a success status (0 on Linux, `noErr` on macOS, the
non-failure `HRESULT` `S_FALSE` on Windows), leaves every session field as it is and
makes no native call: no thread is created and the native start call is not issued.
Hence, from an initialized session that is not capturing, a successful Start followed
by another Start makes the set-up calls once: on Linux the log grows by exactly one
`pthread_create`, on Windows by one `IAudioClient::Start` and one `CreateThread`, on
macOS by one `AudioOutputUnitStart`, and the second Start adds nothing. -/
theorem C9_Start_idempotent :
    (∀ (os : PulseOS) (calls : List PulseCall) (c : PulseAudio_Capture),
      c.isInitialized ≠ 0 → c.isCapturing ≠ 0 →
      PulseAudio_Capture_Start os calls (some c) = ⟨0, some c, calls⟩) ∧
    (∀ (os : CoreAudioOS) (calls : List CoreAudioCall) (c : CoreAudio_Capture),
      c.isInitialized ≠ 0 → c.isCapturing ≠ 0 →
      CoreAudio_Capture_Start os calls (some c) = ⟨noErr, some c, calls⟩) ∧
    (∀ (os : WasapiOS) (calls : List WasapiCall) (c : WASAPI_AudioCapture),
      c.isInitialized ≠ 0 → c.isCapturing ≠ 0 →
      WASAPI_AudioCapture_Start os calls (some c) = some ⟨S_FALSE, some c, calls⟩) ∧
    FAILED S_FALSE = false ∧
    (∀ (os : PulseOS) (calls : List PulseCall) (c : PulseAudio_Capture),
      c.isInitialized ≠ 0 → c.isCapturing = 0 →
      (PulseAudio_Capture_Start os calls (some c)).ret = 0 →
      (PulseAudio_Capture_Start os calls (some c)).calls = calls ++ [.pthread_create] ∧
      PulseAudio_Capture_Start os (PulseAudio_Capture_Start os calls (some c)).calls
          (PulseAudio_Capture_Start os calls (some c)).capture
        = ⟨0, (PulseAudio_Capture_Start os calls (some c)).capture,
            calls ++ [.pthread_create]⟩ ∧
      (PulseAudio_Capture_Start os (PulseAudio_Capture_Start os calls (some c)).calls
          (PulseAudio_Capture_Start os calls (some c)).capture).calls.count
            .pthread_create
        = calls.count .pthread_create + 1) ∧
    (∀ (os : CoreAudioOS) (calls : List CoreAudioCall) (c : CoreAudio_Capture),
      c.isInitialized ≠ 0 → c.isCapturing = 0 →
      (CoreAudio_Capture_Start os calls (some c)).ret = noErr →
      CoreAudio_Capture_Start os (CoreAudio_Capture_Start os calls (some c)).calls
          (CoreAudio_Capture_Start os calls (some c)).capture
        = ⟨noErr, (CoreAudio_Capture_Start os calls (some c)).capture,
            calls ++ [.AudioOutputUnitStart c.audioUnit]⟩) ∧
    (∀ (os : WasapiOS) (calls : List WasapiCall) (c : WASAPI_AudioCapture)
        (out : WasapiOutcome),
      c.isInitialized ≠ 0 → c.isCapturing = 0 →
      WASAPI_AudioCapture_Start os calls (some c) = some out → out.ret = S_OK →
      out.calls = calls ++ [.IAudioClient_Start c.audioClient, .CreateThread] ∧
      WASAPI_AudioCapture_Start os out.calls out.capture
        = some ⟨S_FALSE, out.capture, out.calls⟩) := by
  refine ⟨PulseAudio_Capture_Start_capturing, CoreAudio_Capture_Start_capturing,
    WASAPI_AudioCapture_Start_capturing, by decide, ?_, ?_, ?_⟩
  · intro os calls c hinit hcap hret
    have hcap0 : ¬ (c.isCapturing ≠ 0) := not_not.mpr hcap
    have hres : (os.pthread_create calls c.captureThread).1 = 0 := by
      by_contra hne
      have hfail : (PulseAudio_Capture_Start os calls (some c)).ret = -1 := by
        unfold PulseAudio_Capture_Start
        simp only [if_neg hinit, if_neg hcap0, ne_eq, hne, not_false_eq_true, if_true]
      rw [hfail] at hret
      exact absurd hret (by decide)
    have hfirst : PulseAudio_Capture_Start os calls (some c)
        = ⟨0, some { c with isCapturing := 1,
                            captureThread := (os.pthread_create calls c.captureThread).2 },
            calls ++ [.pthread_create]⟩ := by
      unfold PulseAudio_Capture_Start
      simp only [if_neg hinit, if_neg hcap0, ne_eq, hres, not_true_eq_false, if_false]
    rw [hfirst]
    have hsecond := PulseAudio_Capture_Start_capturing os (calls ++ [.pthread_create])
      { c with isCapturing := 1,
               captureThread := (os.pthread_create calls c.captureThread).2 }
      hinit (show (1 : Int) ≠ 0 by decide)
    refine ⟨rfl, hsecond, ?_⟩
    rw [hsecond]
    simp
  · intro os calls c hinit hcap hret
    have hcap0 : ¬ (c.isCapturing ≠ 0) := not_not.mpr hcap
    have hres : os.AudioOutputUnitStart calls c.audioUnit = noErr := by
      by_contra hne
      have hfail : (CoreAudio_Capture_Start os calls (some c)).ret
          = os.AudioOutputUnitStart calls c.audioUnit := by
        unfold CoreAudio_Capture_Start
        simp only [if_neg hinit, if_neg hcap0, ne_eq, hne, not_false_eq_true, if_true]
      rw [hfail] at hret
      exact hne hret
    have hfirst : CoreAudio_Capture_Start os calls (some c)
        = ⟨noErr, some { c with isCapturing := 1 },
            calls ++ [.AudioOutputUnitStart c.audioUnit]⟩ := by
      unfold CoreAudio_Capture_Start
      simp only [if_neg hinit, if_neg hcap0, ne_eq, hres, not_true_eq_false, if_false]
    rw [hfirst]
    exact CoreAudio_Capture_Start_capturing os _ { c with isCapturing := 1 } hinit
      (show (1 : Int) ≠ 0 by decide)
  · intro os calls c out hinit hcap hstart hret
    have hcap0 : ¬ (c.isCapturing ≠ 0) := not_not.mpr hcap
    unfold WASAPI_AudioCapture_Start at hstart
    simp only [if_neg hinit, if_neg hcap0] at hstart
    by_cases hcl : c.audioClient = 0
    · simp only [if_pos hcl] at hstart
      exact absurd hstart (by simp)
    · simp only [if_neg hcl] at hstart
      by_cases hf : FAILED (os.IAudioClient_Start calls c.audioClient) = true
      · simp only [if_pos hf, Option.some.injEq] at hstart
        subst hstart
        simp only [FAILED, decide_eq_true_eq] at hf
        simp only [S_OK] at hret
        omega
      · simp only [if_neg hf] at hstart
        by_cases ht : os.CreateThread
            (calls ++ [.IAudioClient_Start c.audioClient]) = 0
        · simp only [if_pos ht, Option.some.injEq] at hstart
          subst hstart
          exact absurd (hret : E_FAIL = S_OK) (show ¬ (E_FAIL = S_OK) by decide)
        · simp only [if_neg ht, Option.some.injEq] at hstart
          subst hstart
          refine ⟨by simp, ?_⟩
          exact WASAPI_AudioCapture_Start_capturing os _
            { c with isCapturing := 1,
                     captureThread := os.CreateThread
                       (calls ++ [.IAudioClient_Start c.audioClient]) }
            hinit (show (1 : Int) ≠ 0 by decide)

/-- Witness of C9: a second Start on each backend after a first successful one. -/
theorem C9_Start_idempotent_witness :
    PulseAudio_Capture_Start demoPulseOS [.pthread_create]
        (some { demoPulse with isCapturing := 1, captureThread := 21 })
      = ⟨0, some { demoPulse with isCapturing := 1, captureThread := 21 },
          [.pthread_create]⟩ ∧
    CoreAudio_Capture_Start demoCoreAudioOS [.AudioOutputUnitStart 12]
        (some { demoCoreAudio with isCapturing := 1 })
      = ⟨noErr, some { demoCoreAudio with isCapturing := 1 },
          [.AudioOutputUnitStart 12]⟩ ∧
    WASAPI_AudioCapture_Start demoWasapiOS [.IAudioClient_Start 3, .CreateThread]
        (some { demoWasapi with isCapturing := 1, captureThread := 31 })
      = some ⟨S_FALSE, some { demoWasapi with isCapturing := 1, captureThread := 31 },
          [.IAudioClient_Start 3, .CreateThread]⟩ ∧
    (PulseAudio_Capture_Start demoPulseOS
        (PulseAudio_Capture_Start demoPulseOS [] (some demoPulse)).calls
        (PulseAudio_Capture_Start demoPulseOS [] (some demoPulse)).capture).calls.count
          .pthread_create = 1 :=
  ⟨C9_Start_idempotent.1 demoPulseOS [.pthread_create]
      { demoPulse with isCapturing := 1, captureThread := 21 } (by decide) (by decide),
   C9_Start_idempotent.2.1 demoCoreAudioOS [.AudioOutputUnitStart 12]
      { demoCoreAudio with isCapturing := 1 } (by decide) (by decide),
   C9_Start_idempotent.2.2.1 demoWasapiOS [.IAudioClient_Start 3, .CreateThread]
      { demoWasapi with isCapturing := 1, captureThread := 31 } (by decide) (by decide),
   (C9_Start_idempotent.2.2.2.2.1 demoPulseOS [] demoPulse (by decide) rfl rfl).2.2⟩

/-- Linux Stop leaves a session that is not capturing. -/
theorem PulseAudio_Capture_Stop_isCapturing (calls : List PulseCall)
    (c : PulseAudio_Capture) :
    ∃ c1 : PulseAudio_Capture,
      (PulseAudio_Capture_Stop calls (some c)).1 = some c1 ∧ c1.isCapturing = 0 := by
  unfold PulseAudio_Capture_Stop
  by_cases hcap : c.isCapturing = 0
  · exact ⟨c, by simp only [if_pos hcap], hcap⟩
  · by_cases ht : c.captureThread ≠ 0
    · exact ⟨{ c with isCapturing := 0, captureThread := 0 },
        by simp only [if_neg hcap, if_pos ht], rfl⟩
    · exact ⟨{ c with isCapturing := 0 }, by simp only [if_neg hcap, if_neg ht], rfl⟩

/-- The macOS Stop leaves a session that is not capturing. -/
theorem CoreAudio_Capture_Stop_isCapturing (calls : List CoreAudioCall)
    (c : CoreAudio_Capture) :
    ∃ c1 : CoreAudio_Capture,
      (CoreAudio_Capture_Stop calls (some c)).1 = some c1 ∧ c1.isCapturing = 0 := by
  unfold CoreAudio_Capture_Stop
  by_cases hcap : c.isCapturing = 0
  · exact ⟨c, by simp only [if_pos hcap], hcap⟩
  · exact ⟨{ c with isCapturing := 0 }, by simp only [if_neg hcap], rfl⟩

/-- Windows Stop leaves a session that is not capturing. -/
theorem WASAPI_AudioCapture_Stop_isCapturing (calls : List WasapiCall)
    (c : WASAPI_AudioCapture) :
    ∃ c1 : WASAPI_AudioCapture,
      (WASAPI_AudioCapture_Stop calls (some c)).1 = some c1 ∧ c1.isCapturing = 0 := by
  unfold WASAPI_AudioCapture_Stop
  by_cases hcap : c.isCapturing = 0
  · exact ⟨c, by simp only [if_pos hcap], hcap⟩
  · by_cases ht : c.captureThread ≠ 0
    · exact ⟨{ c with isCapturing := 0, captureThread := 0 },
        by simp only [if_neg hcap, if_pos ht], rfl⟩
    · exact ⟨{ c with isCapturing := 0 }, by simp only [if_neg hcap, if_neg ht], rfl⟩

/-- C10: on every backend, Stop on a session with `isCapturing = 0` (a freshly
initialized session on which Start was never called, or one already stopped)
returns with every session field unchanged and without any native call — no thread
is joined, no event is signalled, no audio unit or audio client is stopped.
Consequently, for every session, Stop applied twice gives the same session and the
same call log as Stop applied once. -/
theorem C10_Stop_not_capturing :
    (∀ (calls : List PulseCall) (c : PulseAudio_Capture), c.isCapturing = 0 →
      PulseAudio_Capture_Stop calls (some c) = (some c, calls)) ∧
    (∀ (calls : List CoreAudioCall) (c : CoreAudio_Capture), c.isCapturing = 0 →
      CoreAudio_Capture_Stop calls (some c) = (some c, calls)) ∧
    (∀ (calls : List WasapiCall) (c : WASAPI_AudioCapture), c.isCapturing = 0 →
      WASAPI_AudioCapture_Stop calls (some c) = (some c, calls)) ∧
    (∀ (calls : List PulseCall) (c : PulseAudio_Capture),
      PulseAudio_Capture_Stop (PulseAudio_Capture_Stop calls (some c)).2
          (PulseAudio_Capture_Stop calls (some c)).1
        = PulseAudio_Capture_Stop calls (some c)) ∧
    (∀ (calls : List CoreAudioCall) (c : CoreAudio_Capture),
      CoreAudio_Capture_Stop (CoreAudio_Capture_Stop calls (some c)).2
          (CoreAudio_Capture_Stop calls (some c)).1
        = CoreAudio_Capture_Stop calls (some c)) ∧
    (∀ (calls : List WasapiCall) (c : WASAPI_AudioCapture),
      WASAPI_AudioCapture_Stop (WASAPI_AudioCapture_Stop calls (some c)).2
          (WASAPI_AudioCapture_Stop calls (some c)).1
        = WASAPI_AudioCapture_Stop calls (some c)) := by
  have hP : ∀ (calls : List PulseCall) (c : PulseAudio_Capture), c.isCapturing = 0 →
      PulseAudio_Capture_Stop calls (some c) = (some c, calls) := by
    intro calls c hcap
    unfold PulseAudio_Capture_Stop
    simp only [if_pos hcap]
  have hC : ∀ (calls : List CoreAudioCall) (c : CoreAudio_Capture), c.isCapturing = 0 →
      CoreAudio_Capture_Stop calls (some c) = (some c, calls) := by
    intro calls c hcap
    unfold CoreAudio_Capture_Stop
    simp only [if_pos hcap]
  have hW : ∀ (calls : List WasapiCall) (c : WASAPI_AudioCapture), c.isCapturing = 0 →
      WASAPI_AudioCapture_Stop calls (some c) = (some c, calls) := by
    intro calls c hcap
    unfold WASAPI_AudioCapture_Stop
    simp only [if_pos hcap]
  refine ⟨hP, hC, hW, ?_, ?_, ?_⟩
  · intro calls c
    obtain ⟨c1, h1, h0⟩ := PulseAudio_Capture_Stop_isCapturing calls c
    rw [h1, hP _ c1 h0, ← h1]
  · intro calls c
    obtain ⟨c1, h1, h0⟩ := CoreAudio_Capture_Stop_isCapturing calls c
    rw [h1, hC _ c1 h0, ← h1]
  · intro calls c
    obtain ⟨c1, h1, h0⟩ := WASAPI_AudioCapture_Stop_isCapturing calls c
    rw [h1, hW _ c1 h0, ← h1]

/-- Witness of C10: Stop before any Start on a freshly initialized session of each
backend. -/
theorem C10_Stop_not_capturing_witness :
    PulseAudio_Capture_Stop [] (some demoPulse) = (some demoPulse, []) ∧
    CoreAudio_Capture_Stop [] (some demoCoreAudio) = (some demoCoreAudio, []) ∧
    WASAPI_AudioCapture_Stop [] (some demoWasapi) = (some demoWasapi, []) :=
  ⟨C10_Stop_not_capturing.1 [] demoPulse rfl,
   C10_Stop_not_capturing.2.1 [] demoCoreAudio rfl,
   C10_Stop_not_capturing.2.2.1 [] demoWasapi rfl⟩

/-! ## Theorems: capture format -/

/-- Linux Initialize, whatever `pa_simple_new` returns. -/
theorem PulseAudio_Capture_Initialize_eq (os : PulseOS) (calls : List PulseCall)
    (c : PulseAudio_Capture) :
    PulseAudio_Capture_Initialize os calls (some c)
      = ⟨if os.pa_simple_new calls = 0 then -1 else 0,
         some { pulseAudio := os.pa_simple_new calls, captureThread := 0,
                isCapturing := 0,
                isInitialized := if os.pa_simple_new calls = 0 then 0 else 1,
                sampleRate := 48000, channels := 2, bitsPerSample := 16,
                bufferSize := 3840, callback := 0, userData := 0 },
         calls ++ [.pa_simple_new 48000 2 3840]⟩ := by
  unfold PulseAudio_Capture_Initialize
  by_cases h : os.pa_simple_new calls = 0
  · simp only [if_pos h]
    rfl
  · simp only [if_neg h]
    rfl

/-- C13: the Linux Initialize stores 48000 Hz, 2 channels and 16 bits per sample
and, whether or not the stream can be opened, a `bufferSize` of
`(48000 * 20 / 1000) * 2 * (16 / 8) = 3840` bytes, the 20 ms chunk
`sampleRate * 0.020 * channels * 2`; both integer divisions of the formula are
exact, no intermediate value leaves the 32-bit range, and the same 3840 is the
fragment size requested from PulseAudio. -/
theorem C13_PulseAudio_Initialize_bufferSize (os : PulseOS) (calls : List PulseCall)
    (c : PulseAudio_Capture) :
    ∃ c1 : PulseAudio_Capture,
      (PulseAudio_Capture_Initialize os calls (some c)).capture = some c1 ∧
      c1.sampleRate = 48000 ∧ c1.channels = 2 ∧ c1.bitsPerSample = 16 ∧
      c1.bufferSize = 3840 ∧
      c1.bufferSize = PulseAudio_bufferSize c1.sampleRate c1.channels c1.bitsPerSample ∧
      c1.bufferSize
        = (c1.sampleRate * 20 / 1000) * c1.channels * (c1.bitsPerSample / 8) ∧
      (c1.sampleRate * 20) % 1000 = 0 ∧ c1.bitsPerSample % 8 = 0 ∧
      c1.bufferSize * 1000 = c1.sampleRate * 20 * c1.channels * 2 ∧
      (PulseAudio_Capture_Initialize os calls (some c)).calls
        = calls ++ [.pa_simple_new 48000 2 3840] := by
  rw [PulseAudio_Capture_Initialize_eq]
  refine ⟨_, rfl, rfl, rfl, rfl, rfl, ?_, ?_, ?_, ?_, ?_, rfl⟩
  · show (3840 : Nat) = PulseAudio_bufferSize 48000 2 16
    decide
  · show (3840 : Nat) = (48000 * 20 / 1000) * 2 * (16 / 8)
    decide
  · show (48000 * 20) % 1000 = 0
    decide
  · show 16 % 8 = 0
    decide
  · show 3840 * 1000 = 48000 * 20 * 2 * 2
    decide

/-- C12: GetFormat has no status to return and never writes the session.  On a
session that is not initialized (null pointer, `isInitialized = 0`; on Windows also
a null mix format) it writes 0 to each non-null output; on an initialized session
it writes the stored rate, channel count and bit depth (on Windows those of the mix
format), which after a successful Initialize are 48000, 2 and 16 on Linux and
macOS; a null output pointer stays untouched. -/
theorem C12_GetFormat :
    (∀ (capture : Option PulseAudio_Capture) (sr ch bps : Option Nat),
      (PulseAudio_Capture_GetFormat capture sr ch bps).capture = capture ∧
      (PulseAudio_Capture_GetFormat capture none none none).sampleRate = none ∧
      (PulseAudio_Capture_GetFormat capture none none none).channels = none ∧
      (PulseAudio_Capture_GetFormat capture none none none).bitsPerSample = none) ∧
    (∀ (sr ch bps : Option Nat),
      PulseAudio_Capture_GetFormat none sr ch bps
        = ⟨none, sr.map (fun _ => 0), ch.map (fun _ => 0), bps.map (fun _ => 0)⟩) ∧
    (∀ (c : PulseAudio_Capture) (sr ch bps : Option Nat), c.isInitialized = 0 →
      PulseAudio_Capture_GetFormat (some c) sr ch bps
        = ⟨some c, sr.map (fun _ => 0), ch.map (fun _ => 0), bps.map (fun _ => 0)⟩) ∧
    (∀ (c : PulseAudio_Capture) (sr ch bps : Option Nat), c.isInitialized ≠ 0 →
      PulseAudio_Capture_GetFormat (some c) sr ch bps
        = ⟨some c, sr.map (fun _ => c.sampleRate), ch.map (fun _ => c.channels),
            bps.map (fun _ => c.bitsPerSample)⟩) ∧
    (∀ (os : PulseOS) (calls : List PulseCall) (c : PulseAudio_Capture) (a b d : Nat),
      (PulseAudio_Capture_Initialize os calls (some c)).ret = 0 →
      PulseAudio_Capture_GetFormat
          (PulseAudio_Capture_Initialize os calls (some c)).capture (some a) (some b)
          (some d)
        = ⟨(PulseAudio_Capture_Initialize os calls (some c)).capture, some 48000,
            some 2, some 16⟩) ∧
    (∀ (capture : Option CoreAudio_Capture) (sr ch bps : Option Nat),
      (CoreAudio_Capture_GetFormat capture sr ch bps).capture = capture ∧
      (CoreAudio_Capture_GetFormat capture none none none).sampleRate = none ∧
      (CoreAudio_Capture_GetFormat capture none none none).channels = none ∧
      (CoreAudio_Capture_GetFormat capture none none none).bitsPerSample = none) ∧
    (∀ (sr ch bps : Option Nat),
      CoreAudio_Capture_GetFormat none sr ch bps
        = ⟨none, sr.map (fun _ => 0), ch.map (fun _ => 0), bps.map (fun _ => 0)⟩) ∧
    (∀ (c : CoreAudio_Capture) (sr ch bps : Option Nat), c.isInitialized = 0 →
      CoreAudio_Capture_GetFormat (some c) sr ch bps
        = ⟨some c, sr.map (fun _ => 0), ch.map (fun _ => 0), bps.map (fun _ => 0)⟩) ∧
    (∀ (c : CoreAudio_Capture) (sr ch bps : Option Nat), c.isInitialized ≠ 0 →
      CoreAudio_Capture_GetFormat (some c) sr ch bps
        = ⟨some c, sr.map (fun _ => c.sampleRate), ch.map (fun _ => c.channels),
            bps.map (fun _ => c.bitsPerSample)⟩) ∧
    (∀ (capture : Option WASAPI_AudioCapture) (sr ch bps : Option Nat),
      (WASAPI_AudioCapture_GetFormat capture sr ch bps).capture = capture ∧
      (WASAPI_AudioCapture_GetFormat capture none none none).sampleRate = none ∧
      (WASAPI_AudioCapture_GetFormat capture none none none).channels = none ∧
      (WASAPI_AudioCapture_GetFormat capture none none none).bitsPerSample = none) ∧
    (∀ (sr ch bps : Option Nat),
      WASAPI_AudioCapture_GetFormat none sr ch bps
        = ⟨none, sr.map (fun _ => 0), ch.map (fun _ => 0), bps.map (fun _ => 0)⟩) ∧
    (∀ (c : WASAPI_AudioCapture) (sr ch bps : Option Nat),
      c.isInitialized = 0 ∨ c.mixFormat = none →
      WASAPI_AudioCapture_GetFormat (some c) sr ch bps
        = ⟨some c, sr.map (fun _ => 0), ch.map (fun _ => 0), bps.map (fun _ => 0)⟩) ∧
    (∀ (c : WASAPI_AudioCapture) (format : WAVEFORMATEX) (sr ch bps : Option Nat),
      c.isInitialized ≠ 0 → c.mixFormat = some format →
      WASAPI_AudioCapture_GetFormat (some c) sr ch bps
        = ⟨some c, sr.map (fun _ => format.nSamplesPerSec),
            ch.map (fun _ => format.nChannels),
            bps.map (fun _ => format.wBitsPerSample)⟩) := by
  refine ⟨?_, fun _ _ _ => rfl, ?_, ?_, ?_, ?_, fun _ _ _ => rfl, ?_, ?_, ?_,
    fun _ _ _ => rfl, ?_, ?_⟩
  · intro capture sr ch bps
    cases capture with
    | none => exact ⟨rfl, rfl, rfl, rfl⟩
    | some c =>
      unfold PulseAudio_Capture_GetFormat
      by_cases h : c.isInitialized = 0
      · simp only [if_pos h, Option.map_none', and_self]
      · simp only [if_neg h, Option.map_none', and_self]
  · intro c sr ch bps h
    unfold PulseAudio_Capture_GetFormat
    simp only [if_pos h]
  · intro c sr ch bps h
    unfold PulseAudio_Capture_GetFormat
    simp only [if_neg h]
  · intro os calls c a b d hret
    rw [PulseAudio_Capture_Initialize_eq] at hret ⊢
    by_cases h : os.pa_simple_new calls = 0
    · simp only [if_pos h] at hret
      exact absurd hret (by decide)
    · simp only [if_neg h]
      rfl
  · intro capture sr ch bps
    cases capture with
    | none => exact ⟨rfl, rfl, rfl, rfl⟩
    | some c =>
      unfold CoreAudio_Capture_GetFormat
      by_cases h : c.isInitialized = 0
      · simp only [if_pos h, Option.map_none', and_self]
      · simp only [if_neg h, Option.map_none', and_self]
  · intro c sr ch bps h
    unfold CoreAudio_Capture_GetFormat
    simp only [if_pos h]
  · intro c sr ch bps h
    unfold CoreAudio_Capture_GetFormat
    simp only [if_neg h]
  · intro capture sr ch bps
    cases capture with
    | none => exact ⟨rfl, rfl, rfl, rfl⟩
    | some c =>
      cases hm : c.mixFormat with
      | none => simp [WASAPI_AudioCapture_GetFormat, hm]
      | some format =>
        by_cases h : c.isInitialized = 0 <;>
          simp [WASAPI_AudioCapture_GetFormat, hm, h]
  · intro c sr ch bps h
    cases hm : c.mixFormat with
    | none => simp [WASAPI_AudioCapture_GetFormat, hm]
    | some format =>
      rcases h with h | h
      · simp [WASAPI_AudioCapture_GetFormat, hm, h]
      · rw [hm] at h
        exact absurd h (by simp)
  · intro c format sr ch bps h hm
    simp [WASAPI_AudioCapture_GetFormat, hm, h]

/-- Witness of C12: the format reported by each backend after a successful
Initialize, and the zeros reported for a zeroed session. -/
theorem C12_GetFormat_witness :
    PulseAudio_Capture_GetFormat (some PulseAudio_Capture.zeroed) (some 7) none (some 9)
      = ⟨some PulseAudio_Capture.zeroed, some 0, none, some 0⟩ ∧
    PulseAudio_Capture_GetFormat
        (PulseAudio_Capture_Initialize demoPulseOS [] (some PulseAudio_Capture.zeroed)).capture
        (some 7) (some 8) (some 9)
      = ⟨(PulseAudio_Capture_Initialize demoPulseOS []
            (some PulseAudio_Capture.zeroed)).capture, some 48000, some 2, some 16⟩ ∧
    CoreAudio_Capture_GetFormat (some demoCoreAudio) (some 7) (some 8) (some 9)
      = ⟨some demoCoreAudio, some 48000, some 2, some 16⟩ ∧
    WASAPI_AudioCapture_GetFormat (some demoWasapi) (some 7) (some 8) (some 9)
      = ⟨some demoWasapi, some 48000, some 2, some 32⟩ ∧
    WASAPI_AudioCapture_GetFormat (some WASAPI_AudioCapture.zeroed) (some 7) (some 8)
        (some 9)
      = ⟨some WASAPI_AudioCapture.zeroed, some 0, some 0, some 0⟩ :=
  ⟨C12_GetFormat.2.2.1 PulseAudio_Capture.zeroed (some 7) none (some 9) rfl,
   C12_GetFormat.2.2.2.2.1 demoPulseOS [] PulseAudio_Capture.zeroed 7 8 9 rfl,
   C12_GetFormat.2.2.2.2.2.2.2.2.1 demoCoreAudio (some 7) (some 8) (some 9) (by decide),
   C12_GetFormat.2.2.2.2.2.2.2.2.2.2.2.2 demoWasapi _ (some 7) (some 8) (some 9)
     (by decide) rfl,
   C12_GetFormat.2.2.2.2.2.2.2.2.2.2.2.1 WASAPI_AudioCapture.zeroed (some 7) (some 8)
     (some 9) (Or.inl rfl)⟩

/-! ## Theorems: acquisition and release of native resources -/

/-- The macOS Initialize makes no release call, and whenever it fails the session
keeps `isInitialized = 0` together with the audio unit that was created. -/
theorem CoreAudio_Capture_Initialize_keeps (os : CoreAudioOS)
    (calls : List CoreAudioCall) (c : CoreAudio_Capture) :
    (CoreAudio_Capture_Initialize os calls (some c)).calls.filter CoreAudioCall.isRelease
      = calls.filter CoreAudioCall.isRelease ∧
    ((CoreAudio_Capture_Initialize os calls (some c)).ret ≠ noErr →
      ∃ c1 : CoreAudio_Capture,
        (CoreAudio_Capture_Initialize os calls (some c)).capture = some c1 ∧
        c1.isInitialized = 0 ∧ c1.isCapturing = 0 ∧
        (os.AudioComponentFindNext calls ≠ 0 →
          c1.audioUnit = (os.AudioComponentInstanceNew (calls ++ [.AudioComponentFindNext])
            (os.AudioComponentFindNext calls)).2)) := by
  generalize hout : CoreAudio_Capture_Initialize os calls (some c) = out
  unfold CoreAudio_Capture_Initialize at hout
  dsimp only at hout
  split at hout
  · subst hout
    rename_i h1
    exact ⟨by simp [List.filter_append, CoreAudioCall.isRelease],
      fun _ => ⟨_, rfl, rfl, rfl, fun h => absurd h1 h⟩⟩
  repeat' split at hout
  all_goals subst hout
  all_goals refine ⟨by simp [List.filter_append, CoreAudioCall.isRelease], fun h => ?_⟩
  all_goals first
    | exact ⟨_, rfl, rfl, rfl, fun _ => rfl⟩
    | exact absurd rfl h

/-- Windows Initialize, when it returns at all, makes no release call, and whenever
it fails the session keeps `isInitialized = 0` together with the device enumerator
that was created. -/
theorem WASAPI_AudioCapture_Initialize_keeps (os : WasapiOS) (calls : List WasapiCall)
    (c : WASAPI_AudioCapture) (out : WasapiOutcome)
    (hout : WASAPI_AudioCapture_Initialize os calls (some c) = some out) :
    out.calls.filter WasapiCall.isRelease = calls.filter WasapiCall.isRelease ∧
    (out.ret ≠ S_OK →
      ∃ c1 : WASAPI_AudioCapture,
        out.capture = some c1 ∧ c1.isInitialized = 0 ∧ c1.isCapturing = 0 ∧
        c1.captureThread = 0 ∧
        (¬ (FAILED (os.CoInitializeEx calls) = true ∧
              os.CoInitializeEx calls ≠ RPC_E_CHANGED_MODE) →
          c1.deviceEnumerator = (os.CoCreateInstance (calls ++ [.CoInitializeEx])).2)) := by
  rw [WASAPI_AudioCapture_Initialize] at hout
  lift_lets at hout
  extract_lets r2 calls2 c2 r3 calls3 c3 r4 calls4 c4 r5 calls5 c5 hr6 calls6 r7 calls7 c7
    event calls8 c8 at hout
  have hlog : ∀ l : List WasapiCall, l ∈ [calls ++ [.CoInitializeEx], calls2, calls3,
      calls4, calls5, calls6, calls7, calls8] →
      l.filter WasapiCall.isRelease = calls.filter WasapiCall.isRelease := by
    intro l hl
    simp only [List.mem_cons, List.mem_singleton, List.not_mem_nil, or_false] at hl
    rcases hl with h | h | h | h | h | h | h | h <;> subst h <;>
      simp [List.filter_append, WasapiCall.isRelease, calls2, calls3, calls4,
        calls5, calls6, calls7, calls8]
  by_cases h1 : FAILED (os.CoInitializeEx calls) = true ∧
      os.CoInitializeEx calls ≠ RPC_E_CHANGED_MODE
  · rw [if_pos h1, Option.some.injEq] at hout
    subst hout
    exact ⟨hlog _ (by simp), fun _ => ⟨_, rfl, rfl, rfl, rfl, fun h => absurd h1 h⟩⟩
  rw [if_neg h1] at hout
  by_cases h2 : FAILED r2.1 = true
  · rw [if_pos h2, Option.some.injEq] at hout
    subst hout
    exact ⟨hlog _ (by simp), fun _ => ⟨_, rfl, rfl, rfl, rfl, fun _ => rfl⟩⟩
  rw [if_neg h2] at hout
  by_cases n2 : c2.deviceEnumerator = 0
  · rw [if_pos n2] at hout
    exact absurd hout (by simp)
  rw [if_neg n2] at hout
  by_cases h3 : FAILED r3.1 = true
  · rw [if_pos h3, Option.some.injEq] at hout
    subst hout
    exact ⟨hlog _ (by simp), fun _ => ⟨_, rfl, rfl, rfl, rfl, fun _ => rfl⟩⟩
  rw [if_neg h3] at hout
  by_cases n3 : c3.audioDevice = 0
  · rw [if_pos n3] at hout
    exact absurd hout (by simp)
  rw [if_neg n3] at hout
  by_cases h4 : FAILED r4.1 = true
  · rw [if_pos h4, Option.some.injEq] at hout
    subst hout
    exact ⟨hlog _ (by simp), fun _ => ⟨_, rfl, rfl, rfl, rfl, fun _ => rfl⟩⟩
  rw [if_neg h4] at hout
  by_cases n4 : c4.audioClient = 0
  · rw [if_pos n4] at hout
    exact absurd hout (by simp)
  rw [if_neg n4] at hout
  by_cases h5 : FAILED r5.1 = true
  · rw [if_pos h5, Option.some.injEq] at hout
    subst hout
    exact ⟨hlog _ (by simp), fun _ => ⟨_, rfl, rfl, rfl, rfl, fun _ => rfl⟩⟩
  rw [if_neg h5] at hout
  by_cases h6 : FAILED hr6 = true
  · rw [if_pos h6, Option.some.injEq] at hout
    subst hout
    exact ⟨hlog _ (by simp), fun _ => ⟨_, rfl, rfl, rfl, rfl, fun _ => rfl⟩⟩
  rw [if_neg h6] at hout
  by_cases h7 : FAILED r7.1 = true
  · rw [if_pos h7, Option.some.injEq] at hout
    subst hout
    exact ⟨hlog _ (by simp), fun _ => ⟨_, rfl, rfl, rfl, rfl, fun _ => rfl⟩⟩
  rw [if_neg h7] at hout
  by_cases h8 : event = 0
  · rw [if_pos h8, Option.some.injEq] at hout
    subst hout
    exact ⟨hlog _ (by simp), fun _ => ⟨_, rfl, rfl, rfl, rfl, fun _ => rfl⟩⟩
  · rw [if_neg h8, Option.some.injEq] at hout
    subst hout
    exact ⟨hlog _ (by simp), fun h => absurd rfl h⟩

/-- Linux Cleanup in closed form: the session is stopped, the stream is freed if
there is one, and the lifecycle fields end at zero. -/
theorem PulseAudio_Capture_Cleanup_eq (calls : List PulseCall)
    (c : PulseAudio_Capture) :
    PulseAudio_Capture_Cleanup calls (some c)
      = (some { c with isCapturing := 0, isInitialized := 0, pulseAudio := 0,
                       captureThread :=
                         if c.isCapturing = 0 then c.captureThread else 0 },
         (PulseAudio_Capture_Stop calls (some c)).2
           ++ (if c.pulseAudio ≠ 0 then [.pa_simple_free c.pulseAudio] else [])) := by
  obtain ⟨pa, th, cap, ini, sr, ch, bps, bs, cb, ud⟩ := c
  by_cases hcap : cap = 0 <;> by_cases ht : th = 0 <;> by_cases hp : pa = 0 <;>
    simp [PulseAudio_Capture_Cleanup, PulseAudio_Capture_Stop, hcap, ht, hp]

/-- The macOS Cleanup in closed form: the audio unit is given back only when the
session is initialized. -/
theorem CoreAudio_Capture_Cleanup_eq (calls : List CoreAudioCall)
    (c : CoreAudio_Capture) :
    CoreAudio_Capture_Cleanup calls (some c)
      = (some { c with isCapturing := 0, isInitialized := 0,
                       audioUnit := if c.isInitialized ≠ 0 then 0 else c.audioUnit },
         (CoreAudio_Capture_Stop calls (some c)).2
           ++ (if c.audioUnit ≠ 0 ∧ c.isInitialized ≠ 0 then
                 [ CoreAudioCall.AudioUnitUninitialize c.audioUnit,
                  .AudioComponentInstanceDispose c.audioUnit]
               else [])) := by
  obtain ⟨au, cap, ini, sr, ch, bps, cb, ud⟩ := c
  by_cases hcap : cap = 0 <;> by_cases hi : ini = 0 <;> by_cases hu : au = 0 <;>
    simp [CoreAudio_Capture_Cleanup, CoreAudio_Capture_Stop, hcap, hi, hu]

/-- Windows Cleanup in closed form: Stop, then the release section. -/
theorem WASAPI_AudioCapture_Cleanup_eq (calls : List WasapiCall)
    (c : WASAPI_AudioCapture) :
    WASAPI_AudioCapture_Cleanup calls (some c)
      = (some { c with isCapturing := 0, isInitialized := 0, captureClient := 0,
                       audioClient := 0, audioDevice := 0, deviceEnumerator := 0,
                       mixFormat := none, stopEvent := 0,
                       captureThread :=
                         if c.isCapturing = 0 then c.captureThread else 0 },
         (WASAPI_AudioCapture_release
           (WASAPI_AudioCapture_Stop calls (some c)).2 c).2) := by
  obtain ⟨de, ad, ac, cc, mf, th, ev, cb, ud, cap, ini⟩ := c
  by_cases hcap : cap = 0 <;> by_cases ht : th = 0 <;>
    simp [WASAPI_AudioCapture_Cleanup, WASAPI_AudioCapture_Stop,
      WASAPI_AudioCapture_release, hcap, ht]

/-- The release section of the Windows Cleanup releases every handle that is not
null. -/
theorem WASAPI_AudioCapture_release_mem (calls : List WasapiCall)
    (c : WASAPI_AudioCapture) :
    (c.captureClient ≠ 0 →
      .Release c.captureClient ∈ (WASAPI_AudioCapture_release calls c).2) ∧
    (c.audioClient ≠ 0 →
      .Release c.audioClient ∈ (WASAPI_AudioCapture_release calls c).2) ∧
    (c.audioDevice ≠ 0 →
      .Release c.audioDevice ∈ (WASAPI_AudioCapture_release calls c).2) ∧
    (c.deviceEnumerator ≠ 0 →
      .Release c.deviceEnumerator ∈ (WASAPI_AudioCapture_release calls c).2) ∧
    (∀ format, c.mixFormat = some format →
      .CoTaskMemFree format ∈ (WASAPI_AudioCapture_release calls c).2) ∧
    (c.stopEvent ≠ 0 →
      .CloseHandle c.stopEvent ∈ (WASAPI_AudioCapture_release calls c).2) := by
  obtain ⟨de, ad, ac, cc, mf, th, ev, cb, ud, cap, ini⟩ := c
  simp only [WASAPI_AudioCapture_release]
  refine ⟨fun h => ?_, fun h => ?_, fun h => ?_, fun h => ?_, fun f h => ?_, fun h => ?_⟩
  all_goals
    cases mf <;> by_cases h1 : cc = 0 <;> by_cases h2 : ac = 0 <;>
      by_cases h3 : ad = 0 <;> by_cases h4 : de = 0 <;> by_cases h5 : ev = 0 <;>
      simp_all

/-- C14, counterexample: with a Windows that has no default endpoint, Initialize
returns an error while the session still holds the device enumerator 1 it has
acquired, and no `Release` has been made. -/
theorem C14_Initialize_failure_counterexample :
    WASAPI_AudioCapture_Initialize noEndpointOS [] (some WASAPI_AudioCapture.zeroed)
      = some ⟨-2147023728,
          some { WASAPI_AudioCapture.zeroed with deviceEnumerator := 1 },
          [.CoInitializeEx, .CoCreateInstance, .GetDefaultAudioEndpoint 1]⟩ ∧
    (-2147023728 : Int) ≠ S_OK ∧
    ({ WASAPI_AudioCapture.zeroed with deviceEnumerator := 1 }
      : WASAPI_AudioCapture).deviceEnumerator ≠ 0 := by
  refine ⟨?_, ?_, ?_⟩ <;> decide

/-- A failed Windows Initialize stops after one of eight calls, and the session it
leaves holds exactly the handles that the calls made up to there have returned. -/
theorem WASAPI_AudioCapture_Initialize_stored (os : WasapiOS) (calls : List WasapiCall)
    (c : WASAPI_AudioCapture) (out : WasapiOutcome)
    (hout : WASAPI_AudioCapture_Initialize os calls (some c) = some out)
    (hret : out.ret ≠ S_OK) :
    let calls1 := calls ++ [WasapiCall.CoInitializeEx]
    let r2 := os.CoCreateInstance calls1
    let calls2 := calls1 ++ [WasapiCall.CoCreateInstance]
    let r3 := os.GetDefaultAudioEndpoint calls2 r2.2
    let calls3 := calls2 ++ [WasapiCall.GetDefaultAudioEndpoint r2.2]
    let r4 := os.Activate calls3 r3.2
    let calls4 := calls3 ++ [WasapiCall.Activate r3.2]
    let r5 := os.GetMixFormat calls4 r4.2
    let calls5 := calls4 ++ [WasapiCall.GetMixFormat r4.2]
    let calls6 := calls5 ++ [WasapiCall.IAudioClient_Initialize r4.2 r5.2]
    let r7 := os.GetService calls6 r4.2
    let calls7 := calls6 ++ [WasapiCall.GetService r4.2]
    let calls8 := calls7 ++ [WasapiCall.CreateEvent]
    let z := WASAPI_AudioCapture.zeroed
    (out.calls = calls1 ∧ out.capture = some z) ∨
    (out.calls = calls2 ∧ out.capture = some { z with deviceEnumerator := r2.2 }) ∨
    (out.calls = calls3 ∧
      out.capture = some { z with deviceEnumerator := r2.2, audioDevice := r3.2 }) ∨
    (out.calls = calls4 ∧
      out.capture = some { z with deviceEnumerator := r2.2, audioDevice := r3.2,
                                  audioClient := r4.2 }) ∨
    (out.calls = calls5 ∧
      out.capture = some { z with deviceEnumerator := r2.2, audioDevice := r3.2,
                                  audioClient := r4.2, mixFormat := r5.2 }) ∨
    (out.calls = calls6 ∧
      out.capture = some { z with deviceEnumerator := r2.2, audioDevice := r3.2,
                                  audioClient := r4.2, mixFormat := r5.2 }) ∨
    (out.calls = calls7 ∧
      out.capture = some { z with deviceEnumerator := r2.2, audioDevice := r3.2,
                                  audioClient := r4.2, mixFormat := r5.2,
                                  captureClient := r7.2 }) ∨
    (out.calls = calls8 ∧
      out.capture = some { z with deviceEnumerator := r2.2, audioDevice := r3.2,
                                  audioClient := r4.2, mixFormat := r5.2,
                                  captureClient := r7.2,
                                  stopEvent := os.CreateEvent calls7 }) := by
  intro a1 b2 a2 b3 a3 b4 a4 b5 a5 a6 b7 a7 a8 z
  rw [WASAPI_AudioCapture_Initialize] at hout
  lift_lets at hout
  extract_lets r2 calls2 c2 r3 calls3 c3 r4 calls4 c4 r5 calls5 c5 hr6 calls6 r7 calls7 c7
    event calls8 c8 at hout
  by_cases h1 : FAILED (os.CoInitializeEx calls) = true ∧
      os.CoInitializeEx calls ≠ RPC_E_CHANGED_MODE
  · rw [if_pos h1, Option.some.injEq] at hout
    subst hout
    exact Or.inl ⟨rfl, rfl⟩
  rw [if_neg h1] at hout
  by_cases h2 : FAILED r2.1 = true
  · rw [if_pos h2, Option.some.injEq] at hout
    subst hout
    exact Or.inr (Or.inl ⟨rfl, rfl⟩)
  rw [if_neg h2] at hout
  by_cases n2 : c2.deviceEnumerator = 0
  · rw [if_pos n2] at hout
    exact absurd hout (by simp)
  rw [if_neg n2] at hout
  by_cases h3 : FAILED r3.1 = true
  · rw [if_pos h3, Option.some.injEq] at hout
    subst hout
    exact Or.inr (Or.inr (Or.inl ⟨rfl, rfl⟩))
  rw [if_neg h3] at hout
  by_cases n3 : c3.audioDevice = 0
  · rw [if_pos n3] at hout
    exact absurd hout (by simp)
  rw [if_neg n3] at hout
  by_cases h4 : FAILED r4.1 = true
  · rw [if_pos h4, Option.some.injEq] at hout
    subst hout
    exact Or.inr (Or.inr (Or.inr (Or.inl ⟨rfl, rfl⟩)))
  rw [if_neg h4] at hout
  by_cases n4 : c4.audioClient = 0
  · rw [if_pos n4] at hout
    exact absurd hout (by simp)
  rw [if_neg n4] at hout
  by_cases h5 : FAILED r5.1 = true
  · rw [if_pos h5, Option.some.injEq] at hout
    subst hout
    exact Or.inr (Or.inr (Or.inr (Or.inr (Or.inl ⟨rfl, rfl⟩))))
  rw [if_neg h5] at hout
  by_cases h6 : FAILED hr6 = true
  · rw [if_pos h6, Option.some.injEq] at hout
    subst hout
    exact Or.inr (Or.inr (Or.inr (Or.inr (Or.inr (Or.inl ⟨rfl, rfl⟩)))))
  rw [if_neg h6] at hout
  by_cases h7 : FAILED r7.1 = true
  · rw [if_pos h7, Option.some.injEq] at hout
    subst hout
    exact Or.inr (Or.inr (Or.inr (Or.inr (Or.inr (Or.inr (Or.inl ⟨rfl, rfl⟩))))))
  rw [if_neg h7] at hout
  by_cases h8 : event = 0
  · rw [if_pos h8, Option.some.injEq] at hout
    subst hout
    exact Or.inr (Or.inr (Or.inr (Or.inr (Or.inr (Or.inr (Or.inr ⟨rfl, rfl⟩))))))
  · rw [if_neg h8, Option.some.injEq] at hout
    subst hout
    exact absurd rfl hret

/-- C14, amended: a failed Linux Initialize holds no native handle (its only native
call is the `pa_simple_new` that failed).  Windows Initialize does not unwind: it
never makes a release call, and when it fails it stops after one of eight calls and
leaves a session with `isInitialized = 0` and `isCapturing = 0` that holds exactly
the handles which the calls made up to there have returned (device enumerator,
device, audio client, mix format, capture client); a Cleanup after the failed
Initialize then releases every handle the session holds and leaves all of them
null. -/
theorem C14_Initialize_failure :
    (∀ (os : PulseOS) (calls : List PulseCall) (c : PulseAudio_Capture),
      (PulseAudio_Capture_Initialize os calls (some c)).ret ≠ 0 →
      ∃ c1 : PulseAudio_Capture,
        (PulseAudio_Capture_Initialize os calls (some c)).capture = some c1 ∧
        c1.pulseAudio = 0 ∧ c1.isInitialized = 0 ∧ c1.isCapturing = 0 ∧
        (PulseAudio_Capture_Initialize os calls (some c)).calls
          = calls ++ [.pa_simple_new 48000 2 3840]) ∧
    (∀ (os : WasapiOS) (calls : List WasapiCall) (c : WASAPI_AudioCapture)
        (out : WasapiOutcome),
      WASAPI_AudioCapture_Initialize os calls (some c) = some out →
      out.calls.filter WasapiCall.isRelease = calls.filter WasapiCall.isRelease ∧
      (out.ret ≠ S_OK →
        (let calls1 := calls ++ [WasapiCall.CoInitializeEx]
         let r2 := os.CoCreateInstance calls1
         let calls2 := calls1 ++ [WasapiCall.CoCreateInstance]
         let r3 := os.GetDefaultAudioEndpoint calls2 r2.2
         let calls3 := calls2 ++ [WasapiCall.GetDefaultAudioEndpoint r2.2]
         let r4 := os.Activate calls3 r3.2
         let calls4 := calls3 ++ [WasapiCall.Activate r3.2]
         let r5 := os.GetMixFormat calls4 r4.2
         let calls5 := calls4 ++ [WasapiCall.GetMixFormat r4.2]
         let calls6 := calls5 ++ [WasapiCall.IAudioClient_Initialize r4.2 r5.2]
         let r7 := os.GetService calls6 r4.2
         let calls7 := calls6 ++ [WasapiCall.GetService r4.2]
         let calls8 := calls7 ++ [WasapiCall.CreateEvent]
         let z := WASAPI_AudioCapture.zeroed
         (out.calls = calls1 ∧ out.capture = some z) ∨
         (out.calls = calls2 ∧
           out.capture = some { z with deviceEnumerator := r2.2 }) ∨
         (out.calls = calls3 ∧
           out.capture = some { z with deviceEnumerator := r2.2,
                                       audioDevice := r3.2 }) ∨
         (out.calls = calls4 ∧
           out.capture = some { z with deviceEnumerator := r2.2, audioDevice := r3.2,
                                       audioClient := r4.2 }) ∨
         (out.calls = calls5 ∧
           out.capture = some { z with deviceEnumerator := r2.2, audioDevice := r3.2,
                                       audioClient := r4.2, mixFormat := r5.2 }) ∨
         (out.calls = calls6 ∧
           out.capture = some { z with deviceEnumerator := r2.2, audioDevice := r3.2,
                                       audioClient := r4.2, mixFormat := r5.2 }) ∨
         (out.calls = calls7 ∧
           out.capture = some { z with deviceEnumerator := r2.2, audioDevice := r3.2,
                                       audioClient := r4.2, mixFormat := r5.2,
                                       captureClient := r7.2 }) ∨
         (out.calls = calls8 ∧
           out.capture = some { z with deviceEnumerator := r2.2, audioDevice := r3.2,
                                       audioClient := r4.2, mixFormat := r5.2,
                                       captureClient := r7.2,
                                       stopEvent := os.CreateEvent calls7 })) ∧
        ∃ c1 : WASAPI_AudioCapture,
          out.capture = some c1 ∧ c1.isInitialized = 0 ∧ c1.isCapturing = 0 ∧
          (c1.captureClient ≠ 0 → .Release c1.captureClient
            ∈ (WASAPI_AudioCapture_Cleanup out.calls (some c1)).2) ∧
          (c1.audioClient ≠ 0 → .Release c1.audioClient
            ∈ (WASAPI_AudioCapture_Cleanup out.calls (some c1)).2) ∧
          (c1.audioDevice ≠ 0 → .Release c1.audioDevice
            ∈ (WASAPI_AudioCapture_Cleanup out.calls (some c1)).2) ∧
          (c1.deviceEnumerator ≠ 0 → .Release c1.deviceEnumerator
            ∈ (WASAPI_AudioCapture_Cleanup out.calls (some c1)).2) ∧
          (∀ format, c1.mixFormat = some format → .CoTaskMemFree format
            ∈ (WASAPI_AudioCapture_Cleanup out.calls (some c1)).2) ∧
          (c1.stopEvent ≠ 0 → .CloseHandle c1.stopEvent
            ∈ (WASAPI_AudioCapture_Cleanup out.calls (some c1)).2) ∧
          ∃ c2 : WASAPI_AudioCapture,
            (WASAPI_AudioCapture_Cleanup out.calls (some c1)).1 = some c2 ∧
            c2.captureClient = 0 ∧ c2.audioClient = 0 ∧ c2.audioDevice = 0 ∧
            c2.deviceEnumerator = 0 ∧ c2.mixFormat = none ∧ c2.stopEvent = 0)) := by
  refine ⟨fun os calls c h => ?_, fun os calls c out hout => ?_⟩
  · rw [PulseAudio_Capture_Initialize_eq] at h ⊢
    by_cases h0 : os.pa_simple_new calls = 0
    · exact ⟨_, rfl, h0, by simp only [if_pos h0], rfl, rfl⟩
    · exact absurd (by simp only [if_neg h0]) h
  · obtain ⟨hfilter, hfail⟩ := WASAPI_AudioCapture_Initialize_keeps os calls c out hout
    refine ⟨hfilter, fun hret => ?_⟩
    obtain ⟨c1, hc1, hini, hcap, hthread, henum⟩ := hfail hret
    have hstop : (WASAPI_AudioCapture_Stop out.calls (some c1)).2 = out.calls := by
      simp [WASAPI_AudioCapture_Stop, hcap]
    have hmem := WASAPI_AudioCapture_release_mem out.calls c1
    refine ⟨WASAPI_AudioCapture_Initialize_stored os calls c out hout hret,
      c1, hc1, hini, hcap, ?_⟩
    rw [WASAPI_AudioCapture_Cleanup_eq, hstop]
    exact ⟨hmem.1, hmem.2.1, hmem.2.2.1, hmem.2.2.2.1,
      hmem.2.2.2.2.1, hmem.2.2.2.2.2, _, rfl, rfl, rfl, rfl, rfl, rfl, rfl⟩

/-- C14, witness: the amended statement applied to the Windows whose audio client
refuses the capture service: the failed Initialize leaves the device enumerator 1,
the device 2, the audio client 3 and the mix format in the session, and the Cleanup
that follows releases each of them. -/
theorem C14_Initialize_failure_witness :
    WASAPI_AudioCapture_Initialize noServiceOS [] (some WASAPI_AudioCapture.zeroed)
      = some ⟨E_FAIL,
          some { WASAPI_AudioCapture.zeroed with
                   deviceEnumerator := 1, audioDevice := 2, audioClient := 3,
                   mixFormat := demoWasapi.mixFormat },
          [.CoInitializeEx, .CoCreateInstance, .GetDefaultAudioEndpoint 1, .Activate 2,
           .GetMixFormat 3, .IAudioClient_Initialize 3 demoWasapi.mixFormat,
           .GetService 3]⟩ ∧
    (WasapiCall.Release 3) ∈ (WASAPI_AudioCapture_Cleanup
      [.CoInitializeEx, .CoCreateInstance, .GetDefaultAudioEndpoint 1, .Activate 2,
       .GetMixFormat 3, .IAudioClient_Initialize 3 demoWasapi.mixFormat,
       .GetService 3]
      (some { WASAPI_AudioCapture.zeroed with
                deviceEnumerator := 1, audioDevice := 2, audioClient := 3,
                mixFormat := demoWasapi.mixFormat })).2 ∧
    (WasapiCall.Release 2) ∈ (WASAPI_AudioCapture_Cleanup
      [.CoInitializeEx, .CoCreateInstance, .GetDefaultAudioEndpoint 1, .Activate 2,
       .GetMixFormat 3, .IAudioClient_Initialize 3 demoWasapi.mixFormat,
       .GetService 3]
      (some { WASAPI_AudioCapture.zeroed with
                deviceEnumerator := 1, audioDevice := 2, audioClient := 3,
                mixFormat := demoWasapi.mixFormat })).2 ∧
    (WasapiCall.Release 1) ∈ (WASAPI_AudioCapture_Cleanup
      [.CoInitializeEx, .CoCreateInstance, .GetDefaultAudioEndpoint 1, .Activate 2,
       .GetMixFormat 3, .IAudioClient_Initialize 3 demoWasapi.mixFormat,
       .GetService 3]
      (some { WASAPI_AudioCapture.zeroed with
                deviceEnumerator := 1, audioDevice := 2, audioClient := 3,
                mixFormat := demoWasapi.mixFormat })).2 := by
  have hinit : WASAPI_AudioCapture_Initialize noServiceOS []
      (some WASAPI_AudioCapture.zeroed)
      = some ⟨E_FAIL,
          some { WASAPI_AudioCapture.zeroed with
                   deviceEnumerator := 1, audioDevice := 2, audioClient := 3,
                   mixFormat := demoWasapi.mixFormat },
          [.CoInitializeEx, .CoCreateInstance, .GetDefaultAudioEndpoint 1, .Activate 2,
           .GetMixFormat 3, .IAudioClient_Initialize 3 demoWasapi.mixFormat,
           .GetService 3]⟩ := by
    decide
  obtain ⟨_, c1, hc1, _, _, _, hclient, hdevice, henum, _⟩ :=
    (C14_Initialize_failure.2 noServiceOS [] WASAPI_AudioCapture.zeroed _ hinit).2
      (by decide)
  simp only [Option.some.injEq] at hc1
  subst hc1
  exact ⟨hinit, hclient (by decide), hdevice (by decide), henum (by decide)⟩

/-! ## Theorems: Cleanup of a capture session -/

/-- The macOS Initialize that fails after it has created the audio unit 12 makes no
dispose call and leaves the unit in a session with `isInitialized = 0`; on that
session the guard of the release section of Cleanup is false, so Cleanup makes no
native call and the session keeps the audio unit. -/
theorem CoreAudio_Capture_Cleanup_after_failed_Initialize :
    CoreAudio_Capture_Initialize refusingPropertyOS [] (some CoreAudio_Capture.zeroed)
      = ⟨-10879,
         some { CoreAudio_Capture.zeroed with
                  audioUnit := 12, sampleRate := 48000, channels := 2,
                  bitsPerSample := 16 },
         [.AudioComponentFindNext, .AudioComponentInstanceNew 1,
          .AudioUnitSetProperty 12 (.EnableIO_Input 1)]⟩ ∧
    CoreAudio_Capture_Cleanup
        [.AudioComponentFindNext, .AudioComponentInstanceNew 1,
         .AudioUnitSetProperty 12 (.EnableIO_Input 1)]
        (some { CoreAudio_Capture.zeroed with
                  audioUnit := 12, sampleRate := 48000, channels := 2,
                  bitsPerSample := 16 })
      = (some { CoreAudio_Capture.zeroed with
                  audioUnit := 12, sampleRate := 48000, channels := 2,
                  bitsPerSample := 16 },
         [.AudioComponentFindNext, .AudioComponentInstanceNew 1,
          .AudioUnitSetProperty 12 (.EnableIO_Input 1)]) := by
  constructor <;> decide

/-- C11, counterexample: on the Windows session that a failed Initialize has left
uninitialized (`isInitialized = 0`) with the device enumerator 1, Cleanup does call
the native `Release`. -/
theorem C11_Cleanup_counterexample :
    (WASAPI_AudioCapture_Initialize noEndpointOS []
        (some WASAPI_AudioCapture.zeroed)).map (fun out => out.capture)
      = some (some { WASAPI_AudioCapture.zeroed with deviceEnumerator := 1 }) ∧
    ({ WASAPI_AudioCapture.zeroed with deviceEnumerator := 1 }
      : WASAPI_AudioCapture).isInitialized = 0 ∧
    WASAPI_AudioCapture_Cleanup []
        (some { WASAPI_AudioCapture.zeroed with deviceEnumerator := 1 })
      = (some WASAPI_AudioCapture.zeroed, [.Release 1]) := by
  refine ⟨?_, ?_, ?_⟩ <;> decide

/-- C11, amended: Cleanup is Stop followed by the release of the native handles.
On Linux and Windows, for every session state, it ends with `isCapturing = 0`,
`isInitialized = 0` and every native handle null, having released each handle that
was not null, whether or not the session was initialized; on a session that is not
capturing and holds no handle it makes no native call; and Cleanup applied twice
gives the same session and the same log of native calls as Cleanup applied once.
On macOS Cleanup ends with `isCapturing = 0` and `isInitialized = 0` for every
state; for every session that is initialized or holds no audio unit it ends with the
audio unit null, having uninitialized and disposed the unit if there was one, it
makes no native call when that session is not capturing and holds no unit, and
applied twice it gives the same session and log as applied once. -/
theorem C11_Cleanup :
    (∀ (calls : List PulseCall) (c : PulseAudio_Capture),
      (∃ c1 : PulseAudio_Capture,
        (PulseAudio_Capture_Cleanup calls (some c)).1 = some c1 ∧
        c1.isCapturing = 0 ∧ c1.isInitialized = 0 ∧ c1.pulseAudio = 0) ∧
      (PulseAudio_Capture_Cleanup calls (some c)).2
        = (PulseAudio_Capture_Stop calls (some c)).2
            ++ (if c.pulseAudio ≠ 0 then [.pa_simple_free c.pulseAudio] else []) ∧
      (c.isCapturing = 0 → c.pulseAudio = 0 →
        (PulseAudio_Capture_Cleanup calls (some c)).2 = calls) ∧
      PulseAudio_Capture_Cleanup (PulseAudio_Capture_Cleanup calls (some c)).2
          (PulseAudio_Capture_Cleanup calls (some c)).1
        = PulseAudio_Capture_Cleanup calls (some c)) ∧
    (∀ (calls : List CoreAudioCall) (c : CoreAudio_Capture),
      ∃ c1 : CoreAudio_Capture,
        (CoreAudio_Capture_Cleanup calls (some c)).1 = some c1 ∧
        c1.isCapturing = 0 ∧ c1.isInitialized = 0) ∧
    (∀ (calls : List CoreAudioCall) (c : CoreAudio_Capture),
      c.isInitialized ≠ 0 ∨ c.audioUnit = 0 →
      (∃ c1 : CoreAudio_Capture,
        (CoreAudio_Capture_Cleanup calls (some c)).1 = some c1 ∧
        c1.audioUnit = 0) ∧
      (CoreAudio_Capture_Cleanup calls (some c)).2
        = (CoreAudio_Capture_Stop calls (some c)).2
            ++ (if c.audioUnit ≠ 0 then
                  [ CoreAudioCall.AudioUnitUninitialize c.audioUnit,
                   .AudioComponentInstanceDispose c.audioUnit]
                else []) ∧
      (c.isCapturing = 0 → c.audioUnit = 0 →
        (CoreAudio_Capture_Cleanup calls (some c)).2 = calls) ∧
      CoreAudio_Capture_Cleanup (CoreAudio_Capture_Cleanup calls (some c)).2
          (CoreAudio_Capture_Cleanup calls (some c)).1
        = CoreAudio_Capture_Cleanup calls (some c)) ∧
    (∀ (calls : List WasapiCall) (c : WASAPI_AudioCapture),
      (∃ c1 : WASAPI_AudioCapture,
        (WASAPI_AudioCapture_Cleanup calls (some c)).1 = some c1 ∧
        c1.isCapturing = 0 ∧ c1.isInitialized = 0 ∧
        c1.captureClient = 0 ∧ c1.audioClient = 0 ∧ c1.audioDevice = 0 ∧
        c1.deviceEnumerator = 0 ∧ c1.mixFormat = none ∧ c1.stopEvent = 0) ∧
      (WASAPI_AudioCapture_Cleanup calls (some c)).2
        = (WASAPI_AudioCapture_release
            (WASAPI_AudioCapture_Stop calls (some c)).2 c).2 ∧
      (c.captureClient ≠ 0 → .Release c.captureClient
        ∈ (WASAPI_AudioCapture_Cleanup calls (some c)).2) ∧
      (c.audioClient ≠ 0 → .Release c.audioClient
        ∈ (WASAPI_AudioCapture_Cleanup calls (some c)).2) ∧
      (c.audioDevice ≠ 0 → .Release c.audioDevice
        ∈ (WASAPI_AudioCapture_Cleanup calls (some c)).2) ∧
      (c.deviceEnumerator ≠ 0 → .Release c.deviceEnumerator
        ∈ (WASAPI_AudioCapture_Cleanup calls (some c)).2) ∧
      (∀ format, c.mixFormat = some format → .CoTaskMemFree format
        ∈ (WASAPI_AudioCapture_Cleanup calls (some c)).2) ∧
      (c.stopEvent ≠ 0 → .CloseHandle c.stopEvent
        ∈ (WASAPI_AudioCapture_Cleanup calls (some c)).2) ∧
      (c.isCapturing = 0 → c.captureClient = 0 → c.audioClient = 0 →
        c.audioDevice = 0 → c.deviceEnumerator = 0 → c.mixFormat = none →
        c.stopEvent = 0 →
        (WASAPI_AudioCapture_Cleanup calls (some c)).2 = calls) ∧
      WASAPI_AudioCapture_Cleanup (WASAPI_AudioCapture_Cleanup calls (some c)).2
          (WASAPI_AudioCapture_Cleanup calls (some c)).1
        = WASAPI_AudioCapture_Cleanup calls (some c)) := by
  refine ⟨fun calls c => ?_, fun calls c => ?_, fun calls c hstate => ?_,
    fun calls c => ?_⟩
  · rw [PulseAudio_Capture_Cleanup_eq]
    refine ⟨⟨_, rfl, rfl, rfl, rfl⟩, rfl, fun hcap hpa => ?_, ?_⟩
    · simp [PulseAudio_Capture_Stop, hcap, hpa]
    · simp [PulseAudio_Capture_Cleanup_eq, PulseAudio_Capture_Stop]
  · rw [CoreAudio_Capture_Cleanup_eq]
    exact ⟨_, rfl, rfl, rfl⟩
  · rw [CoreAudio_Capture_Cleanup_eq]
    refine ⟨⟨_, rfl, ?_⟩, ?_, fun hcap hunit => ?_, ?_⟩
    · rcases hstate with h | h
      · simp [h]
      · simp [h]
    · rcases hstate with h | h
      · simp [h]
      · simp [h]
    · simp [CoreAudio_Capture_Stop, hcap, hunit]
    · simp [CoreAudio_Capture_Cleanup_eq, CoreAudio_Capture_Stop]
  · have hmem := WASAPI_AudioCapture_release_mem
      (WASAPI_AudioCapture_Stop calls (some c)).2 c
    rw [WASAPI_AudioCapture_Cleanup_eq]
    refine ⟨⟨_, rfl, rfl, rfl, rfl, rfl, rfl, rfl, rfl, rfl⟩, rfl, hmem.1, hmem.2.1,
      hmem.2.2.1, hmem.2.2.2.1, hmem.2.2.2.2.1, hmem.2.2.2.2.2,
      fun hcap h1 h2 h3 h4 h5 h6 => ?_, ?_⟩
    · simp [WASAPI_AudioCapture_Stop, WASAPI_AudioCapture_release, hcap, h1, h2, h3,
        h4, h5, h6]
    · simp [WASAPI_AudioCapture_Cleanup_eq, WASAPI_AudioCapture_Stop,
        WASAPI_AudioCapture_release]

/-- C11, witness: the amended statement applied to the capturing macOS session,
whose Cleanup stops the unit, uninitializes and disposes it; to the capturing
Windows session, whose Cleanup releases the capture client 4; to the uninitialized
Windows session that holds the device enumerator 1, which Cleanup releases; and to
the Linux and Windows sessions as a Cleanup leaves them, on which a further Cleanup
makes no native call. -/
theorem C11_Cleanup_witness :
    (CoreAudio_Capture_Cleanup [] (some demoCoreAudioStarted)).2
      = [.AudioOutputUnitStop 12, CoreAudioCall.AudioUnitUninitialize 12,
         .AudioComponentInstanceDispose 12] ∧
    WasapiCall.Release 4 ∈ (WASAPI_AudioCapture_Cleanup [] (some demoWasapiStarted)).2 ∧
    WasapiCall.Release 1
      ∈ (WASAPI_AudioCapture_Cleanup []
          (some { WASAPI_AudioCapture.zeroed with deviceEnumerator := 1 })).2 ∧
    (PulseAudio_Capture_Cleanup [.pa_simple_free 11]
        (some { demoPulse with pulseAudio := 0, isInitialized := 0 })).2
      = [.pa_simple_free 11] ∧
    (WASAPI_AudioCapture_Cleanup [.Release 1]
        (some WASAPI_AudioCapture.zeroed)).2 = [.Release 1] := by
  have hmac := (C11_Cleanup.2.2.1 [] demoCoreAudioStarted (Or.inl (by decide))).2.1
  refine ⟨?_, ?_, ?_, ?_, ?_⟩
  · rw [hmac]
    decide
  · exact (C11_Cleanup.2.2.2 [] demoWasapiStarted).2.2.1 (by decide)
  · exact (C11_Cleanup.2.2.2 []
      { WASAPI_AudioCapture.zeroed with deviceEnumerator := 1 }).2.2.2.2.2.1 (by decide)
  · exact (C11_Cleanup.1 [.pa_simple_free 11]
      { demoPulse with pulseAudio := 0, isInitialized := 0 }).2.2.1 rfl rfl
  · exact (C11_Cleanup.2.2.2 [.Release 1] WASAPI_AudioCapture.zeroed).2.2.2.2.2.2.2.2.1
      rfl rfl rfl rfl rfl rfl rfl

/-! ## Theorems: the capture loop -/

/-- The Linux loop, entered at its `i`-th test with `n` good reads ahead and then a
failing one, exits at the failing read when it has more than `n` units of fuel. -/
theorem PulseAudio.captureLoop_read_failure (os : PulseOS) (c : PulseAudio_Capture)
    (flag : Nat → Int) :
    ∀ (n i : Nat) (calls : List PulseCall) (fuel : Nat),
      (∀ j, j < n → flag (i + j) ≠ 0 ∧
        0 ≤ (os.pa_simple_read (PulseAudio.chunkLog os c j calls)
              c.pulseAudio c.bufferSize).1) →
      flag (i + n) ≠ 0 →
      (os.pa_simple_read (PulseAudio.chunkLog os c n calls)
        c.pulseAudio c.bufferSize).1 < 0 →
      n < fuel →
      PulseAudio.captureLoop os c flag fuel i calls
        = some (PulseAudio.chunkLog os c n calls
            ++ [.pa_simple_read c.pulseAudio c.bufferSize]) := by
  intro n
  induction n with
  | zero =>
    intro i calls fuel _ hflag hfail hfuel
    obtain ⟨f, rfl⟩ : ∃ f, fuel = f + 1 := ⟨fuel - 1, by omega⟩
    have hflag0 : flag i ≠ 0 := by simpa using hflag
    have hfail0 : (os.pa_simple_read calls c.pulseAudio c.bufferSize).1 < 0 := hfail
    simp only [PulseAudio.captureLoop, if_neg hflag0, if_pos hfail0,
      PulseAudio.chunkLog]
  | succ n ih =>
    intro i calls fuel hgood hflag hfail hfuel
    obtain ⟨f, rfl⟩ : ∃ f, fuel = f + 1 := ⟨fuel - 1, by omega⟩
    have h0 := hgood 0 (Nat.succ_pos n)
    have hflag0 : flag i ≠ 0 := by simpa using h0.1
    have hread0 : ¬ (os.pa_simple_read calls c.pulseAudio c.bufferSize).1 < 0 :=
      not_lt.mpr h0.2
    have hshift : ∀ j, i + (j + 1) = i + 1 + j := fun j => by omega
    by_cases hcb : c.callback ≠ 0
    · simp only [PulseAudio.captureLoop, if_neg hflag0, if_neg hread0, if_pos hcb,
        PulseAudio.chunkLog]
      refine ih (i + 1) _ f (fun j hj => ?_) ?_ ?_ (by omega)
      · have h := hgood (j + 1) (by omega)
        rw [hshift] at h
        simp only [PulseAudio.chunkLog, if_pos hcb] at h
        exact h
      · rw [← hshift]
        exact hflag
      · simp only [PulseAudio.chunkLog, if_pos hcb] at hfail
        exact hfail
    · simp only [PulseAudio.captureLoop, if_neg hflag0, if_neg hread0, if_neg hcb,
        PulseAudio.chunkLog]
      refine ih (i + 1) _ f (fun j hj => ?_) ?_ ?_ (by omega)
      · have h := hgood (j + 1) (by omega)
        rw [hshift] at h
        simp only [PulseAudio.chunkLog, if_neg hcb] at h
        exact h
      · rw [← hshift]
        exact hflag
      · simp only [PulseAudio.chunkLog, if_neg hcb] at hfail
        exact hfail

/-- The Linux thread procedure hands back the session it was given and returns the
null pointer. -/
theorem PulseAudio_CaptureThreadProc_session (os : PulseOS) (c : PulseAudio_Capture)
    (flag : Nat → Int) (fuel : Nat) (calls : List PulseCall) (out : PulseOutcome)
    (hout : PulseAudio.CaptureThreadProc os c flag fuel calls = some out) :
    out.ret = 0 ∧ out.capture = some c := by
  unfold PulseAudio.CaptureThreadProc at hout
  split at hout
  · simp only [Option.some.injEq] at hout
    subst hout
    exact ⟨rfl, rfl⟩
  · split at hout
    · exact absurd hout (by simp)
    · simp only [Option.some.injEq] at hout
      subst hout
      exact ⟨rfl, rfl⟩

/-- The Windows loop exits at a failing `GetNextPacketSize` at the top of a pass. -/
theorem WASAPI.captureLoop_size_failure (os : WasapiOS) (c : WASAPI_AudioCapture)
    (flag : Nat → Int) (fuel i : Nat) (calls : List WasapiCall)
    (hflag : flag i ≠ 0)
    (hwait : os.WaitForSingleObject_timeout calls c.stopEvent = false)
    (hclient : c.captureClient ≠ 0)
    (hfail : FAILED (os.GetNextPacketSize
      (calls ++ [.WaitForSingleObject_timeout c.stopEvent 10]) c.captureClient).1
        = true) :
    WASAPI.captureLoop os c flag (fuel + 1) i calls
      = .done (calls ++ [.WaitForSingleObject_timeout c.stopEvent 10]
          ++ [.GetNextPacketSize c.captureClient]) := by
  simp only [WASAPI.captureLoop, if_neg hflag, hwait, Bool.false_eq_true, if_false,
    if_neg hclient, hfail, if_true]

/-- The Windows thread procedure hands back the session it was given and returns
zero. -/
theorem WASAPI_CaptureThreadProc_session (os : WasapiOS) (c : WASAPI_AudioCapture)
    (flag : Nat → Int) (fuel : Nat) (calls : List WasapiCall) (out : WasapiOutcome)
    (hout : WASAPI.CaptureThreadProc os c flag fuel calls = .done out) :
    out.ret = 0 ∧ out.capture = some c := by
  unfold WASAPI.CaptureThreadProc at hout
  split at hout
  · simp only [Run.done.injEq] at hout
    subst hout
    exact ⟨rfl, rfl⟩
  · exact absurd hout (by simp)
  · exact absurd hout (by simp)

/-- C15, counterexample: on Linux, with a `pa_simple_read` that delivers one chunk
and then fails, the thread procedure of the started session ends at the failing
read, and the session still has `isCapturing = 1`; the Start that follows returns 0
without any native call, so it is still a no-op. -/
theorem C15_read_failure_counterexample :
    (PulseAudio_Capture_Start demoPulseOS [] (some demoPulse)).capture
      = some demoPulseStarted ∧
    (PulseAudio.CaptureThreadProc demoPulseOS demoPulseStarted (fun _ => 1) 3
        [.pthread_create]).map
      (fun out =>
        (out.capture.map (fun c => c.isCapturing), out.calls.getLast?,
         (demoPulseOS.pa_simple_read out.calls.dropLast 11 3840).1,
         (PulseAudio_Capture_Start demoPulseOS out.calls out.capture).ret,
         (PulseAudio_Capture_Start demoPulseOS out.calls out.capture).calls.length
           - out.calls.length))
      = some (some 1, some (.pa_simple_read 11 3840), -1, 0, 0) := by
  constructor <;> decide

/-- C15, amended: when `pa_simple_read` fails (Linux), or the `GetNextPacketSize`
call at the top of a pass fails (Windows), the capture loop ends at that call, given
fuel for the passes before it.  The thread procedure assigns to no field of the
session: the session it leaves is the one it was given, `isCapturing` included, so
the flag is not cleared by the exit of the loop, and a Start on the session, still
initialized and flagged as capturing, remains a successful no-op (0 on Linux,
`S_FALSE` on Windows). -/
theorem C15_read_failure :
    (∀ (os : PulseOS) (c : PulseAudio_Capture) (flag : Nat → Int) (n i : Nat)
        (calls : List PulseCall) (fuel : Nat),
      (∀ j, j < n → flag (i + j) ≠ 0 ∧
        0 ≤ (os.pa_simple_read (PulseAudio.chunkLog os c j calls)
              c.pulseAudio c.bufferSize).1) →
      flag (i + n) ≠ 0 →
      (os.pa_simple_read (PulseAudio.chunkLog os c n calls)
        c.pulseAudio c.bufferSize).1 < 0 →
      n < fuel →
      PulseAudio.captureLoop os c flag fuel i calls
        = some (PulseAudio.chunkLog os c n calls
            ++ [.pa_simple_read c.pulseAudio c.bufferSize])) ∧
    (∀ (os : PulseOS) (c : PulseAudio_Capture) (flag : Nat → Int) (fuel : Nat)
        (calls : List PulseCall) (out : PulseOutcome),
      PulseAudio.CaptureThreadProc os c flag fuel calls = some out →
      out.capture = some c) ∧
    (∀ (os : PulseOS) (calls : List PulseCall) (c : PulseAudio_Capture),
      c.isInitialized ≠ 0 → c.isCapturing ≠ 0 →
      PulseAudio_Capture_Start os calls (some c) = ⟨0, some c, calls⟩) ∧
    (∀ (os : WasapiOS) (c : WASAPI_AudioCapture) (flag : Nat → Int) (fuel i : Nat)
        (calls : List WasapiCall),
      flag i ≠ 0 → os.WaitForSingleObject_timeout calls c.stopEvent = false →
      c.captureClient ≠ 0 →
      FAILED (os.GetNextPacketSize
        (calls ++ [.WaitForSingleObject_timeout c.stopEvent 10]) c.captureClient).1
          = true →
      WASAPI.captureLoop os c flag (fuel + 1) i calls
        = .done (calls ++ [.WaitForSingleObject_timeout c.stopEvent 10]
            ++ [.GetNextPacketSize c.captureClient])) ∧
    (∀ (os : WasapiOS) (c : WASAPI_AudioCapture) (flag : Nat → Int) (fuel : Nat)
        (calls : List WasapiCall) (out : WasapiOutcome),
      WASAPI.CaptureThreadProc os c flag fuel calls = .done out →
      out.capture = some c) ∧
    (∀ (os : WasapiOS) (calls : List WasapiCall) (c : WASAPI_AudioCapture),
      c.isInitialized ≠ 0 → c.isCapturing ≠ 0 →
      WASAPI_AudioCapture_Start os calls (some c) = some ⟨S_FALSE, some c, calls⟩) :=
  ⟨PulseAudio.captureLoop_read_failure,
   fun os c flag fuel calls out h =>
     (PulseAudio_CaptureThreadProc_session os c flag fuel calls out h).2,
   PulseAudio_Capture_Start_capturing,
   WASAPI.captureLoop_size_failure,
   fun os c flag fuel calls out h =>
     (WASAPI_CaptureThreadProc_session os c flag fuel calls out h).2,
   WASAPI_AudioCapture_Start_capturing⟩

/-- C15, witness: the amended statement applied to the Linux session of the
counterexample, whose second read fails: with two units of fuel the loop ends at
that read, after one delivered chunk. -/
theorem C15_read_failure_witness :
    PulseAudio.captureLoop demoPulseOS demoPulseStarted (fun _ => 1) 2 0 []
      = some (PulseAudio.chunkLog demoPulseOS demoPulseStarted 1 []
          ++ [.pa_simple_read 11 3840]) :=
  C15_read_failure.1 demoPulseOS demoPulseStarted (fun _ => 1) 1 0 [] 2
    (fun j hj => by
      obtain rfl : j = 0 := by omega
      exact ⟨by decide, by decide⟩)
    (by decide) (by decide) (by decide)

/-! ## Theorems: range of the binary32 conversion -/

/-- A magnitude that needs `E > 0` excess bits dropped is at least `2 ^ (23 + E)`. -/
theorem Float32.excessBits_pow_le :
    ∀ fuel n : Nat, Float32.excessBits fuel n = 0 ∨
      2 ^ (Float32.excessBits fuel n) * 8388608 ≤ n := by
  intro fuel
  induction fuel with
  | zero =>
    intro n
    exact Or.inl rfl
  | succ fuel ih =>
    intro n
    unfold Float32.excessBits
    by_cases h : n < 16777216
    · rw [if_pos h]
      exact Or.inl rfl
    · rw [if_neg h]
      right
      rcases ih (n / 2) with h0 | h1
      · rw [h0]
        omega
      · rw [pow_succ]
        generalize 2 ^ Float32.excessBits fuel (n / 2) = p at h1 ⊢
        omega

/-- The cast to `int16_t` of a binary32 value `x * 2 ^ (-j)` whose magnitude is at
most 32767 is defined and keeps the bound. -/
theorem Float32.toInt16_bounds (x : Int) (j : Nat) (hx : x.natAbs ≤ 32767 * 2 ^ j) :
    ∃ t : Int, Float32.toInt16 (Float32.finite x (-(j : Int))) = some t ∧
      -32767 ≤ t ∧ t ≤ 32767 := by
  have hb : 0 < 2 ^ j := Nat.pos_of_ne_zero (by positivity)
  have ht : (Int.tdiv x (2 ^ j)).natAbs ≤ 32767 := by
    rw [Int.natAbs_tdiv]
    have hcast : ((2 : Int) ^ j).natAbs = 2 ^ j := by
      rw [Int.natAbs_pow]
      rfl
    rw [hcast]
    show x.natAbs / 2 ^ j ≤ 32767
    exact Nat.div_le_of_le_mul (by rw [Nat.mul_comm]; exact hx)
  unfold Float32.toInt16
  dsimp only
  by_cases hj : j = 0
  · subst hj
    have h0 : (0 : Int) ≤ -((0 : Nat) : Int) := by decide
    rw [if_pos h0]
    have hval : x * 2 ^ (-((0 : Nat) : Int)).toNat = x := by
      show x * 2 ^ 0 = x
      omega
    rw [hval]
    have hx0 : x.natAbs ≤ 32767 := by simpa using hx
    rw [if_pos (by omega)]
    exact ⟨x, rfl, by omega, by omega⟩
  · have h0 : ¬ (0 : Int) ≤ -(j : Int) := by omega
    have hexp : (-(-(j : Int))).toNat = j := by omega
    rw [if_neg h0, hexp]
    rw [if_pos (by omega)]
    exact ⟨_, rfl, by omega, by omega⟩

/-- The product of a magnitude of at most `32767 * 2 ^ d` scaled by `2 ^ (-d)`,
rounded to binary32 and cast to `int16_t`, is defined and lies in
`[-32767, 32767]`. -/
theorem Float32.toInt16_round_bounds (M : Int) (d : Nat)
    (h : M.natAbs ≤ 32767 * 2 ^ d) :
    ∃ t : Int, Float32.toInt16 (Float32.round M (-(d : Int))) = some t ∧
      -32767 ≤ t ∧ t ≤ 32767 := by
  have hE : Float32.excessBits M.natAbs M.natAbs ≤ d := by
    rcases Float32.excessBits_pow_le M.natAbs M.natAbs with h0 | h1
    · omega
    · by_contra hgt
      have hlt : d < Float32.excessBits M.natAbs M.natAbs := by omega
      have hpow : 2 ^ (d + 1) ≤ 2 ^ Float32.excessBits M.natAbs M.natAbs :=
        Nat.pow_le_pow_right (by decide) hlt
      rw [pow_succ] at hpow
      have hb : 0 < 2 ^ d := Nat.pos_of_ne_zero (by positivity)
      generalize 2 ^ Float32.excessBits M.natAbs M.natAbs = p at h1 hpow
      generalize 2 ^ d = b at h hpow hb
      omega
  unfold Float32.round
  dsimp only
  generalize Float32.excessBits M.natAbs M.natAbs = E at hE ⊢
  obtain ⟨k, j, hkj, he1, hk⟩ : ∃ k j : Nat, k + j = d ∧
      max (-(d : Int) + (E : Int)) (-149) = -(j : Int) ∧
      (max (-(d : Int) + (E : Int)) (-149) - -(d : Int)).toNat = k := by
    by_cases hc : (-149 : Int) ≤ -(d : Int) + (E : Int)
    · refine ⟨E, d - E, by omega, ?_, ?_⟩
      · rw [max_eq_left hc]
        omega
      · rw [max_eq_left hc]
        omega
    · refine ⟨d - 149, 149, by omega, ?_, ?_⟩
      · rw [max_eq_right (by omega)]
        rfl
      · rw [max_eq_right (by omega)]
        omega
  rw [hk, he1]
  have hexp : (128 - -(j : Int)).toNat = 128 + j := by omega
  rw [hexp]
  have hp : 0 < 2 ^ k := Nat.pos_of_ne_zero (by positivity)
  have hb : 0 < 2 ^ j := Nat.pos_of_ne_zero (by positivity)
  have hsplit : 2 ^ k * (M.natAbs / 2 ^ k) + M.natAbs % 2 ^ k = M.natAbs :=
    Nat.div_add_mod _ _
  have hd : 2 ^ d = 2 ^ k * 2 ^ j := by rw [← hkj, pow_add]
  have hq : M.natAbs / 2 ^ k ≤ 32767 * 2 ^ j := by
    apply Nat.div_le_of_le_mul
    rw [hd] at h
    calc M.natAbs ≤ 32767 * (2 ^ k * 2 ^ j) := h
      _ = 2 ^ k * (32767 * 2 ^ j) := by ring
  have hq1 : (if 2 * (M.natAbs % 2 ^ k) > 2 ^ k ∨
        2 * (M.natAbs % 2 ^ k) = 2 ^ k ∧ M.natAbs / 2 ^ k % 2 = 1
      then M.natAbs / 2 ^ k + 1 else M.natAbs / 2 ^ k) ≤ 32767 * 2 ^ j := by
    split
    · rename_i hc
      by_contra hgt
      have heq : M.natAbs / 2 ^ k = 32767 * 2 ^ j := by omega
      rw [heq] at hsplit
      rw [hd] at h
      have hmul : 2 ^ k * (32767 * 2 ^ j) = 32767 * (2 ^ k * 2 ^ j) := by ring
      rw [hmul] at hsplit
      have hr : M.natAbs % 2 ^ k = 0 := by
        generalize 32767 * (2 ^ k * 2 ^ j) = X at hsplit h
        omega
      rw [hr] at hc
      omega
    · exact hq
  generalize (if 2 * (M.natAbs % 2 ^ k) > 2 ^ k ∨
        2 * (M.natAbs % 2 ^ k) = 2 ^ k ∧ M.natAbs / 2 ^ k % 2 = 1
      then M.natAbs / 2 ^ k + 1 else M.natAbs / 2 ^ k) = q1 at hq1 ⊢
  have hbig : ¬ 2 ^ (128 + j) ≤ q1 := by
    rw [pow_add]
    have h15 : 32767 * 2 ^ j < 2 ^ 128 * 2 ^ j :=
      Nat.mul_lt_mul_of_pos_right (by norm_num) hb
    omega
  rw [if_neg hbig]
  apply Float32.toInt16_bounds
  split
  · rw [Int.natAbs_neg, Int.natAbs_ofNat]
    exact hq1
  · rw [Int.natAbs_ofNat]
    exact hq1

/-- Zero with a positive exponent rounds to zero and casts to 0. -/
theorem Float32.toInt16_round_zero (e : Int) (he : 0 < e) :
    Float32.toInt16 (Float32.round 0 e) = some 0 := by
  have hmax : max (e + ((Float32.excessBits (Int.natAbs 0) (Int.natAbs 0) : Nat) : Int))
      (-149) = e := by
    show max (e + ((0 : Nat) : Int)) (-149) = e
    rw [max_eq_left (by omega)]
    omega
  have hk : (e - e).toNat = 0 := by omega
  have hpos : 0 < 2 ^ (128 - e).toNat := Nat.pos_of_ne_zero (by positivity)
  have hround : Float32.round 0 e = Float32.finite 0 e := by
    unfold Float32.round
    dsimp only
    rw [hmax, hk]
    have hc : ¬ (2 * (Int.natAbs 0 % 2 ^ 0) > 2 ^ 0 ∨
        2 * (Int.natAbs 0 % 2 ^ 0) = 2 ^ 0 ∧ Int.natAbs 0 / 2 ^ 0 % 2 = 1) := by decide
    rw [if_neg hc]
    have hq : Int.natAbs 0 / 2 ^ 0 = 0 := by decide
    rw [hq, if_neg (by omega), if_neg (by decide)]
    rfl
  rw [hround]
  unfold Float32.toInt16
  dsimp only
  rw [if_pos (le_of_lt he), zero_mul, if_pos (by decide)]

/-- The conversion of the code never leaves the symmetric 16-bit range: for every
binary32 sample that is not a NaN the cast is defined and the value lies in
`[-32767, 32767]`. -/
theorem InputCallback_convertSample_bounds (x : Float32) (hx : x ≠ Float32.nan) :
    ∃ v : Int, InputCallback_convertSample x = some v ∧ -32767 ≤ v ∧ v ≤ 32767 := by
  cases x with
  | nan => exact absurd rfl hx
  | inf negative =>
    cases negative with
    | false => exact ⟨32767, by decide, by decide, by decide⟩
    | true => exact ⟨-32767, by decide, by decide, by decide⟩
  | finite m e =>
    by_cases hgt : Float32.gt (Float32.finite m e) Float32.one = true
    · refine ⟨32767, ?_, by decide, by decide⟩
      simp only [InputCallback_convertSample, hgt, if_true]
      decide
    by_cases hlt : Float32.lt (Float32.finite m e) Float32.negOne = true
    · refine ⟨-32767, ?_, by decide, by decide⟩
      simp only [InputCallback_convertSample, hgt, hlt, Bool.false_eq_true, if_false,
        if_true]
      decide
    have hconv : InputCallback_convertSample (Float32.finite m e)
        = Float32.toInt16 (Float32.round (m * 32767) (e + 0)) := by
      simp only [InputCallback_convertSample, hgt, hlt, Bool.false_eq_true, if_false]
      rfl
    rw [hconv]
    simp only [Float32.gt, Float32.lt, Float32.one, Float32.negOne,
      decide_eq_true_eq, not_lt] at hgt hlt
    by_cases he : e ≤ 0
    · have hmin1 : min 0 e = e := min_eq_right he
      have hmin2 : min e 0 = e := min_eq_left he
      rw [hmin1] at hgt
      rw [hmin2] at hlt
      have h0 : (e - e).toNat = 0 := by omega
      rw [h0] at hgt hlt
      obtain ⟨d, hd⟩ : ∃ d : Nat, e = -(d : Int) := ⟨(-e).toNat, by omega⟩
      subst hd
      have hd2 : (0 - -(d : Int)).toNat = d := by omega
      rw [hd2] at hgt hlt
      have hm : m.natAbs ≤ 2 ^ d := by
        have hcast : ((2 ^ d : Nat) : Int) = 2 ^ d := by push_cast; rfl
        generalize (2 : Int) ^ d = b at hgt hlt hcast
        generalize 2 ^ d = bn at hcast ⊢
        omega
      have hM : (m * 32767).natAbs ≤ 32767 * 2 ^ d := by
        rw [Int.natAbs_mul]
        show m.natAbs * 32767 ≤ 32767 * 2 ^ d
        generalize 2 ^ d = bn at hm ⊢
        omega
      have hexp : -(d : Int) + 0 = -(d : Int) := by omega
      rw [hexp]
      exact Float32.toInt16_round_bounds (m * 32767) d hM
    · have hpos : 0 < e := by omega
      have hmin1 : min 0 e = 0 := min_eq_left (le_of_lt hpos)
      have hmin2 : min e 0 = 0 := min_eq_right (le_of_lt hpos)
      rw [hmin1] at hgt
      rw [hmin2] at hlt
      have he0 : (e - 0).toNat = (e - 1).toNat + 1 := by omega
      rw [he0, pow_succ] at hgt hlt
      have hp : (0 : Int) < 2 ^ (e - 1).toNat := by positivity
      have hm0 : m = 0 := by
        simp only [sub_self, Int.toNat_zero, pow_zero, mul_one] at hgt hlt
        generalize (2 : Int) ^ (e - 1).toNat = p at hgt hlt hp
        by_contra hne
        rcases lt_or_gt_of_ne hne with hneg | hposm
        · have : m * (p * 2) ≤ -1 * (p * 2) := by
            have hm1 : m ≤ -1 := by omega
            exact Int.mul_le_mul_of_nonneg_right hm1 (by omega)
          omega
        · have : 1 * (p * 2) ≤ m * (p * 2) := by
            have hm1 : 1 ≤ m := by omega
            exact Int.mul_le_mul_of_nonneg_right hm1 (by omega)
          omega
      subst hm0
      have hexp : e + 0 = e := by omega
      rw [hexp, zero_mul, Float32.toInt16_round_zero e hpos]
      exact ⟨0, rfl, by decide, by decide⟩

/-! ## Theorems: the chunks handed to the callback -/

/-- The macOS Initialize leaves a session with the fixed format 48000 Hz, 2
channels, 16 bits, not capturing, and initialized exactly when it returns
`noErr`. -/
theorem CoreAudio_Capture_Initialize_state (os : CoreAudioOS)
    (calls : List CoreAudioCall) (c : CoreAudio_Capture) :
    ∃ c1 : CoreAudio_Capture,
      (CoreAudio_Capture_Initialize os calls (some c)).capture = some c1 ∧
      c1.sampleRate = 48000 ∧ c1.channels = 2 ∧ c1.bitsPerSample = 16 ∧
      c1.isCapturing = 0 ∧
      (((CoreAudio_Capture_Initialize os calls (some c)).ret ≠ noErr ∧
          c1.isInitialized = 0) ∨
        ((CoreAudio_Capture_Initialize os calls (some c)).ret = noErr ∧
          c1.isInitialized = 1)) := by
  generalize hout : CoreAudio_Capture_Initialize os calls (some c) = out
  unfold CoreAudio_Capture_Initialize at hout
  dsimp only at hout
  split at hout
  · subst hout
    exact ⟨_, rfl, rfl, rfl, rfl, rfl,
      Or.inl ⟨show kAudioUnitErr_NoConnection ≠ noErr by decide, rfl⟩⟩
  repeat' split at hout
  all_goals subst hout
  all_goals first
    | exact ⟨_, rfl, rfl, rfl, rfl, rfl, Or.inl ⟨by assumption, rfl⟩⟩
    | exact ⟨_, rfl, rfl, rfl, rfl, rfl, Or.inr ⟨rfl, rfl⟩⟩

/-- The conversion loop yields one value per sample. -/
theorem InputCallback_convertBuffer_length :
    ∀ (samples : List Float32) (values : List Int),
      InputCallback_convertBuffer samples = some values →
      values.length = samples.length := by
  intro samples
  induction samples with
  | nil =>
    intro values h
    simp only [InputCallback_convertBuffer, Option.some.injEq] at h
    subst h
    rfl
  | cons sample rest ih =>
    intro values h
    unfold InputCallback_convertBuffer at h
    split at h
    · rename_i v vs _ hrest
      simp only [Option.some.injEq] at h
      subst h
      simp only [List.length_cons, ih vs hrest]
    · exact absurd h (by simp)

/-- Whatever `InputCallback` appends to the log, an invocation of the callback
among it carries two bytes per rendered sample. -/
theorem InputCallback_chunk (os : CoreAudioOS) (calls : List CoreAudioCall)
    (c : CoreAudio_Capture) (inNumberFrames : Nat) (out : CoreAudioOutcome)
    (hout : InputCallback os calls c inNumberFrames = some out) :
    ∃ added : List CoreAudioCall, out.calls = calls ++ added ∧
      ∀ e ∈ added, CoreAudioCall.isChunkOf c inNumberFrames e := by
  unfold InputCallback at hout
  dsimp only at hout
  split at hout
  · simp only [Option.some.injEq] at hout
    subst hout
    exact ⟨[.malloc (wrapUInt32 (inNumberFrames * c.channels) * 4)], rfl,
      by simp [CoreAudioCall.isChunkOf]⟩
  split at hout
  · split at hout
    · simp only [Option.some.injEq] at hout
      subst hout
      exact ⟨[.malloc (wrapUInt32 (inNumberFrames * c.channels) * 4),
          .AudioUnitRender c.audioUnit inNumberFrames,
          .malloc (wrapUInt32 (inNumberFrames * c.channels) * 2)],
        by simp, by simp [CoreAudioCall.isChunkOf]⟩
    · split at hout
      · exact absurd hout (by simp)
      · rename_i values hconv
        simp only [Option.some.injEq] at hout
        subst hout
        have hlen := InputCallback_convertBuffer_length _ _ hconv
        simp only [List.length_map, List.length_range] at hlen
        exact ⟨[.malloc (wrapUInt32 (inNumberFrames * c.channels) * 4),
            .AudioUnitRender c.audioUnit inNumberFrames,
            .malloc (wrapUInt32 (inNumberFrames * c.channels) * 2),
            .callback c.callback values
              (wrapUInt32 (inNumberFrames * c.channels) * 2) c.sampleRate
              c.channels c.bitsPerSample c.userData],
          by simp, by simp [CoreAudioCall.isChunkOf, hlen]⟩
  · simp only [Option.some.injEq] at hout
    subst hout
    exact ⟨[.malloc (wrapUInt32 (inNumberFrames * c.channels) * 4),
        .AudioUnitRender c.audioUnit inNumberFrames],
      by simp, by simp [CoreAudioCall.isChunkOf]⟩

/-- When both allocations and the render succeed and a callback is registered,
`InputCallback` invokes the callback once, with the converted samples. -/
theorem InputCallback_delivers (os : CoreAudioOS) (calls : List CoreAudioCall)
    (c : CoreAudio_Capture) (inNumberFrames : Nat) (values : List Int)
    (hfloat : os.malloc calls (wrapUInt32 (inNumberFrames * c.channels) * 4) = true)
    (hrender : (os.AudioUnitRender
      (calls ++ [.malloc (wrapUInt32 (inNumberFrames * c.channels) * 4)])
      c.audioUnit inNumberFrames).1 = noErr)
    (hcallback : c.callback ≠ 0)
    (hint16 : os.malloc
      (calls ++ [.malloc (wrapUInt32 (inNumberFrames * c.channels) * 4)]
        ++ [.AudioUnitRender c.audioUnit inNumberFrames])
      (wrapUInt32 (inNumberFrames * c.channels) * 2) = true)
    (hconv : InputCallback_convertBuffer
      ((List.range (wrapUInt32 (inNumberFrames * c.channels))).map
        (os.AudioUnitRender
          (calls ++ [.malloc (wrapUInt32 (inNumberFrames * c.channels) * 4)])
          c.audioUnit inNumberFrames).2) = some values) :
    InputCallback os calls c inNumberFrames
      = some ⟨noErr, some c,
          calls ++ [.malloc (wrapUInt32 (inNumberFrames * c.channels) * 4)]
            ++ [.AudioUnitRender c.audioUnit inNumberFrames]
            ++ [.malloc (wrapUInt32 (inNumberFrames * c.channels) * 2)]
            ++ [.callback c.callback values
                  (wrapUInt32 (inNumberFrames * c.channels) * 2) c.sampleRate
                  c.channels c.bitsPerSample c.userData]⟩ := by
  have h1 : ¬ os.malloc calls (wrapUInt32 (inNumberFrames * c.channels) * 4) = false := by
    rw [hfloat]
    decide
  have h2 : ¬ os.malloc
      (calls ++ [.malloc (wrapUInt32 (inNumberFrames * c.channels) * 4)]
        ++ [.AudioUnitRender c.audioUnit inNumberFrames])
      (wrapUInt32 (inNumberFrames * c.channels) * 2) = false := by
    rw [hint16]
    decide
  unfold InputCallback
  dsimp only
  rw [if_neg h1, if_pos ⟨hrender, hcallback⟩, if_neg h2]
  simp only [hconv, hrender]

/-- Whatever the Linux loop appends to the log is a read or an invocation of the
callback with the session's `bufferSize` and format. -/
theorem PulseAudio_captureLoop_chunks (os : PulseOS) (c : PulseAudio_Capture)
    (flag : Nat → Int) :
    ∀ (fuel i : Nat) (calls log : List PulseCall),
      PulseAudio.captureLoop os c flag fuel i calls = some log →
      ∃ added : List PulseCall, log = calls ++ added ∧
        ∀ e ∈ added, PulseCall.isChunkOf c e := by
  intro fuel
  induction fuel with
  | zero =>
    intro i calls log h
    simp [PulseAudio.captureLoop] at h
  | succ fuel ih =>
    intro i calls log h
    unfold PulseAudio.captureLoop at h
    dsimp only at h
    split at h
    · simp only [Option.some.injEq] at h
      subst h
      exact ⟨[], by simp, by simp⟩
    split at h
    · simp only [Option.some.injEq] at h
      subst h
      exact ⟨[.pa_simple_read c.pulseAudio c.bufferSize], rfl,
        by simp [PulseCall.isChunkOf]⟩
    split at h
    · obtain ⟨added, hlog, hall⟩ := ih _ _ _ h
      refine ⟨[.pa_simple_read c.pulseAudio c.bufferSize,
          .callback c.callback
            (os.pa_simple_read calls c.pulseAudio c.bufferSize).2 c.bufferSize
            c.sampleRate c.channels c.bitsPerSample c.userData] ++ added,
        by simp [hlog], ?_⟩
      intro e he
      simp only [List.cons_append, List.nil_append, List.mem_cons] at he
      rcases he with rfl | rfl | he
      · simp [PulseCall.isChunkOf]
      · simp [PulseCall.isChunkOf]
      · exact hall e he
    · obtain ⟨added, hlog, hall⟩ := ih _ _ _ h
      refine ⟨[.pa_simple_read c.pulseAudio c.bufferSize] ++ added,
        by simp [hlog], ?_⟩
      intro e he
      simp only [List.cons_append, List.nil_append, List.mem_cons] at he
      rcases he with rfl | he
      · simp [PulseCall.isChunkOf]
      · exact hall e he

/-- The Linux loop ends once the owner of the session has cleared the flag: if the
`n`-th test finds 0, fuel for the tests up to it is enough. -/
theorem PulseAudio.captureLoop_terminates (os : PulseOS) (c : PulseAudio_Capture)
    (flag : Nat → Int) (n : Nat) (hflag : flag n = 0) :
    ∀ (fuel i : Nat) (calls : List PulseCall), i ≤ n → n - i < fuel →
      (PulseAudio.captureLoop os c flag fuel i calls).isSome = true := by
  intro fuel
  induction fuel with
  | zero =>
    intro i calls _ h
    omega
  | succ fuel ih =>
    intro i calls hi hfuel
    unfold PulseAudio.captureLoop
    dsimp only
    split
    · rfl
    have hne : i ≠ n := fun h => by
      subst h
      contradiction
    split
    · rfl
    split
    · exact ih _ _ (by omega) (by omega)
    · exact ih _ _ (by omega) (by omega)

/-- The delivery step of the Windows inner loop appends nothing or one invocation
of the callback with the packet as delivered and the mix format. -/
theorem WASAPI.deliver_chunk (c : WASAPI_AudioCapture) (packet : PacketBuffer)
    (calls log : List WasapiCall) (h : WASAPI.deliver c packet calls = some log) :
    ∃ added : List WasapiCall, log = calls ++ added ∧
      ∀ e ∈ added, WasapiCall.isChunkOf c e := by
  unfold WASAPI.deliver at h
  split at h
  · rename_i hcond
    split at h
    · exact absurd h (by simp)
    · rename_i format hformat
      simp only [Option.some.injEq] at h
      subst h
      refine ⟨[.callback c.callback packet.audioData
          (wrapUInt32 (packet.numFramesAvailable * format.nBlockAlign))
          format.nSamplesPerSec format.nChannels format.wBitsPerSample c.userData],
        rfl, ?_⟩
      intro e he
      simp only [List.mem_singleton] at he
      subst he
      exact ⟨format, hformat, rfl, ⟨packet.numFramesAvailable, hcond.2.1, rfl⟩,
        rfl, rfl, rfl, rfl⟩
  · simp only [Option.some.injEq] at h
    subst h
    exact ⟨[], by simp, by simp⟩

/-- Whatever the Windows inner loop appends to the log, an invocation of the
callback among it carries a packet as delivered and the mix format. -/
theorem WASAPI.drainPackets_chunks (os : WasapiOS) (c : WASAPI_AudioCapture) :
    ∀ (fuel packetLength : Nat) (calls log : List WasapiCall),
      WASAPI.drainPackets os c fuel packetLength calls = .done log →
      ∃ added : List WasapiCall, log = calls ++ added ∧
        ∀ e ∈ added, WasapiCall.isChunkOf c e := by
  intro fuel
  induction fuel with
  | zero =>
    intro n calls log h
    simp [WASAPI.drainPackets] at h
  | succ fuel ih =>
    intro n calls log h
    unfold WASAPI.drainPackets at h
    dsimp only at h
    split at h
    · simp only [Run.done.injEq] at h
      subst h
      exact ⟨[], by simp, by simp⟩
    split at h
    · exact absurd h (by simp)
    split at h
    · simp only [Run.done.injEq] at h
      subst h
      exact ⟨[.GetBuffer c.captureClient], rfl, by simp [WasapiCall.isChunkOf]⟩
    split at h
    · exact absurd h (by simp)
    rename_i calls2 hdeliver
    obtain ⟨added1, hlog1, hall1⟩ := WASAPI.deliver_chunk c _ _ _ hdeliver
    split at h
    · simp only [Run.done.injEq] at h
      subst h
      refine ⟨[.GetBuffer c.captureClient] ++ added1 ++
          [.ReleaseBuffer c.captureClient
            (os.GetBuffer calls c.captureClient).numFramesAvailable],
        by simp [hlog1], ?_⟩
      intro e he
      simp only [List.mem_append, List.mem_singleton] at he
      rcases he with (rfl | he) | rfl
      · simp [WasapiCall.isChunkOf]
      · exact hall1 e he
      · simp [WasapiCall.isChunkOf]
    split at h
    · simp only [Run.done.injEq] at h
      subst h
      refine ⟨[.GetBuffer c.captureClient] ++ added1 ++
          [.ReleaseBuffer c.captureClient
            (os.GetBuffer calls c.captureClient).numFramesAvailable] ++
          [.GetNextPacketSize c.captureClient],
        by simp [hlog1], ?_⟩
      intro e he
      simp only [List.mem_append, List.mem_singleton] at he
      rcases he with ((rfl | he) | rfl) | rfl
      · simp [WasapiCall.isChunkOf]
      · exact hall1 e he
      · simp [WasapiCall.isChunkOf]
      · simp [WasapiCall.isChunkOf]
    · obtain ⟨added2, hlog2, hall2⟩ := ih _ _ _ h
      refine ⟨[.GetBuffer c.captureClient] ++ added1 ++
          [.ReleaseBuffer c.captureClient
            (os.GetBuffer calls c.captureClient).numFramesAvailable] ++
          [.GetNextPacketSize c.captureClient] ++ added2,
        by simp [hlog2, hlog1], ?_⟩
      intro e he
      simp only [List.mem_append, List.mem_singleton] at he
      rcases he with (((rfl | he) | rfl) | rfl) | he
      · simp [WasapiCall.isChunkOf]
      · exact hall1 e he
      · simp [WasapiCall.isChunkOf]
      · simp [WasapiCall.isChunkOf]
      · exact hall2 e he

/-- Whatever the Windows outer loop appends to the log, an invocation of the
callback among it carries a packet as delivered and the mix format. -/
theorem WASAPI_captureLoop_chunks (os : WasapiOS) (c : WASAPI_AudioCapture)
    (flag : Nat → Int) :
    ∀ (fuel i : Nat) (calls log : List WasapiCall),
      WASAPI.captureLoop os c flag fuel i calls = .done log →
      ∃ added : List WasapiCall, log = calls ++ added ∧
        ∀ e ∈ added, WasapiCall.isChunkOf c e := by
  intro fuel
  induction fuel with
  | zero =>
    intro i calls log h
    simp [WASAPI.captureLoop] at h
  | succ fuel ih =>
    intro i calls log h
    unfold WASAPI.captureLoop at h
    dsimp only at h
    split at h
    · simp only [Run.done.injEq] at h
      subst h
      exact ⟨[], by simp, by simp⟩
    split at h
    · simp only [Run.done.injEq] at h
      subst h
      exact ⟨[.WaitForSingleObject_timeout c.stopEvent 10], rfl,
        by simp [WasapiCall.isChunkOf]⟩
    split at h
    · exact absurd h (by simp)
    split at h
    · simp only [Run.done.injEq] at h
      subst h
      exact ⟨[.WaitForSingleObject_timeout c.stopEvent 10,
          .GetNextPacketSize c.captureClient], by simp,
        by simp [WasapiCall.isChunkOf]⟩
    split at h
    · rename_i calls3 hdrain
      obtain ⟨added1, hlog1, hall1⟩ := WASAPI.drainPackets_chunks os c _ _ _ _ hdrain
      obtain ⟨added2, hlog2, hall2⟩ := ih _ _ _ h
      refine ⟨[.WaitForSingleObject_timeout c.stopEvent 10,
          .GetNextPacketSize c.captureClient] ++ added1 ++ added2,
        by simp [hlog2, hlog1], ?_⟩
      intro e he
      simp only [List.mem_append, List.mem_cons, List.mem_singleton,
        List.not_mem_nil, or_false] at he
      rcases he with ((rfl | rfl) | he) | he
      · simp [WasapiCall.isChunkOf]
      · simp [WasapiCall.isChunkOf]
      · exact hall1 e he
      · exact hall2 e he
    · exact absurd h (by simp)
    · exact absurd h (by simp)

/-- A buffer of silence converts to as many zeros. -/
theorem InputCallback_convertBuffer_silence (n : Nat) :
    InputCallback_convertBuffer (List.replicate n (Float32.finite 0 0))
      = some (List.replicate n 0) := by
  induction n with
  | zero => rfl
  | succ n ih =>
    have h0 : InputCallback_convertSample (Float32.finite 0 0) = some 0 := by decide
    simp only [List.replicate_succ, InputCallback_convertBuffer, h0, ih]

/-- The conversion loop is defined on every buffer that holds no NaN. -/
theorem InputCallback_convertBuffer_defined (samples : List Float32)
    (h : ∀ s ∈ samples, s ≠ Float32.nan) :
    ∃ values : List Int, InputCallback_convertBuffer samples = some values := by
  induction samples with
  | nil => exact ⟨[], rfl⟩
  | cons sample rest ih =>
    obtain ⟨v, hv, _, _⟩ :=
      InputCallback_convertSample_bounds sample (h sample (List.mem_cons_self _ _))
    obtain ⟨vs, hvs⟩ := ih (fun s hs => h s (List.mem_cons_of_mem _ hs))
    exact ⟨v :: vs, by simp only [InputCallback_convertBuffer, hv, hvs]⟩

/-- C17, counterexample: on macOS a render of 512 frames on the 48 kHz stereo
session hands the callback a chunk of 2048 bytes, not the 3840 bytes of 20 ms; on
Windows a packet of 441 frames with the 8-byte blocks of the float mix format is
handed over as 3528 bytes reported with 32 bits per sample. -/
theorem C17_chunk_size_counterexample :
    InputCallback demoCoreAudioOS [] demoCoreAudioStarted 512
      = some ⟨0, some demoCoreAudioStarted,
          [.malloc 4096, .AudioUnitRender 12 512, .malloc 2048,
           .callback 5 (List.replicate 1024 0) 2048 48000 2 16 6]⟩ ∧
    2048 ≠ 48000 * 20 / 1000 * 2 * 2 ∧
    WASAPI.deliver demoWasapiStarted demoPacket []
      = some [.callback 5 (List.replicate 3528 0) 3528 48000 2 32 6] ∧
    3528 ≠ 48000 * 20 / 1000 * 2 * 2 := by
  refine ⟨?_, by decide, rfl, by decide⟩
  have hsilence : InputCallback_convertBuffer
      ((List.range (wrapUInt32 (512 * demoCoreAudioStarted.channels))).map
        (demoCoreAudioOS.AudioUnitRender
          ([] ++ [.malloc (wrapUInt32 (512 * demoCoreAudioStarted.channels) * 4)])
          demoCoreAudioStarted.audioUnit 512).2) = some (List.replicate 1024 0) := by
    have hmap : (List.range (wrapUInt32 (512 * demoCoreAudioStarted.channels))).map
        (demoCoreAudioOS.AudioUnitRender
          ([] ++ [.malloc (wrapUInt32 (512 * demoCoreAudioStarted.channels) * 4)])
          demoCoreAudioStarted.audioUnit 512).2
        = List.replicate 1024 (Float32.finite 0 0) := by
      show (List.range 1024).map (fun _ => Float32.finite 0 0) = _
      rw [List.map_const', List.length_range]
    rw [hmap]
    exact InputCallback_convertBuffer_silence 1024
  exact InputCallback_delivers demoCoreAudioOS [] demoCoreAudioStarted 512 _ rfl rfl
    (by decide) rfl hsilence

/-- C17, amended: what a chunk carries differs by backend.  Linux: the session left
by Initialize and SetCallback has `bufferSize = 3840 = 48000 * 20 / 1000 * 2 * 2`
with 16 bits per sample, the thread procedure ends once the flag is cleared, and
every invocation of the callback it makes passes that `bufferSize` with the
session's rate, channels and bits per sample.  The macOS `InputCallback` passes two
bytes for each sample rendered, `(inNumberFrames * channels mod 2^32) * 2` bytes,
with the session's rate, channels and bits per sample (48000, 2 and 16 after a
successful Initialize), and does so whenever the allocations, the render and the
conversion succeed and a callback is registered; the conversion succeeds on every
buffer that holds no NaN; on the stereo session that size is the 3840 bytes of the
20 ms chunk exactly when `inNumberFrames mod 2^31 = 960`.
Windows: every invocation of the callback passes the packet as delivered,
`numFramesAvailable * nBlockAlign mod 2^32` bytes, with the rate, channels and bits
per sample of the mix format. -/
theorem C17_chunk_size :
    (∀ (os : PulseOS) (calls : List PulseCall) (c0 : PulseAudio_Capture)
        (callback userData : Nat),
      ∃ c : PulseAudio_Capture,
        PulseAudio_Capture_SetCallback
          (PulseAudio_Capture_Initialize os calls (some c0)).capture callback userData
            = some c ∧
        c.bufferSize = 3840 ∧ c.sampleRate = 48000 ∧ c.channels = 2 ∧
        c.bitsPerSample = 16 ∧
        c.bufferSize = c.sampleRate * 20 / 1000 * c.channels * 2) ∧
    (∀ (os : PulseOS) (c : PulseAudio_Capture) (flag : Nat → Int) (n : Nat)
        (calls : List PulseCall), flag n = 0 →
      (PulseAudio.CaptureThreadProc os c flag (n + 1) calls).isSome = true) ∧
    (∀ (os : PulseOS) (c : PulseAudio_Capture) (flag : Nat → Int) (fuel : Nat)
        (calls : List PulseCall) (out : PulseOutcome),
      PulseAudio.CaptureThreadProc os c flag fuel calls = some out →
      ∃ added : List PulseCall, out.calls = calls ++ added ∧
        ∀ e ∈ added, PulseCall.isChunkOf c e) ∧
    (∀ (os : CoreAudioOS) (calls : List CoreAudioCall) (c0 : CoreAudio_Capture)
        (callback userData : Nat),
      (CoreAudio_Capture_Initialize os calls (some c0)).ret = noErr →
      ∃ c : CoreAudio_Capture,
        CoreAudio_Capture_SetCallback
          (CoreAudio_Capture_Initialize os calls (some c0)).capture callback userData
            = some c ∧
        c.sampleRate = 48000 ∧ c.channels = 2 ∧ c.bitsPerSample = 16) ∧
    (∀ (os : CoreAudioOS) (calls : List CoreAudioCall) (c : CoreAudio_Capture)
        (inNumberFrames : Nat) (out : CoreAudioOutcome),
      InputCallback os calls c inNumberFrames = some out →
      ∃ added : List CoreAudioCall, out.calls = calls ++ added ∧
        ∀ e ∈ added, CoreAudioCall.isChunkOf c inNumberFrames e) ∧
    (∀ (os : CoreAudioOS) (calls : List CoreAudioCall) (c : CoreAudio_Capture)
        (inNumberFrames : Nat) (values : List Int),
      os.malloc calls (wrapUInt32 (inNumberFrames * c.channels) * 4) = true →
      (os.AudioUnitRender
        (calls ++ [.malloc (wrapUInt32 (inNumberFrames * c.channels) * 4)])
        c.audioUnit inNumberFrames).1 = noErr →
      c.callback ≠ 0 →
      os.malloc
        (calls ++ [.malloc (wrapUInt32 (inNumberFrames * c.channels) * 4)]
          ++ [.AudioUnitRender c.audioUnit inNumberFrames])
        (wrapUInt32 (inNumberFrames * c.channels) * 2) = true →
      InputCallback_convertBuffer
        ((List.range (wrapUInt32 (inNumberFrames * c.channels))).map
          (os.AudioUnitRender
            (calls ++ [.malloc (wrapUInt32 (inNumberFrames * c.channels) * 4)])
            c.audioUnit inNumberFrames).2) = some values →
      InputCallback os calls c inNumberFrames
        = some ⟨noErr, some c,
            calls ++ [.malloc (wrapUInt32 (inNumberFrames * c.channels) * 4)]
              ++ [.AudioUnitRender c.audioUnit inNumberFrames]
              ++ [.malloc (wrapUInt32 (inNumberFrames * c.channels) * 2)]
              ++ [.callback c.callback values
                    (wrapUInt32 (inNumberFrames * c.channels) * 2) c.sampleRate
                    c.channels c.bitsPerSample c.userData]⟩) ∧
    (∀ (c : WASAPI_AudioCapture) (packet : PacketBuffer) (format : WAVEFORMATEX)
        (calls : List WasapiCall),
      packet.flags &&& AUDCLNT_BUFFERFLAGS_SILENT = 0 →
      packet.numFramesAvailable > 0 → c.callback ≠ 0 → c.mixFormat = some format →
      WASAPI.deliver c packet calls
        = some (calls ++ [.callback c.callback packet.audioData
            (wrapUInt32 (packet.numFramesAvailable * format.nBlockAlign))
            format.nSamplesPerSec format.nChannels format.wBitsPerSample
            c.userData])) ∧
    (∀ (os : WasapiOS) (c : WASAPI_AudioCapture) (flag : Nat → Int) (fuel : Nat)
        (calls : List WasapiCall) (out : WasapiOutcome),
      WASAPI.CaptureThreadProc os c flag fuel calls = .done out →
      ∃ added : List WasapiCall, out.calls = calls ++ added ∧
        ∀ e ∈ added, WasapiCall.isChunkOf c e) ∧
    (∀ inNumberFrames : Nat,
      wrapUInt32 (inNumberFrames * 2) * 2 = 3840 ↔
        inNumberFrames % 2147483648 = 960) ∧
    (∀ samples : List Float32, (∀ s ∈ samples, s ≠ Float32.nan) →
      ∃ values : List Int, InputCallback_convertBuffer samples = some values) := by
  refine ⟨?_, ?_, ?_, ?_, InputCallback_chunk, InputCallback_delivers, ?_, ?_, ?_,
    InputCallback_convertBuffer_defined⟩
  · intro os calls c0 callback userData
    rw [PulseAudio_Capture_Initialize_eq]
    exact ⟨_, rfl, rfl, rfl, rfl, rfl,
      show (3840 : Nat) = 48000 * 20 / 1000 * 2 * 2 by decide⟩
  · intro os c flag n calls hflag
    unfold PulseAudio.CaptureThreadProc
    split
    · rfl
    · have hsome := PulseAudio.captureLoop_terminates os c flag n hflag (n + 1) 0
        (calls ++ [.malloc c.bufferSize]) (Nat.zero_le n) (by omega)
      split
      · rename_i hnone
        rw [hnone] at hsome
        exact absurd hsome (by decide)
      · rfl
  · intro os c flag fuel calls out hout
    unfold PulseAudio.CaptureThreadProc at hout
    split at hout
    · simp only [Option.some.injEq] at hout
      subst hout
      exact ⟨[.malloc c.bufferSize], rfl, by simp [PulseCall.isChunkOf]⟩
    · split at hout
      · exact absurd hout (by simp)
      · rename_i log hloop
        simp only [Option.some.injEq] at hout
        subst hout
        obtain ⟨added, hlog, hall⟩ :=
          PulseAudio_captureLoop_chunks os c flag _ _ _ _ hloop
        refine ⟨[.malloc c.bufferSize] ++ added, by simp [hlog], ?_⟩
        intro e he
        simp only [List.cons_append, List.nil_append, List.mem_cons] at he
        rcases he with rfl | he
        · simp [PulseCall.isChunkOf]
        · exact hall e he
  · intro os calls c0 callback userData hret
    obtain ⟨c1, hc1, hrate, hch, hbits, _, _⟩ :=
      CoreAudio_Capture_Initialize_state os calls c0
    rw [hc1]
    exact ⟨_, rfl, hrate, hch, hbits⟩
  · intro c packet format calls hsilent hframes hcallback hformat
    unfold WASAPI.deliver
    rw [if_pos ⟨hsilent, hframes, hcallback⟩]
    simp only [hformat]
  · intro os c flag fuel calls out hout
    unfold WASAPI.CaptureThreadProc at hout
    split at hout
    · rename_i log hloop
      simp only [Run.done.injEq] at hout
      subst hout
      obtain ⟨added, hlog, hall⟩ :=
        WASAPI_captureLoop_chunks os c flag _ _ _ _ hloop
      refine ⟨[.SetThreadPriority] ++ added, by simp [hlog], ?_⟩
      intro e he
      simp only [List.cons_append, List.nil_append, List.mem_cons] at he
      rcases he with rfl | he
      · simp [WasapiCall.isChunkOf]
      · exact hall e he
    · exact absurd hout (by simp)
    · exact absurd hout (by simp)
  · intro inNumberFrames
    unfold wrapUInt32
    omega

/-- C17, witness: the amended statement applied to the Windows packet of 441
frames: the chunk handed over has 3528 bytes and 32 bits per sample. -/
theorem C17_chunk_size_witness :
    WASAPI.deliver demoWasapiStarted demoPacket []
      = some ([] ++ [.callback 5 (List.replicate 3528 0) 3528 48000 2 32 6]) :=
  C17_chunk_size.2.2.2.2.2.2.1 demoWasapiStarted demoPacket
    { nChannels := 2, nSamplesPerSec := 48000, nBlockAlign := 8, wBitsPerSample := 32 }
    [] (by decide) (by decide) (by decide) rfl

/-! ## Theorems: allocation failure in the macOS input callback -/

/-- C18: in the macOS `InputCallback`, when the allocation of the float32 render
buffer fails, nothing but that `malloc` happens: no render, no invocation of the
user callback, the session is as before and the status returned is `noErr`.  When
the render succeeded, a callback is registered and the allocation of the int16
conversion buffer fails, the user callback is not invoked either, the session is as
before and the status returned is again `noErr`. -/
theorem C18_InputCallback_allocation_failure :
    (∀ (os : CoreAudioOS) (calls : List CoreAudioCall) (c : CoreAudio_Capture)
        (inNumberFrames : Nat),
      os.malloc calls (wrapUInt32 (inNumberFrames * c.channels) * 4) = false →
      InputCallback os calls c inNumberFrames
        = some ⟨noErr, some c,
            calls ++ [.malloc (wrapUInt32 (inNumberFrames * c.channels) * 4)]⟩) ∧
    (∀ (os : CoreAudioOS) (calls : List CoreAudioCall) (c : CoreAudio_Capture)
        (inNumberFrames : Nat),
      os.malloc calls (wrapUInt32 (inNumberFrames * c.channels) * 4) = true →
      (os.AudioUnitRender
        (calls ++ [.malloc (wrapUInt32 (inNumberFrames * c.channels) * 4)])
        c.audioUnit inNumberFrames).1 = noErr →
      c.callback ≠ 0 →
      os.malloc
        (calls ++ [.malloc (wrapUInt32 (inNumberFrames * c.channels) * 4)]
          ++ [.AudioUnitRender c.audioUnit inNumberFrames])
        (wrapUInt32 (inNumberFrames * c.channels) * 2) = false →
      InputCallback os calls c inNumberFrames
        = some ⟨noErr, some c,
            calls ++ [.malloc (wrapUInt32 (inNumberFrames * c.channels) * 4)]
              ++ [.AudioUnitRender c.audioUnit inNumberFrames]
              ++ [.malloc (wrapUInt32 (inNumberFrames * c.channels) * 2)]⟩) := by
  constructor
  · intro os calls c inNumberFrames hfloat
    unfold InputCallback
    dsimp only
    rw [if_pos hfloat]
  · intro os calls c inNumberFrames hfloat hrender hcallback hint16
    have h1 : ¬ os.malloc calls (wrapUInt32 (inNumberFrames * c.channels) * 4)
        = false := by
      rw [hfloat]
      decide
    unfold InputCallback
    dsimp only
    rw [if_neg h1, if_pos ⟨hrender, hcallback⟩, if_pos hint16, hrender]

/-- C18, witness: with no memory for the second buffer, a render of 512 frames on
the capturing demo session is dropped: two allocations and the render are logged,
no callback, and the status is `noErr`. -/
theorem C18_InputCallback_allocation_failure_witness :
    InputCallback scarceMemoryOS [] demoCoreAudioStarted 512
      = some ⟨noErr, some demoCoreAudioStarted,
          [] ++ [.malloc (wrapUInt32 (512 * demoCoreAudioStarted.channels) * 4)]
            ++ [.AudioUnitRender demoCoreAudioStarted.audioUnit 512]
            ++ [.malloc (wrapUInt32 (512 * demoCoreAudioStarted.channels) * 2)]⟩ ∧
    InputCallback scarceMemoryOS [.malloc 16] demoCoreAudioStarted 512
      = some ⟨noErr, some demoCoreAudioStarted,
          [.malloc 16]
            ++ [.malloc (wrapUInt32 (512 * demoCoreAudioStarted.channels) * 4)]⟩ :=
  ⟨C18_InputCallback_allocation_failure.2 scarceMemoryOS [] demoCoreAudioStarted 512
      (by decide) (by decide) (by decide) (by decide),
   C18_InputCallback_allocation_failure.1 scarceMemoryOS [.malloc 16]
      demoCoreAudioStarted 512 (by decide)⟩

/-! ## Theorems: lifecycle of a capture session -/

/-- One Linux API call keeps the session in one of the three lifecycle states. -/
theorem PulseAudio_applyOp_lifecycle (os : PulseOS)
    (st : Option PulseAudio_Capture × List PulseCall) (op : CaptureOp)
    (h : ∃ c : PulseAudio_Capture, st.1 = some c ∧
      ((c.isInitialized = 0 ∧ c.isCapturing = 0) ∨
       (c.isInitialized = 1 ∧ c.isCapturing = 0) ∨
       (c.isInitialized = 1 ∧ c.isCapturing = 1))) :
    ∃ c : PulseAudio_Capture, (PulseAudio.applyOp os st op).1 = some c ∧
      ((c.isInitialized = 0 ∧ c.isCapturing = 0) ∨
       (c.isInitialized = 1 ∧ c.isCapturing = 0) ∨
       (c.isInitialized = 1 ∧ c.isCapturing = 1)) := by
  obtain ⟨cap, calls⟩ := st
  obtain ⟨c, hc, hstate⟩ := h
  simp only at hc
  subst hc
  cases op with
  | Initialize =>
    simp only [PulseAudio.applyOp, PulseAudio_Capture_Initialize_eq]
    by_cases h0 : os.pa_simple_new calls = 0
    · exact ⟨_, rfl, Or.inl ⟨by simp only [if_pos h0], rfl⟩⟩
    · exact ⟨_, rfl, Or.inr (Or.inl ⟨by simp only [if_neg h0], rfl⟩)⟩
  | SetCallback callback userData =>
    exact ⟨_, rfl, hstate⟩
  | Start =>
    simp only [PulseAudio.applyOp, PulseAudio_Capture_Start]
    rcases hstate with ⟨hi, hcap⟩ | ⟨hi, hcap⟩ | ⟨hi, hcap⟩
    · rw [if_pos hi]
      exact ⟨_, rfl, Or.inl ⟨hi, hcap⟩⟩
    · have hi0 : c.isInitialized ≠ 0 := by
        rw [hi]
        decide
      have hcap0 : ¬ c.isCapturing ≠ 0 := not_not.mpr hcap
      rw [if_neg hi0, if_neg hcap0]
      by_cases hres : (os.pthread_create calls c.captureThread).1 ≠ 0
      · rw [if_pos hres]
        exact ⟨_, rfl, Or.inr (Or.inl ⟨hi, rfl⟩)⟩
      · rw [if_neg hres]
        exact ⟨_, rfl, Or.inr (Or.inr ⟨hi, rfl⟩)⟩
    · have hi0 : c.isInitialized ≠ 0 := by
        rw [hi]
        decide
      have hcap0 : c.isCapturing ≠ 0 := by
        rw [hcap]
        decide
      rw [if_neg hi0, if_pos hcap0]
      exact ⟨_, rfl, Or.inr (Or.inr ⟨hi, hcap⟩)⟩
  | Stop =>
    simp only [PulseAudio.applyOp, PulseAudio_Capture_Stop]
    by_cases hcap : c.isCapturing = 0
    · rw [if_pos hcap]
      exact ⟨_, rfl, hstate⟩
    · rw [if_neg hcap]
      have hi1 : c.isInitialized = 1 := by
        rcases hstate with ⟨_, h⟩ | ⟨_, h⟩ | ⟨h, _⟩
        · exact absurd h hcap
        · exact absurd h hcap
        · exact h
      by_cases ht : c.captureThread ≠ 0
      · rw [if_pos ht]
        exact ⟨_, rfl, Or.inr (Or.inl ⟨hi1, rfl⟩)⟩
      · rw [if_neg ht]
        exact ⟨_, rfl, Or.inr (Or.inl ⟨hi1, rfl⟩)⟩
  | Cleanup =>
    simp only [PulseAudio.applyOp, PulseAudio_Capture_Cleanup_eq]
    exact ⟨_, rfl, Or.inl ⟨rfl, rfl⟩⟩

/-- One macOS API call keeps the session in one of the three lifecycle states. -/
theorem CoreAudio_applyOp_lifecycle (os : CoreAudioOS)
    (st : Option CoreAudio_Capture × List CoreAudioCall) (op : CaptureOp)
    (h : ∃ c : CoreAudio_Capture, st.1 = some c ∧
      ((c.isInitialized = 0 ∧ c.isCapturing = 0) ∨
       (c.isInitialized = 1 ∧ c.isCapturing = 0) ∨
       (c.isInitialized = 1 ∧ c.isCapturing = 1))) :
    ∃ c : CoreAudio_Capture, (CoreAudio.applyOp os st op).1 = some c ∧
      ((c.isInitialized = 0 ∧ c.isCapturing = 0) ∨
       (c.isInitialized = 1 ∧ c.isCapturing = 0) ∨
       (c.isInitialized = 1 ∧ c.isCapturing = 1)) := by
  obtain ⟨cap, calls⟩ := st
  obtain ⟨c, hc, hstate⟩ := h
  simp only at hc
  subst hc
  cases op with
  | Initialize =>
    obtain ⟨c1, hc1, _, _, _, hcap, hret⟩ :=
      CoreAudio_Capture_Initialize_state os calls c
    refine ⟨c1, hc1, ?_⟩
    rcases hret with ⟨_, hi⟩ | ⟨_, hi⟩
    · exact Or.inl ⟨hi, hcap⟩
    · exact Or.inr (Or.inl ⟨hi, hcap⟩)
  | SetCallback callback userData =>
    exact ⟨_, rfl, hstate⟩
  | Start =>
    simp only [CoreAudio.applyOp, CoreAudio_Capture_Start]
    rcases hstate with ⟨hi, hcap⟩ | ⟨hi, hcap⟩ | ⟨hi, hcap⟩
    · rw [if_pos hi]
      exact ⟨_, rfl, Or.inl ⟨hi, hcap⟩⟩
    · have hi0 : c.isInitialized ≠ 0 := by
        rw [hi]
        decide
      have hcap0 : ¬ c.isCapturing ≠ 0 := not_not.mpr hcap
      rw [if_neg hi0, if_neg hcap0]
      by_cases hres : os.AudioOutputUnitStart calls c.audioUnit ≠ noErr
      · rw [if_pos hres]
        exact ⟨_, rfl, Or.inr (Or.inl ⟨hi, hcap⟩)⟩
      · rw [if_neg hres]
        exact ⟨_, rfl, Or.inr (Or.inr ⟨hi, rfl⟩)⟩
    · have hi0 : c.isInitialized ≠ 0 := by
        rw [hi]
        decide
      have hcap0 : c.isCapturing ≠ 0 := by
        rw [hcap]
        decide
      rw [if_neg hi0, if_pos hcap0]
      exact ⟨_, rfl, Or.inr (Or.inr ⟨hi, hcap⟩)⟩
  | Stop =>
    simp only [CoreAudio.applyOp, CoreAudio_Capture_Stop]
    by_cases hcap : c.isCapturing = 0
    · rw [if_pos hcap]
      exact ⟨_, rfl, hstate⟩
    · rw [if_neg hcap]
      have hi1 : c.isInitialized = 1 := by
        rcases hstate with ⟨_, h⟩ | ⟨_, h⟩ | ⟨h, _⟩
        · exact absurd h hcap
        · exact absurd h hcap
        · exact h
      exact ⟨_, rfl, Or.inr (Or.inl ⟨hi1, rfl⟩)⟩
  | Cleanup =>
    simp only [CoreAudio.applyOp, CoreAudio_Capture_Cleanup_eq]
    exact ⟨_, rfl, Or.inl ⟨rfl, rfl⟩⟩

/-- Windows Initialize, when it returns at all, leaves a session that is not
capturing and is initialized exactly when the result is `S_OK`. -/
theorem WASAPI_AudioCapture_Initialize_state (os : WasapiOS) (calls : List WasapiCall)
    (c : WASAPI_AudioCapture) (out : WasapiOutcome)
    (hout : WASAPI_AudioCapture_Initialize os calls (some c) = some out) :
    ∃ c1 : WASAPI_AudioCapture, out.capture = some c1 ∧ c1.isCapturing = 0 ∧
      ((out.ret ≠ S_OK ∧ c1.isInitialized = 0) ∨
        (out.ret = S_OK ∧ c1.isInitialized = 1)) := by
  rw [WASAPI_AudioCapture_Initialize] at hout
  lift_lets at hout
  extract_lets r2 calls2 c2 r3 calls3 c3 r4 calls4 c4 r5 calls5 c5 hr6 calls6 r7 calls7 c7
    event calls8 c8 at hout
  have hfailed : ∀ hr : Int, FAILED hr = true → hr ≠ S_OK := by
    intro hr h heq
    rw [heq] at h
    exact absurd h (by decide)
  by_cases h1 : FAILED (os.CoInitializeEx calls) = true ∧
      os.CoInitializeEx calls ≠ RPC_E_CHANGED_MODE
  · rw [if_pos h1, Option.some.injEq] at hout
    subst hout
    exact ⟨_, rfl, rfl, Or.inl ⟨hfailed _ h1.1, rfl⟩⟩
  rw [if_neg h1] at hout
  by_cases h2 : FAILED r2.1 = true
  · rw [if_pos h2, Option.some.injEq] at hout
    subst hout
    exact ⟨_, rfl, rfl, Or.inl ⟨hfailed _ h2, rfl⟩⟩
  rw [if_neg h2] at hout
  by_cases n2 : c2.deviceEnumerator = 0
  · rw [if_pos n2] at hout
    exact absurd hout (by simp)
  rw [if_neg n2] at hout
  by_cases h3 : FAILED r3.1 = true
  · rw [if_pos h3, Option.some.injEq] at hout
    subst hout
    exact ⟨_, rfl, rfl, Or.inl ⟨hfailed _ h3, rfl⟩⟩
  rw [if_neg h3] at hout
  by_cases n3 : c3.audioDevice = 0
  · rw [if_pos n3] at hout
    exact absurd hout (by simp)
  rw [if_neg n3] at hout
  by_cases h4 : FAILED r4.1 = true
  · rw [if_pos h4, Option.some.injEq] at hout
    subst hout
    exact ⟨_, rfl, rfl, Or.inl ⟨hfailed _ h4, rfl⟩⟩
  rw [if_neg h4] at hout
  by_cases n4 : c4.audioClient = 0
  · rw [if_pos n4] at hout
    exact absurd hout (by simp)
  rw [if_neg n4] at hout
  by_cases h5 : FAILED r5.1 = true
  · rw [if_pos h5, Option.some.injEq] at hout
    subst hout
    exact ⟨_, rfl, rfl, Or.inl ⟨hfailed _ h5, rfl⟩⟩
  rw [if_neg h5] at hout
  by_cases h6 : FAILED hr6 = true
  · rw [if_pos h6, Option.some.injEq] at hout
    subst hout
    exact ⟨_, rfl, rfl, Or.inl ⟨hfailed _ h6, rfl⟩⟩
  rw [if_neg h6] at hout
  by_cases h7 : FAILED r7.1 = true
  · rw [if_pos h7, Option.some.injEq] at hout
    subst hout
    exact ⟨_, rfl, rfl, Or.inl ⟨hfailed _ h7, rfl⟩⟩
  rw [if_neg h7] at hout
  by_cases h8 : event = 0
  · rw [if_pos h8, Option.some.injEq] at hout
    subst hout
    exact ⟨_, rfl, rfl, Or.inl ⟨show E_FAIL ≠ S_OK by decide, rfl⟩⟩
  · rw [if_neg h8, Option.some.injEq] at hout
    subst hout
    exact ⟨_, rfl, rfl, Or.inr ⟨rfl, rfl⟩⟩

/-- One Windows API call, when it returns at all, keeps the session in one of the
three lifecycle states. -/
theorem WASAPI_applyOp_lifecycle (os : WasapiOS)
    (st st1 : Option WASAPI_AudioCapture × List WasapiCall) (op : CaptureOp)
    (h : ∃ c : WASAPI_AudioCapture, st.1 = some c ∧
      ((c.isInitialized = 0 ∧ c.isCapturing = 0) ∨
       (c.isInitialized = 1 ∧ c.isCapturing = 0) ∨
       (c.isInitialized = 1 ∧ c.isCapturing = 1)))
    (hstep : WASAPI.applyOp os st op = some st1) :
    ∃ c : WASAPI_AudioCapture, st1.1 = some c ∧
      ((c.isInitialized = 0 ∧ c.isCapturing = 0) ∨
       (c.isInitialized = 1 ∧ c.isCapturing = 0) ∨
       (c.isInitialized = 1 ∧ c.isCapturing = 1)) := by
  obtain ⟨cap, calls⟩ := st
  obtain ⟨c, hc, hstate⟩ := h
  simp only at hc
  subst hc
  cases op with
  | Initialize =>
    simp only [WASAPI.applyOp, Option.map_eq_some'] at hstep
    obtain ⟨out, hout, hst1⟩ := hstep
    subst hst1
    obtain ⟨c1, hc1, hcap, hret⟩ :=
      WASAPI_AudioCapture_Initialize_state os calls c out hout
    refine ⟨c1, hc1, ?_⟩
    rcases hret with ⟨_, hi⟩ | ⟨_, hi⟩
    · exact Or.inl ⟨hi, hcap⟩
    · exact Or.inr (Or.inl ⟨hi, hcap⟩)
  | SetCallback callback userData =>
    simp only [WASAPI.applyOp, Option.some.injEq] at hstep
    subst hstep
    exact ⟨_, rfl, hstate⟩
  | Start =>
    simp only [WASAPI.applyOp, Option.map_eq_some'] at hstep
    obtain ⟨out, hout, hst1⟩ := hstep
    subst hst1
    unfold WASAPI_AudioCapture_Start at hout
    dsimp only at hout
    rcases hstate with ⟨hi, hcap⟩ | ⟨hi, hcap⟩ | ⟨hi, hcap⟩
    · rw [if_pos hi, Option.some.injEq] at hout
      subst hout
      exact ⟨_, rfl, Or.inl ⟨hi, hcap⟩⟩
    · have hi0 : c.isInitialized ≠ 0 := by
        rw [hi]
        decide
      have hcap0 : ¬ c.isCapturing ≠ 0 := not_not.mpr hcap
      rw [if_neg hi0, if_neg hcap0] at hout
      split at hout
      · exact absurd hout (by simp)
      split at hout
      · simp only [Option.some.injEq] at hout
        subst hout
        exact ⟨_, rfl, Or.inr (Or.inl ⟨hi, hcap⟩)⟩
      split at hout
      · simp only [Option.some.injEq] at hout
        subst hout
        exact ⟨_, rfl, Or.inr (Or.inl ⟨hi, rfl⟩)⟩
      · simp only [Option.some.injEq] at hout
        subst hout
        exact ⟨_, rfl, Or.inr (Or.inr ⟨hi, rfl⟩)⟩
    · have hi0 : c.isInitialized ≠ 0 := by
        rw [hi]
        decide
      have hcap0 : c.isCapturing ≠ 0 := by
        rw [hcap]
        decide
      rw [if_neg hi0, if_pos hcap0, Option.some.injEq] at hout
      subst hout
      exact ⟨_, rfl, Or.inr (Or.inr ⟨hi, hcap⟩)⟩
  | Stop =>
    simp only [WASAPI.applyOp, Option.some.injEq] at hstep
    subst hstep
    unfold WASAPI_AudioCapture_Stop
    dsimp only
    by_cases hcap : c.isCapturing = 0
    · rw [if_pos hcap]
      exact ⟨_, rfl, hstate⟩
    · rw [if_neg hcap]
      have hi1 : c.isInitialized = 1 := by
        rcases hstate with ⟨_, h⟩ | ⟨_, h⟩ | ⟨h, _⟩
        · exact absurd h hcap
        · exact absurd h hcap
        · exact h
      by_cases ht : c.captureThread ≠ 0
      · rw [if_pos ht]
        exact ⟨_, rfl, Or.inr (Or.inl ⟨hi1, rfl⟩)⟩
      · rw [if_neg ht]
        exact ⟨_, rfl, Or.inr (Or.inl ⟨hi1, rfl⟩)⟩
  | Cleanup =>
    simp only [WASAPI.applyOp, Option.some.injEq] at hstep
    subst hstep
    rw [WASAPI_AudioCapture_Cleanup_eq]
    exact ⟨_, rfl, Or.inl ⟨rfl, rfl⟩⟩

/-- A defined Windows run from a state in one of the three lifecycle states ends in
one of them. -/
theorem WASAPI.runOpsFrom_lifecycle (os : WasapiOS) :
    ∀ (ops : List CaptureOp) (st st1 : Option WASAPI_AudioCapture × List WasapiCall),
      (∃ c : WASAPI_AudioCapture, st.1 = some c ∧
        ((c.isInitialized = 0 ∧ c.isCapturing = 0) ∨
         (c.isInitialized = 1 ∧ c.isCapturing = 0) ∨
         (c.isInitialized = 1 ∧ c.isCapturing = 1))) →
      WASAPI.runOpsFrom os ops st = some st1 →
      ∃ c : WASAPI_AudioCapture, st1.1 = some c ∧
        ((c.isInitialized = 0 ∧ c.isCapturing = 0) ∨
         (c.isInitialized = 1 ∧ c.isCapturing = 0) ∨
         (c.isInitialized = 1 ∧ c.isCapturing = 1)) := by
  intro ops
  induction ops with
  | nil =>
    intro st st1 h hrun
    simp only [WASAPI.runOpsFrom, Option.some.injEq] at hrun
    subst hrun
    exact h
  | cons op ops ih =>
    intro st st1 h hrun
    unfold WASAPI.runOpsFrom at hrun
    split at hrun
    · exact absurd hrun (by simp)
    · rename_i st2 hstep
      exact ih st2 st1 (WASAPI_applyOp_lifecycle os st st2 op h hstep) hrun

/-- A Linux run from a state in one of the three lifecycle states ends in one of
them. -/
theorem PulseAudio_foldl_lifecycle (os : PulseOS) :
    ∀ (ops : List CaptureOp) (st : Option PulseAudio_Capture × List PulseCall),
      (∃ c : PulseAudio_Capture, st.1 = some c ∧
        ((c.isInitialized = 0 ∧ c.isCapturing = 0) ∨
         (c.isInitialized = 1 ∧ c.isCapturing = 0) ∨
         (c.isInitialized = 1 ∧ c.isCapturing = 1))) →
      ∃ c : PulseAudio_Capture,
        (ops.foldl (PulseAudio.applyOp os) st).1 = some c ∧
        ((c.isInitialized = 0 ∧ c.isCapturing = 0) ∨
         (c.isInitialized = 1 ∧ c.isCapturing = 0) ∨
         (c.isInitialized = 1 ∧ c.isCapturing = 1)) := by
  intro ops
  induction ops with
  | nil =>
    intro st h
    exact h
  | cons op ops ih =>
    intro st h
    exact ih _ (PulseAudio_applyOp_lifecycle os st op h)

/-- A macOS run from a state in one of the three lifecycle states ends in one of
them. -/
theorem CoreAudio_foldl_lifecycle (os : CoreAudioOS) :
    ∀ (ops : List CaptureOp) (st : Option CoreAudio_Capture × List CoreAudioCall),
      (∃ c : CoreAudio_Capture, st.1 = some c ∧
        ((c.isInitialized = 0 ∧ c.isCapturing = 0) ∨
         (c.isInitialized = 1 ∧ c.isCapturing = 0) ∨
         (c.isInitialized = 1 ∧ c.isCapturing = 1))) →
      ∃ c : CoreAudio_Capture,
        (ops.foldl (CoreAudio.applyOp os) st).1 = some c ∧
        ((c.isInitialized = 0 ∧ c.isCapturing = 0) ∨
         (c.isInitialized = 1 ∧ c.isCapturing = 0) ∨
         (c.isInitialized = 1 ∧ c.isCapturing = 1)) := by
  intro ops
  induction ops with
  | nil =>
    intro st h
    exact h
  | cons op ops ih =>
    intro st h
    exact ih _ (CoreAudio_applyOp_lifecycle os st op h)

/-- C19: on every backend, whatever the native calls return, a session reached
from a zeroed one by Initialize, SetCallback, Start, Stop and Cleanup calls in any
order is in exactly one of the states Uninitialized (`isInitialized = 0`,
`isCapturing = 0`), Initialized (1, 0) or Capturing (1, 1), so `isCapturing` implies
`isInitialized`; a successful Start takes Initialized to Capturing, Stop takes
Capturing to Initialized, and Cleanup takes every state to Uninitialized.  (On
Windows a run is considered as far as no call goes through a null interface
pointer.) -/
theorem C19_lifecycle :
    (∀ (os : PulseOS) (ops : List CaptureOp),
      ∃ c : PulseAudio_Capture, (PulseAudio.runOps os ops).1 = some c ∧
        ((c.isInitialized = 0 ∧ c.isCapturing = 0) ∨
         (c.isInitialized = 1 ∧ c.isCapturing = 0) ∨
         (c.isInitialized = 1 ∧ c.isCapturing = 1))) ∧
    (∀ (os : PulseOS) (calls : List PulseCall) (c : PulseAudio_Capture),
      c.isInitialized = 1 → c.isCapturing = 0 →
      (PulseAudio_Capture_Start os calls (some c)).ret = 0 →
      ∃ c1 : PulseAudio_Capture,
        (PulseAudio_Capture_Start os calls (some c)).capture = some c1 ∧
        c1.isInitialized = 1 ∧ c1.isCapturing = 1) ∧
    (∀ (calls : List PulseCall) (c : PulseAudio_Capture),
      c.isInitialized = 1 → c.isCapturing = 1 →
      ∃ c1 : PulseAudio_Capture,
        (PulseAudio_Capture_Stop calls (some c)).1 = some c1 ∧
        c1.isInitialized = 1 ∧ c1.isCapturing = 0) ∧
    (∀ (calls : List PulseCall) (c : PulseAudio_Capture),
      ∃ c1 : PulseAudio_Capture,
        (PulseAudio_Capture_Cleanup calls (some c)).1 = some c1 ∧
        c1.isInitialized = 0 ∧ c1.isCapturing = 0) ∧
    (∀ (os : CoreAudioOS) (ops : List CaptureOp),
      ∃ c : CoreAudio_Capture, (CoreAudio.runOps os ops).1 = some c ∧
        ((c.isInitialized = 0 ∧ c.isCapturing = 0) ∨
         (c.isInitialized = 1 ∧ c.isCapturing = 0) ∨
         (c.isInitialized = 1 ∧ c.isCapturing = 1))) ∧
    (∀ (os : CoreAudioOS) (calls : List CoreAudioCall) (c : CoreAudio_Capture),
      c.isInitialized = 1 → c.isCapturing = 0 →
      (CoreAudio_Capture_Start os calls (some c)).ret = noErr →
      ∃ c1 : CoreAudio_Capture,
        (CoreAudio_Capture_Start os calls (some c)).capture = some c1 ∧
        c1.isInitialized = 1 ∧ c1.isCapturing = 1) ∧
    (∀ (calls : List CoreAudioCall) (c : CoreAudio_Capture),
      c.isInitialized = 1 → c.isCapturing = 1 →
      ∃ c1 : CoreAudio_Capture,
        (CoreAudio_Capture_Stop calls (some c)).1 = some c1 ∧
        c1.isInitialized = 1 ∧ c1.isCapturing = 0) ∧
    (∀ (calls : List CoreAudioCall) (c : CoreAudio_Capture),
      ∃ c1 : CoreAudio_Capture,
        (CoreAudio_Capture_Cleanup calls (some c)).1 = some c1 ∧
        c1.isInitialized = 0 ∧ c1.isCapturing = 0) ∧
    (∀ (os : WasapiOS) (ops : List CaptureOp)
        (st : Option WASAPI_AudioCapture × List WasapiCall),
      WASAPI.runOps os ops = some st →
      ∃ c : WASAPI_AudioCapture, st.1 = some c ∧
        ((c.isInitialized = 0 ∧ c.isCapturing = 0) ∨
         (c.isInitialized = 1 ∧ c.isCapturing = 0) ∨
         (c.isInitialized = 1 ∧ c.isCapturing = 1))) ∧
    (∀ (os : WasapiOS) (calls : List WasapiCall) (c : WASAPI_AudioCapture)
        (out : WasapiOutcome),
      c.isInitialized = 1 → c.isCapturing = 0 →
      WASAPI_AudioCapture_Start os calls (some c) = some out → out.ret = S_OK →
      ∃ c1 : WASAPI_AudioCapture,
        out.capture = some c1 ∧ c1.isInitialized = 1 ∧ c1.isCapturing = 1) ∧
    (∀ (calls : List WasapiCall) (c : WASAPI_AudioCapture),
      c.isInitialized = 1 → c.isCapturing = 1 →
      ∃ c1 : WASAPI_AudioCapture,
        (WASAPI_AudioCapture_Stop calls (some c)).1 = some c1 ∧
        c1.isInitialized = 1 ∧ c1.isCapturing = 0) ∧
    (∀ (calls : List WasapiCall) (c : WASAPI_AudioCapture),
      ∃ c1 : WASAPI_AudioCapture,
        (WASAPI_AudioCapture_Cleanup calls (some c)).1 = some c1 ∧
        c1.isInitialized = 0 ∧ c1.isCapturing = 0) := by
  have one_ne : (1 : Int) ≠ 0 := by decide
  refine ⟨?_, ?_, ?_, ?_, ?_, ?_, ?_, ?_, ?_, ?_, ?_, ?_⟩
  · intro os ops
    exact PulseAudio_foldl_lifecycle os ops _ ⟨_, rfl, Or.inl ⟨rfl, rfl⟩⟩
  · intro os calls c hi hcap hret
    have hi0 : c.isInitialized ≠ 0 := by
      rw [hi]
      exact one_ne
    have hcap0 : ¬ c.isCapturing ≠ 0 := not_not.mpr hcap
    unfold PulseAudio_Capture_Start at hret ⊢
    dsimp only at hret ⊢
    rw [if_neg hi0, if_neg hcap0] at hret ⊢
    by_cases hres : (os.pthread_create calls c.captureThread).1 ≠ 0
    · rw [if_pos hres] at hret
      exact absurd hret (show ¬ ((-1 : Int) = 0) by decide)
    · rw [if_neg hres]
      exact ⟨_, rfl, hi, rfl⟩
  · intro calls c hi hcap
    have hcap0 : ¬ c.isCapturing = 0 := by
      rw [hcap]
      exact one_ne
    unfold PulseAudio_Capture_Stop
    dsimp only
    rw [if_neg hcap0]
    by_cases ht : c.captureThread ≠ 0
    · rw [if_pos ht]
      exact ⟨_, rfl, hi, rfl⟩
    · rw [if_neg ht]
      exact ⟨_, rfl, hi, rfl⟩
  · intro calls c
    rw [PulseAudio_Capture_Cleanup_eq]
    exact ⟨_, rfl, rfl, rfl⟩
  · intro os ops
    exact CoreAudio_foldl_lifecycle os ops _ ⟨_, rfl, Or.inl ⟨rfl, rfl⟩⟩
  · intro os calls c hi hcap hret
    have hi0 : c.isInitialized ≠ 0 := by
      rw [hi]
      exact one_ne
    have hcap0 : ¬ c.isCapturing ≠ 0 := not_not.mpr hcap
    unfold CoreAudio_Capture_Start at hret ⊢
    dsimp only at hret ⊢
    rw [if_neg hi0, if_neg hcap0] at hret ⊢
    by_cases hres : os.AudioOutputUnitStart calls c.audioUnit ≠ noErr
    · rw [if_pos hres] at hret
      exact absurd hret hres
    · rw [if_neg hres]
      exact ⟨_, rfl, hi, rfl⟩
  · intro calls c hi hcap
    have hcap0 : ¬ c.isCapturing = 0 := by
      rw [hcap]
      exact one_ne
    unfold CoreAudio_Capture_Stop
    dsimp only
    rw [if_neg hcap0]
    exact ⟨_, rfl, hi, rfl⟩
  · intro calls c
    rw [CoreAudio_Capture_Cleanup_eq]
    exact ⟨_, rfl, rfl, rfl⟩
  · intro os ops st hrun
    exact WASAPI.runOpsFrom_lifecycle os ops _ st ⟨_, rfl, Or.inl ⟨rfl, rfl⟩⟩ hrun
  · intro os calls c out hi hcap hout hret
    have hi0 : c.isInitialized ≠ 0 := by
      rw [hi]
      exact one_ne
    have hcap0 : ¬ c.isCapturing ≠ 0 := not_not.mpr hcap
    unfold WASAPI_AudioCapture_Start at hout
    dsimp only at hout
    rw [if_neg hi0, if_neg hcap0] at hout
    split at hout
    · exact absurd hout (by simp)
    split at hout
    · rename_i hfailed
      simp only [Option.some.injEq] at hout
      subst hout
      rw [show (os.IAudioClient_Start calls c.audioClient) = S_OK from hret] at hfailed
      exact absurd hfailed (by decide)
    split at hout
    · simp only [Option.some.injEq] at hout
      subst hout
      exact absurd hret (show ¬ (E_FAIL = S_OK) by decide)
    · simp only [Option.some.injEq] at hout
      subst hout
      exact ⟨_, rfl, hi, rfl⟩
  · intro calls c hi hcap
    have hcap0 : ¬ c.isCapturing = 0 := by
      rw [hcap]
      exact one_ne
    unfold WASAPI_AudioCapture_Stop
    dsimp only
    rw [if_neg hcap0]
    by_cases ht : c.captureThread ≠ 0
    · rw [if_pos ht]
      exact ⟨_, rfl, hi, rfl⟩
    · rw [if_neg ht]
      exact ⟨_, rfl, hi, rfl⟩
  · intro calls c
    rw [WASAPI_AudioCapture_Cleanup_eq]
    exact ⟨_, rfl, rfl, rfl⟩

/-- C19, witness: the statement applied to the demo sessions: Start takes the
initialized Linux session to Capturing, Stop takes the capturing macOS session back
to Initialized, and the Windows run Initialize, SetCallback, Start, Stop is defined
and ends in the Initialized state. -/
theorem C19_lifecycle_witness :
    (PulseAudio_Capture_Start demoPulseOS [] (some demoPulse)).capture.map
        (fun c => (c.isInitialized, c.isCapturing)) = some (1, 1) ∧
    (CoreAudio_Capture_Stop [] (some demoCoreAudioStarted)).1.map
        (fun c => (c.isInitialized, c.isCapturing)) = some (1, 0) ∧
    (WASAPI.runOps demoWasapiOS [.Initialize, .SetCallback 5 6, .Start, .Stop]).map
        (fun st => st.1) = some (some demoWasapi) ∧
    ((demoWasapi.isInitialized = 0 ∧ demoWasapi.isCapturing = 0) ∨
     (demoWasapi.isInitialized = 1 ∧ demoWasapi.isCapturing = 0) ∨
     (demoWasapi.isInitialized = 1 ∧ demoWasapi.isCapturing = 1)) := by
  obtain ⟨c1, h1, hi1, hc1⟩ :=
    C19_lifecycle.2.1 demoPulseOS [] demoPulse rfl rfl (by decide)
  obtain ⟨c2, h2, hi2, hc2⟩ :=
    C19_lifecycle.2.2.2.2.2.2.1 [] demoCoreAudioStarted rfl rfl
  have hrun : WASAPI.runOps demoWasapiOS [.Initialize, .SetCallback 5 6, .Start, .Stop]
      = some (some demoWasapi,
          [.CoInitializeEx, .CoCreateInstance, .GetDefaultAudioEndpoint 1, .Activate 2,
           .GetMixFormat 3, .IAudioClient_Initialize 3 demoWasapi.mixFormat,
           .GetService 3, .CreateEvent, .IAudioClient_Start 3, .CreateThread,
           .SetEvent 9, .WaitForSingleObject 31, .CloseHandle 31,
           .IAudioClient_Stop 3]) := by
    decide
  obtain ⟨c3, h3, hstate⟩ :=
    C19_lifecycle.2.2.2.2.2.2.2.2.1 demoWasapiOS
      [.Initialize, .SetCallback 5 6, .Start, .Stop] _ hrun
  simp only [Option.some.injEq] at h3
  subst h3
  rw [h1, h2, hrun]
  simp only [Option.map_some', hi1, hc1, hi2, hc2, true_and]
  exact hstate

/-! ## Theorems: invariant of the encoder wrapper -/

/-- Encode never writes the wrapper. -/
theorem OpusEncoder_Encode_wrapper (lib : OpusLib) (calls : List OpusCall)
    (w : OpusEncoderWrapper) (pcm : Option (List Int)) (frameSize : Int) (output : Nat)
    (maxOutputSize : Int) :
    (OpusEncoder_Encode lib calls (some w) pcm frameSize output maxOutputSize).wrapper
      = some w := by
  unfold OpusEncoder_Encode
  dsimp only
  split
  · rfl
  · split
    · rfl
    · split
      · rfl
      · split
        · rfl
        · split <;> rfl

/-- SetBitrate writes at most the `bitrate` field. -/
theorem OpusEncoder_SetBitrate_wrapper (lib : OpusLib) (calls : List OpusCall)
    (w : OpusEncoderWrapper) (bitrate : Int) :
    (OpusEncoder_SetBitrate lib calls (some w) bitrate).wrapper = some w ∨
    (OpusEncoder_SetBitrate lib calls (some w) bitrate).wrapper
      = some { w with bitrate := bitrate } := by
  unfold OpusEncoder_SetBitrate
  dsimp only
  split
  · exact Or.inl rfl
  · split
    · exact Or.inl rfl
    · exact Or.inr rfl

/-- SetComplexity never writes the wrapper. -/
theorem OpusEncoder_SetComplexity_wrapper (lib : OpusLib) (calls : List OpusCall)
    (w : OpusEncoderWrapper) (complexity : Int) :
    (OpusEncoder_SetComplexity lib calls (some w) complexity).wrapper = some w := by
  unfold OpusEncoder_SetComplexity
  dsimp only
  split
  · rfl
  · split
    · rfl
    · split <;> rfl

/-- Initialize, from any wrapper and with any arguments and library, leaves a
wrapper that is either not initialized or initialized with a supported format and
the matching frame size. -/
theorem OpusEncoder_Initialize_invariant (lib : OpusLib) (calls : List OpusCall)
    (w0 : OpusEncoderWrapper) (sampleRate channels bitrate application : Int) :
    ∃ w : OpusEncoderWrapper,
      (OpusEncoder_Initialize lib calls (some w0) sampleRate channels bitrate
        application).wrapper = some w ∧
      (w.isInitialized = 0 ∨ w.isInitialized = 1) ∧
      (w.isInitialized = 1 →
        (w.sampleRate = 8000 ∨ w.sampleRate = 12000 ∨ w.sampleRate = 16000 ∨
          w.sampleRate = 24000 ∨ w.sampleRate = 48000) ∧
        (w.channels = 1 ∨ w.channels = 2) ∧
        w.frameSize * 1000 = w.sampleRate * 20) := by
  have zero_ne : ¬ ((0 : Int) = 1) := by decide
  unfold OpusEncoder_Initialize
  dsimp only
  split
  · exact ⟨_, rfl, Or.inl rfl, fun h => absurd h zero_ne⟩
  · split
    · exact ⟨_, rfl, Or.inl rfl, fun h => absurd h zero_ne⟩
    · split
      · exact ⟨_, rfl, Or.inl rfl, fun h => absurd h zero_ne⟩
      · rename_i hch hrate _
        have hr : sampleRate = 8000 ∨ sampleRate = 12000 ∨ sampleRate = 16000 ∨
            sampleRate = 24000 ∨ sampleRate = 48000 := by omega
        have hc : channels = 1 ∨ channels = 2 := by omega
        obtain ⟨hwrap, _, hexact⟩ := frameSize_of_supported sampleRate hr
        refine ⟨_, rfl, Or.inr rfl, fun _ => ⟨hr, hc, ?_⟩⟩
        show cDiv (wrapInt32 (sampleRate * 20)) 1000 * 1000 = sampleRate * 20
        rw [hwrap]
        exact hexact

/-- One encoder API call keeps the invariant of the wrapper. -/
theorem OpusEncoder_applyOp_invariant (lib : OpusLib)
    (st : Option OpusEncoderWrapper × List OpusCall) (op : EncoderOp)
    (h : ∃ w : OpusEncoderWrapper, st.1 = some w ∧
      (w.isInitialized = 0 ∨ w.isInitialized = 1) ∧
      (w.isInitialized = 1 →
        (w.sampleRate = 8000 ∨ w.sampleRate = 12000 ∨ w.sampleRate = 16000 ∨
          w.sampleRate = 24000 ∨ w.sampleRate = 48000) ∧
        (w.channels = 1 ∨ w.channels = 2) ∧
        w.frameSize * 1000 = w.sampleRate * 20)) :
    ∃ w : OpusEncoderWrapper, (OpusEncoder_applyOp lib st op).1 = some w ∧
      (w.isInitialized = 0 ∨ w.isInitialized = 1) ∧
      (w.isInitialized = 1 →
        (w.sampleRate = 8000 ∨ w.sampleRate = 12000 ∨ w.sampleRate = 16000 ∨
          w.sampleRate = 24000 ∨ w.sampleRate = 48000) ∧
        (w.channels = 1 ∨ w.channels = 2) ∧
        w.frameSize * 1000 = w.sampleRate * 20) := by
  obtain ⟨wrapper, calls⟩ := st
  obtain ⟨w, hw, hflag, hinv⟩ := h
  simp only at hw
  subst hw
  cases op with
  | Initialize sampleRate channels bitrate application =>
    exact OpusEncoder_Initialize_invariant lib calls w sampleRate channels bitrate
      application
  | Encode pcm frameSize output maxOutputSize =>
    exact ⟨w, OpusEncoder_Encode_wrapper lib calls w pcm frameSize output
      maxOutputSize, hflag, hinv⟩
  | SetBitrate bitrate =>
    rcases OpusEncoder_SetBitrate_wrapper lib calls w bitrate with h | h
    · exact ⟨w, h, hflag, hinv⟩
    · exact ⟨_, h, hflag, hinv⟩
  | SetComplexity complexity =>
    exact ⟨w, OpusEncoder_SetComplexity_wrapper lib calls w complexity, hflag, hinv⟩
  | GetFrameSize =>
    exact ⟨w, rfl, hflag, hinv⟩
  | Cleanup =>
    have zero_ne : ¬ ((0 : Int) = 1) := by decide
    simp only [OpusEncoder_applyOp, OpusEncoder_Cleanup]
    split
    · exact ⟨_, rfl, Or.inl rfl, fun h => absurd h zero_ne⟩
    · exact ⟨_, rfl, Or.inl rfl, fun h => absurd h zero_ne⟩

/-- A sequence of encoder API calls keeps the invariant of the wrapper. -/
theorem OpusEncoder_runOps_invariant (lib : OpusLib) :
    ∀ (ops : List EncoderOp) (st : Option OpusEncoderWrapper × List OpusCall),
      (∃ w : OpusEncoderWrapper, st.1 = some w ∧
        (w.isInitialized = 0 ∨ w.isInitialized = 1) ∧
        (w.isInitialized = 1 →
          (w.sampleRate = 8000 ∨ w.sampleRate = 12000 ∨ w.sampleRate = 16000 ∨
            w.sampleRate = 24000 ∨ w.sampleRate = 48000) ∧
          (w.channels = 1 ∨ w.channels = 2) ∧
          w.frameSize * 1000 = w.sampleRate * 20)) →
      ∃ w : OpusEncoderWrapper, (OpusEncoder_runOps lib st ops).1 = some w ∧
        (w.isInitialized = 0 ∨ w.isInitialized = 1) ∧
        (w.isInitialized = 1 →
          (w.sampleRate = 8000 ∨ w.sampleRate = 12000 ∨ w.sampleRate = 16000 ∨
            w.sampleRate = 24000 ∨ w.sampleRate = 48000) ∧
          (w.channels = 1 ∨ w.channels = 2) ∧
          w.frameSize * 1000 = w.sampleRate * 20) := by
  intro ops
  induction ops with
  | nil =>
    intro st h
    exact h
  | cons op ops ih =>
    intro st h
    exact ih _ (OpusEncoder_applyOp_invariant lib st op h)

/-- C20: whatever the codec returns, in every wrapper state reached by a sequence of
Initialize, Encode, SetBitrate, SetComplexity, GetFrameSize and Cleanup calls,
started on a wrapper with `isInitialized = 0` or started with an Initialize on any
wrapper, `isInitialized` is 0 or 1, and `isInitialized = 1` implies that
`sampleRate` is one of 8000, 12000, 16000, 24000, 48000, that `channels` is 1 or 2
and that `frameSize * 1000 = sampleRate * 20`.  Encode and SetComplexity leave the
whole wrapper as it is, SetBitrate leaves `sampleRate`, `channels` and `frameSize`
as they are, and GetFrameSize changes neither the wrapper nor the log. -/
theorem C20_encoder_invariant :
    (∀ (lib : OpusLib) (calls : List OpusCall) (w0 : OpusEncoderWrapper)
        (ops : List EncoderOp),
      w0.isInitialized = 0 →
      ∃ w : OpusEncoderWrapper,
        (OpusEncoder_runOps lib (some w0, calls) ops).1 = some w ∧
        (w.isInitialized = 0 ∨ w.isInitialized = 1) ∧
        (w.isInitialized = 1 →
          (w.sampleRate = 8000 ∨ w.sampleRate = 12000 ∨ w.sampleRate = 16000 ∨
            w.sampleRate = 24000 ∨ w.sampleRate = 48000) ∧
          (w.channels = 1 ∨ w.channels = 2) ∧
          w.frameSize * 1000 = w.sampleRate * 20)) ∧
    (∀ (lib : OpusLib) (calls : List OpusCall) (w0 : OpusEncoderWrapper)
        (sampleRate channels bitrate application : Int) (ops : List EncoderOp),
      ∃ w : OpusEncoderWrapper,
        (OpusEncoder_runOps lib (some w0, calls)
          (.Initialize sampleRate channels bitrate application :: ops)).1 = some w ∧
        (w.isInitialized = 0 ∨ w.isInitialized = 1) ∧
        (w.isInitialized = 1 →
          (w.sampleRate = 8000 ∨ w.sampleRate = 12000 ∨ w.sampleRate = 16000 ∨
            w.sampleRate = 24000 ∨ w.sampleRate = 48000) ∧
          (w.channels = 1 ∨ w.channels = 2) ∧
          w.frameSize * 1000 = w.sampleRate * 20)) ∧
    (∀ (lib : OpusLib) (calls : List OpusCall) (w : OpusEncoderWrapper)
        (pcm : Option (List Int)) (frameSize : Int) (output : Nat)
        (maxOutputSize : Int),
      (OpusEncoder_Encode lib calls (some w) pcm frameSize output
        maxOutputSize).wrapper = some w) ∧
    (∀ (lib : OpusLib) (calls : List OpusCall) (w : OpusEncoderWrapper)
        (bitrate : Int),
      ∃ w1 : OpusEncoderWrapper,
        (OpusEncoder_SetBitrate lib calls (some w) bitrate).wrapper = some w1 ∧
        w1.sampleRate = w.sampleRate ∧ w1.channels = w.channels ∧
        w1.frameSize = w.frameSize ∧ w1.isInitialized = w.isInitialized ∧
        w1.encoder = w.encoder) ∧
    (∀ (lib : OpusLib) (calls : List OpusCall) (w : OpusEncoderWrapper)
        (complexity : Int),
      (OpusEncoder_SetComplexity lib calls (some w) complexity).wrapper = some w) ∧
    (∀ (lib : OpusLib) (st : Option OpusEncoderWrapper × List OpusCall),
      OpusEncoder_applyOp lib st .GetFrameSize = st) := by
  refine ⟨?_, ?_, OpusEncoder_Encode_wrapper, ?_, OpusEncoder_SetComplexity_wrapper,
    fun _ _ => rfl⟩
  · intro lib calls w0 ops h0
    have zero_ne : ¬ ((0 : Int) = 1) := by decide
    exact OpusEncoder_runOps_invariant lib ops _
      ⟨w0, rfl, Or.inl h0, fun h => absurd (h0 ▸ h) zero_ne⟩
  · intro lib calls w0 sampleRate channels bitrate application ops
    exact OpusEncoder_runOps_invariant lib ops _
      (OpusEncoder_Initialize_invariant lib calls w0 sampleRate channels bitrate
        application)
  · intro lib calls w bitrate
    rcases OpusEncoder_SetBitrate_wrapper lib calls w bitrate with h | h
    · exact ⟨w, h, rfl, rfl, rfl, rfl, rfl⟩
    · exact ⟨_, h, rfl, rfl, rfl, rfl, rfl⟩

/-- C20, witness: the statement applied to the zeroed wrapper and the sequence
Initialize (48 kHz stereo), Encode, SetBitrate, GetFrameSize with the demo library:
the wrapper reached is initialized with 48000 Hz, 2 channels and frame size 960. -/
theorem C20_encoder_invariant_witness :
    (OpusEncoder_runOps demoLib (some OpusEncoderWrapper.zeroed, [])
        [.Initialize 48000 2 64000 2049, .Encode (some []) 960 1 4000,
         .SetBitrate 32000, .GetFrameSize]).1
      = some { demoWrapper with bitrate := 32000 } ∧
    ({ demoWrapper with bitrate := 32000 } : OpusEncoderWrapper).frameSize * 1000
      = ({ demoWrapper with bitrate := 32000 } : OpusEncoderWrapper).sampleRate * 20 := by
  have hrun : (OpusEncoder_runOps demoLib (some OpusEncoderWrapper.zeroed, [])
      [.Initialize 48000 2 64000 2049, .Encode (some []) 960 1 4000,
       .SetBitrate 32000, .GetFrameSize]).1
      = some { demoWrapper with bitrate := 32000 } := by decide
  obtain ⟨w, hw, _, hinv⟩ := C20_encoder_invariant.1 demoLib []
    OpusEncoderWrapper.zeroed
    [.Initialize 48000 2 64000 2049, .Encode (some []) 960 1 4000,
     .SetBitrate 32000, .GetFrameSize] rfl
  rw [hrun, Option.some.injEq] at hw
  subst hw
  exact ⟨hrun, (hinv rfl).2.2⟩

/-! ## Theorems: a failed Initialize of the encoder wrapper -/

/-- C22: `OpusEncoder_Initialize` zeroes the wrapper before it validates its
arguments.  For every prior wrapper state and every library, with `channels`
outside {1, 2} or `sampleRate` outside {8000, 12000, 16000, 24000, 48000}, it
returns -1 and leaves every field zero (`encoder` null, `sampleRate`, `channels`,
`bitrate`, `frameSize` and `isInitialized` 0); it makes no Opus call, so the codec
instance held before is not destroyed; and whenever the prior wrapper had a field
that was not zero, the wrapper left behind differs from it. -/
theorem C22_Initialize_failure_zeroes (lib : OpusLib) (calls : List OpusCall)
    (w : OpusEncoderWrapper) (sampleRate channels bitrate application : Int)
    (hbad : (channels ≠ 1 ∧ channels ≠ 2) ∨
      (sampleRate ≠ 8000 ∧ sampleRate ≠ 12000 ∧ sampleRate ≠ 16000 ∧
        sampleRate ≠ 24000 ∧ sampleRate ≠ 48000)) :
    OpusEncoder_Initialize lib calls (some w) sampleRate channels bitrate application
      = ⟨-1, some { encoder := 0, sampleRate := 0, channels := 0, bitrate := 0,
                    frameSize := 0, isInitialized := 0 }, calls⟩ ∧
    (OpusEncoder_Initialize lib calls (some w) sampleRate channels bitrate
      application).calls = calls ∧
    (OpusCall.opus_encoder_destroy w.encoder ∉ calls →
      OpusCall.opus_encoder_destroy w.encoder ∉
        (OpusEncoder_Initialize lib calls (some w) sampleRate channels bitrate
          application).calls) ∧
    ((w.encoder ≠ 0 ∨ w.sampleRate ≠ 0 ∨ w.channels ≠ 0 ∨ w.bitrate ≠ 0 ∨
        w.frameSize ≠ 0 ∨ w.isInitialized ≠ 0) →
      (OpusEncoder_Initialize lib calls (some w) sampleRate channels bitrate
        application).wrapper ≠ some w) := by
  have hinit : OpusEncoder_Initialize lib calls (some w) sampleRate channels bitrate
      application
      = ⟨-1, some { encoder := 0, sampleRate := 0, channels := 0, bitrate := 0,
                    frameSize := 0, isInitialized := 0 }, calls⟩ := by
    unfold OpusEncoder_Initialize
    by_cases hch : channels < 1 ∨ channels > 2
    · simp only [if_pos hch]
      rfl
    · have hrate : sampleRate ≠ 8000 ∧ sampleRate ≠ 12000 ∧ sampleRate ≠ 16000 ∧
          sampleRate ≠ 24000 ∧ sampleRate ≠ 48000 := by
        rcases hbad with h | h
        · exact absurd (by omega) hch
        · exact h
      simp only [if_neg hch, if_pos hrate]
      rfl
  rw [hinit]
  refine ⟨rfl, rfl, fun h => h, fun hne heq => ?_⟩
  simp only [Option.some.injEq] at heq
  subst heq
  simp at hne

/-- C22, witness: Initialize with three channels on the initialized wrapper that
holds the live handle 7 returns -1, leaves the zeroed wrapper, makes no call (the
handle 7 is not destroyed) and does not preserve the wrapper. -/
theorem C22_Initialize_failure_zeroes_witness :
    OpusEncoder_Initialize demoLib [] (some demoWrapper) 48000 3 64000 2049
      = ⟨-1, some { encoder := 0, sampleRate := 0, channels := 0, bitrate := 0,
                    frameSize := 0, isInitialized := 0 }, []⟩ ∧
    (OpusEncoder_Initialize demoLib [] (some demoWrapper) 48000 3 64000 2049).wrapper
      ≠ some demoWrapper :=
  ⟨(C22_Initialize_failure_zeroes demoLib [] demoWrapper 48000 3 64000 2049
      (Or.inl (by decide))).1,
   (C22_Initialize_failure_zeroes demoLib [] demoWrapper 48000 3 64000 2049
      (Or.inl (by decide))).2.2.2 (Or.inl (by decide))⟩

/-! ## Theorems: truncation and clamping of exact values -/

/-- Truncation toward zero leaves an integer as it is. -/
theorem truncate_intCast (n : Int) : truncate (n : ℚ) = n := by
  unfold truncate
  split
  · exact Int.floor_intCast n
  · exact Int.ceil_intCast n

/-- Truncation toward zero is odd. -/
theorem truncate_neg (q : ℚ) : truncate (-q) = -truncate q := by
  unfold truncate
  rcases lt_trichotomy q 0 with h | h | h
  · have h1 : (0 : ℚ) ≤ -q := by linarith
    have h2 : ¬ (0 : ℚ) ≤ q := by linarith
    rw [if_pos h1, if_neg h2, Int.floor_neg]
  · subst h
    simp
  · have h1 : ¬ (0 : ℚ) ≤ -q := by linarith
    have h2 : (0 : ℚ) ≤ q := by linarith
    rw [if_neg h1, if_pos h2, Int.ceil_neg]

/-- Truncation toward zero is monotone. -/
theorem truncate_mono (p q : ℚ) (h : p ≤ q) : truncate p ≤ truncate q := by
  unfold truncate
  by_cases hp : (0 : ℚ) ≤ p
  · have hq : (0 : ℚ) ≤ q := le_trans hp h
    rw [if_pos hp, if_pos hq]
    exact Int.floor_mono h
  · rw [if_neg hp]
    by_cases hq : (0 : ℚ) ≤ q
    · rw [if_pos hq]
      have h1 : ⌈p⌉ ≤ 0 := Int.ceil_le.mpr (by push_cast; linarith)
      have h2 : 0 ≤ ⌊q⌋ := Int.floor_nonneg.mpr hq
      exact le_trans h1 h2
    · rw [if_neg hq]
      exact Int.ceil_mono h

/-- The clamped sample lies in `[-1, 1]`. -/
theorem clamp_bounds (x : ℚ) :
    -1 ≤ max (-1) (min x 1) ∧ max (-1) (min x 1) ≤ 1 :=
  ⟨le_max_left _ _, max_le (by norm_num) (min_le_right _ _)⟩

/-- Clamping to `[-1, 1]` is odd. -/
theorem clamp_neg (x : ℚ) :
    max (-1) (min (-x) 1) = -max (-1) (min x 1) := by
  rcases lt_trichotomy x (-1) with h | h | h
  · rw [min_eq_right (by linarith : (1 : ℚ) ≤ -x), min_eq_left (by linarith : x ≤ 1),
      max_eq_right (by norm_num : (-1 : ℚ) ≤ 1), max_eq_left (by linarith : x ≤ -1)]
    norm_num
  · subst h
    norm_num
  · by_cases h1 : x ≤ 1
    · rw [min_eq_left (by linarith : -x ≤ 1), min_eq_left h1,
        max_eq_right (by linarith : (-1 : ℚ) ≤ -x),
        max_eq_right (by linarith : (-1 : ℚ) ≤ x)]
    · have h2 : 1 < x := not_le.mp h1
      rw [min_eq_left (by linarith : -x ≤ 1), min_eq_right (by linarith : (1 : ℚ) ≤ x),
        max_eq_left (by linarith : -x ≤ -1), max_eq_right (by norm_num : (-1 : ℚ) ≤ 1)]

/-- The claimed value lies in the symmetric 16-bit range. -/
theorem truncClamp_bounds (x : ℚ) : -32767 ≤ truncClamp x ∧ truncClamp x ≤ 32767 := by
  obtain ⟨hlo, hhi⟩ := clamp_bounds x
  unfold truncClamp
  constructor
  · have h := truncate_mono ((-32767 : Int) : ℚ) (32767 * max (-1) (min x 1))
      (by push_cast; linarith)
    rw [truncate_intCast] at h
    exact h
  · have h := truncate_mono (32767 * max (-1) (min x 1)) ((32767 : Int) : ℚ)
      (by push_cast; linarith)
    rw [truncate_intCast] at h
    exact h

/-! ## Theorems: rounding to binary32 -/

/-- With enough fuel the magnitude fits once the excess bits are dropped. -/
theorem Float32.excessBits_lt :
    ∀ fuel n : Nat, n < 2 ^ fuel * 16777216 →
      n < 2 ^ (Float32.excessBits fuel n) * 16777216 := by
  intro fuel
  induction fuel with
  | zero =>
    intro n h
    exact h
  | succ fuel ih =>
    intro n h
    unfold Float32.excessBits
    by_cases hn : n < 16777216
    · rw [if_pos hn]
      simpa using hn
    · rw [if_neg hn]
      have h2 : n / 2 < 2 ^ fuel * 16777216 := by
        rw [pow_succ] at h
        generalize 2 ^ fuel = p at h ⊢
        omega
      have h3 := ih (n / 2) h2
      rw [pow_succ]
      generalize 2 ^ Float32.excessBits fuel (n / 2) = p at h3 ⊢
      omega

/-- The number of excess bits `E` of a magnitude `n`: `n < 2 ^ (E + 24)`, and
`2 ^ (E + 23) ≤ n` unless `E = 0`. -/
theorem Float32.excessBits_spec (n : Nat) :
    n < 2 ^ (Float32.excessBits n n) * 16777216 ∧
    (Float32.excessBits n n = 0 ∨ 2 ^ (Float32.excessBits n n) * 8388608 ≤ n) := by
  refine ⟨Float32.excessBits_lt n n ?_, Float32.excessBits_pow_le n n⟩
  have h : n < 2 ^ n := Nat.lt_two_pow n
  omega

/-- The number of excess bits is determined by the two bounds. -/
theorem Float32.excessBits_unique (n E : Nat) (h1 : n < 2 ^ E * 16777216)
    (h2 : E = 0 ∨ 2 ^ E * 8388608 ≤ n) : Float32.excessBits n n = E := by
  obtain ⟨g1, g2⟩ := Float32.excessBits_spec n
  generalize Float32.excessBits n n = F at g1 g2
  by_contra hne
  rcases Nat.lt_or_gt_of_ne hne with hlt | hgt
  · have hp : 2 ^ (F + 1) ≤ 2 ^ E := Nat.pow_le_pow_right (by decide) hlt
    rw [pow_succ] at hp
    have hE : 2 ^ E * 8388608 ≤ n := by
      rcases h2 with h0 | h0
      · omega
      · exact h0
    generalize 2 ^ E = a at hp hE
    generalize 2 ^ F = b at hp g1
    omega
  · have hp : 2 ^ (E + 1) ≤ 2 ^ F := Nat.pow_le_pow_right (by decide) hgt
    rw [pow_succ] at hp
    have hF : 2 ^ F * 8388608 ≤ n := by
      rcases g2 with h0 | h0
      · omega
      · exact h0
    generalize 2 ^ E = a at hp h1
    generalize 2 ^ F = b at hp hF
    omega

/-- A larger magnitude has at least as many excess bits. -/
theorem Float32.excessBits_mono (n n1 : Nat) (h : n ≤ n1) :
    Float32.excessBits n n ≤ Float32.excessBits n1 n1 := by
  obtain ⟨g1, g2⟩ := Float32.excessBits_spec n
  obtain ⟨f1, f2⟩ := Float32.excessBits_spec n1
  generalize Float32.excessBits n n = E at g1 g2
  generalize Float32.excessBits n1 n1 = F at f1 f2
  by_contra hgt
  have hlt : F < E := by omega
  have hp : 2 ^ (F + 1) ≤ 2 ^ E := Nat.pow_le_pow_right (by decide) hlt
  rw [pow_succ] at hp
  have hE : 2 ^ E * 8388608 ≤ n := by
    rcases g2 with h0 | h0
    · omega
    · exact h0
  generalize 2 ^ E = a at hp hE
  generalize 2 ^ F = b at hp f1
  omega

/-- Doubling a magnitude adds one excess bit, unless the double still fits. -/
theorem Float32.excessBits_double (n : Nat) :
    Float32.excessBits (2 * n) (2 * n)
      = if 2 * n < 16777216 then 0 else Float32.excessBits n n + 1 := by
  obtain ⟨g1, g2⟩ := Float32.excessBits_spec n
  by_cases h : 2 * n < 16777216
  · rw [if_pos h]
    exact Float32.excessBits_unique (2 * n) 0 (by simpa using h) (Or.inl rfl)
  · rw [if_neg h]
    apply Float32.excessBits_unique
    · rw [pow_succ]
      generalize 2 ^ Float32.excessBits n n = a at g1
      omega
    · right
      rw [pow_succ]
      rcases g2 with h0 | h0
      · rw [h0]
        omega
      · generalize 2 ^ Float32.excessBits n n = a at h0
        omega

/-- Rounding to the nearest integer is monotone on one grid. -/
theorem Float32.roundNearestEven_mono (k n n1 : Nat) (h : n ≤ n1) :
    Float32.roundNearestEven k n ≤ Float32.roundNearestEven k n1 := by
  have hp : 0 < 2 ^ k := Nat.pos_of_ne_zero (by positivity)
  have hq : n / 2 ^ k ≤ n1 / 2 ^ k := Nat.div_le_div_right h
  have s1 : 2 ^ k * (n / 2 ^ k) + n % 2 ^ k = n := Nat.div_add_mod _ _
  have s2 : 2 ^ k * (n1 / 2 ^ k) + n1 % 2 ^ k = n1 := Nat.div_add_mod _ _
  have r1 : n % 2 ^ k < 2 ^ k := Nat.mod_lt _ hp
  have r2 : n1 % 2 ^ k < 2 ^ k := Nat.mod_lt _ hp
  unfold Float32.roundNearestEven
  rcases Nat.lt_or_ge (n / 2 ^ k) (n1 / 2 ^ k) with hlt | hge
  · split <;> split <;> omega
  · have heq : n / 2 ^ k = n1 / 2 ^ k := by omega
    rw [heq] at s1 ⊢
    generalize n1 / 2 ^ k = q at s1 s2 ⊢
    have hr : n % 2 ^ k ≤ n1 % 2 ^ k := by
      have : 2 ^ k * q + n % 2 ^ k ≤ 2 ^ k * q + n1 % 2 ^ k := by omega
      omega
    generalize n % 2 ^ k = a at hr r1 ⊢
    generalize n1 % 2 ^ k = b at hr r2 ⊢
    generalize 2 ^ k = p at *
    split <;> split <;> omega

/-- A multiple of the grid step is rounded to itself. -/
theorem Float32.roundNearestEven_mul (k c : Nat) :
    Float32.roundNearestEven k (c * 2 ^ k) = c := by
  have hp : 0 < 2 ^ k := Nat.pos_of_ne_zero (by positivity)
  unfold Float32.roundNearestEven
  rw [Nat.mul_mod_left, Nat.mul_div_cancel _ hp]
  rw [if_neg (by omega)]

/-- Rounding on the grid keeps the quotient or moves to the next integer. -/
theorem Float32.roundNearestEven_bracket (k n : Nat) :
    n / 2 ^ k ≤ Float32.roundNearestEven k n ∧
    Float32.roundNearestEven k n ≤ n / 2 ^ k + 1 := by
  unfold Float32.roundNearestEven
  split <;> omega

/-- Doubling the magnitude and dropping one more bit gives the same significand. -/
theorem Float32.roundNearestEven_double (k n : Nat) :
    Float32.roundNearestEven (k + 1) (2 * n) = Float32.roundNearestEven k n := by
  have hp : 0 < 2 ^ k := Nat.pos_of_ne_zero (by positivity)
  have hq : 2 * n / 2 ^ (k + 1) = n / 2 ^ k := by
    rw [pow_succ, Nat.mul_comm (2 ^ k) 2]
    exact Nat.mul_div_mul_left n (2 ^ k) (by decide)
  have hr : 2 * n % 2 ^ (k + 1) = 2 * (n % 2 ^ k) := by
    rw [pow_succ, Nat.mul_comm (2 ^ k) 2]
    exact Nat.mul_mod_mul_left 2 n (2 ^ k)
  unfold Float32.roundNearestEven
  rw [hq, hr, pow_succ]
  generalize n % 2 ^ k = r
  generalize n / 2 ^ k = q
  generalize 2 ^ k = p
  split <;> split <;> omega

/-- The value `(2 * n) * 2 ^ (-(d + 1))` is the value `n * 2 ^ (-d)`: it has the
same integral part after rounding. -/
theorem Float32.roundedIntegralPart_double (n d : Nat) :
    Float32.roundedIntegralPart (2 * n) (d + 1) = Float32.roundedIntegralPart n d := by
  obtain ⟨g1, g2⟩ := Float32.excessBits_spec n
  unfold Float32.roundedIntegralPart Float32.droppedBits
  rw [Float32.excessBits_double]
  by_cases hfit : 2 * n < 16777216
  · rw [if_pos hfit]
    have hE : Float32.excessBits n n = 0 := by
      rcases g2 with h0 | h0
      · exact h0
      · by_contra hne
        have hp : 2 ^ 1 ≤ 2 ^ Float32.excessBits n n :=
          Nat.pow_le_pow_right (by decide) (by omega)
        generalize 2 ^ Float32.excessBits n n = a at h0 hp
        omega
    rw [hE]
    by_cases hd : d < 149
    · have h1 : max 0 (d + 1 - 149) = 0 := by omega
      have h2 : max 0 (d - 149) = 0 := by omega
      rw [h1, h2]
      have e1 : Float32.roundNearestEven 0 (2 * n) = 2 * n := by
        simpa using Float32.roundNearestEven_mul 0 (2 * n)
      have e2 : Float32.roundNearestEven 0 n = n := by
        simpa using Float32.roundNearestEven_mul 0 n
      rw [e1, e2]
      show 2 * n / 2 ^ (d + 1) = n / 2 ^ d
      rw [pow_succ, Nat.mul_comm (2 ^ d) 2]
      exact Nat.mul_div_mul_left n (2 ^ d) (by decide)
    · have h1 : max 0 (d + 1 - 149) = max 0 (d - 149) + 1 := by omega
      rw [h1, Float32.roundNearestEven_double]
      have h3 : d + 1 - (max 0 (d - 149) + 1) = d - max 0 (d - 149) := by omega
      rw [h3]
  · rw [if_neg hfit]
    have h1 : max (Float32.excessBits n n + 1) (d + 1 - 149)
        = max (Float32.excessBits n n) (d - 149) + 1 := by omega
    rw [h1, Float32.roundNearestEven_double]
    have h3 : d + 1 - (max (Float32.excessBits n n) (d - 149) + 1)
        = d - max (Float32.excessBits n n) (d - 149) := by omega
    rw [h3]

/-- The value `(n * 2 ^ a) * 2 ^ (-(d + a))` is the value `n * 2 ^ (-d)`. -/
theorem Float32.roundedIntegralPart_scale (n d a : Nat) :
    Float32.roundedIntegralPart (n * 2 ^ a) (d + a) = Float32.roundedIntegralPart n d := by
  induction a with
  | zero => simp
  | succ a ih =>
    have h : n * 2 ^ (a + 1) = 2 * (n * 2 ^ a) := by rw [pow_succ]; ring
    rw [h, ← Nat.add_assoc, Float32.roundedIntegralPart_double, ih]

/-- A magnitude of at most `32767 * 2 ^ d` drops at most `d` bits. -/
theorem Float32.droppedBits_le (n d : Nat) (h : n ≤ 32767 * 2 ^ d) :
    Float32.droppedBits n d ≤ d := by
  have hE : Float32.excessBits n n ≤ d := by
    rcases Float32.excessBits_pow_le n n with h0 | h1
    · omega
    · by_contra hgt
      have hlt : d < Float32.excessBits n n := by omega
      have hpow : 2 ^ (d + 1) ≤ 2 ^ Float32.excessBits n n :=
        Nat.pow_le_pow_right (by decide) hlt
      rw [pow_succ] at hpow
      have hb : 0 < 2 ^ d := Nat.pos_of_ne_zero (by positivity)
      generalize 2 ^ Float32.excessBits n n = p at h1 hpow
      generalize 2 ^ d = b at h hpow hb
      omega
  unfold Float32.droppedBits
  omega

/-- For one exponent, a larger magnitude has at least as large an integral part
after rounding. -/
theorem Float32.roundedIntegralPart_mono_left (n n1 d : Nat) (h : n ≤ n1)
    (hb : n1 ≤ 32767 * 2 ^ d) :
    Float32.roundedIntegralPart n d ≤ Float32.roundedIntegralPart n1 d := by
  have hk1 : Float32.droppedBits n1 d ≤ d := Float32.droppedBits_le n1 d hb
  have hkk : Float32.droppedBits n d ≤ Float32.droppedBits n1 d := by
    have := Float32.excessBits_mono n n1 h
    unfold Float32.droppedBits
    omega
  rcases Nat.eq_or_lt_of_le hkk with heq | hlt
  · unfold Float32.roundedIntegralPart
    rw [heq]
    exact Nat.div_le_div_right (Float32.roundNearestEven_mono _ n n1 h)
  · obtain ⟨g1, _⟩ := Float32.excessBits_spec n
    obtain ⟨_, f2⟩ := Float32.excessBits_spec n1
    have hE1 : Float32.droppedBits n1 d = Float32.excessBits n1 n1 := by
      unfold Float32.droppedBits at hlt ⊢
      omega
    have hE : Float32.excessBits n n ≤ Float32.droppedBits n d := by
      unfold Float32.droppedBits
      omega
    unfold Float32.roundedIntegralPart
    generalize Float32.droppedBits n d = k at hlt hE ⊢
    generalize Float32.droppedBits n1 d = k1 at hlt hk1 hE1 ⊢
    obtain ⟨c, hc⟩ : ∃ c : Nat, k1 = k + (c + 1) := ⟨k1 - k - 1, by omega⟩
    obtain ⟨j, hj⟩ : ∃ j : Nat, d = k1 + j := ⟨d - k1, by omega⟩
    have hpivot1 : 2 ^ k1 * 8388608 ≤ n1 := by
      rcases f2 with h0 | h0
      · omega
      · rw [hE1]
        exact h0
    have hpivot : n ≤ 2 ^ (c + 1) * 8388608 * 2 ^ k := by
      have hp : 2 ^ Float32.excessBits n n ≤ 2 ^ k := Nat.pow_le_pow_right (by decide) hE
      have hp2 : 2 ^ (c + 1) = 2 ^ c * 2 := pow_succ 2 c
      have hp3 : 0 < 2 ^ c := Nat.pos_of_ne_zero (by positivity)
      have hmul : 2 ^ k * 16777216 ≤ 2 ^ c * 2 * 8388608 * 2 ^ k := by
        have : 2 ^ c * 2 * 8388608 * 2 ^ k = 2 ^ c * (2 ^ k * 16777216) := by ring
        rw [this]
        exact Nat.le_mul_of_pos_left _ hp3
      rw [hp2]
      generalize 2 ^ Float32.excessBits n n = a at g1 hp
      generalize 2 ^ c * 2 * 8388608 * 2 ^ k = X at hmul
      generalize 2 ^ k = b at hp hmul
      omega
    have hlow : Float32.roundNearestEven k n ≤ 2 ^ (c + 1) * 8388608 := by
      have := Float32.roundNearestEven_mono k n _ hpivot
      rwa [Float32.roundNearestEven_mul] at this
    have hhigh : 8388608 ≤ Float32.roundNearestEven k1 n1 := by
      have := Float32.roundNearestEven_mono k1 (8388608 * 2 ^ k1) n1
        (by rw [Nat.mul_comm]; exact hpivot1)
      rwa [Float32.roundNearestEven_mul] at this
    have hd1 : d - k1 = j := by omega
    have hd0 : d - k = (c + 1) + j := by omega
    rw [hd1, hd0]
    calc Float32.roundNearestEven k n / 2 ^ (c + 1 + j)
        ≤ 2 ^ (c + 1) * 8388608 / 2 ^ (c + 1 + j) := Nat.div_le_div_right hlow
      _ = 8388608 / 2 ^ j := by
          have hp4 : 0 < 2 ^ (c + 1) := Nat.pos_of_ne_zero (by positivity)
          have hsplit : 2 ^ (c + 1 + j) = 2 ^ (c + 1) * 2 ^ j := pow_add 2 (c + 1) j
          rw [hsplit]
          exact Nat.mul_div_mul_left 8388608 (2 ^ j) hp4
      _ ≤ Float32.roundNearestEven k1 n1 / 2 ^ j := Nat.div_le_div_right hhigh

/-- The integral part after rounding is monotone in the value `n * 2 ^ (-d)`. -/
theorem Float32.roundedIntegralPart_mono (n d n1 d1 : Nat)
    (h : n * 2 ^ d1 ≤ n1 * 2 ^ d) (hb : n1 ≤ 32767 * 2 ^ d1) :
    Float32.roundedIntegralPart n d ≤ Float32.roundedIntegralPart n1 d1 := by
  rw [← Float32.roundedIntegralPart_scale n d d1,
    ← Float32.roundedIntegralPart_scale n1 d1 d, Nat.add_comm d1 d]
  apply Float32.roundedIntegralPart_mono_left _ _ _ h
  rw [pow_add]
  calc n1 * 2 ^ d ≤ 32767 * 2 ^ d1 * 2 ^ d := Nat.mul_le_mul_right _ hb
    _ = 32767 * (2 ^ d * 2 ^ d1) := by ring

/-- The integral part after rounding is the integral part of the exact value or
the next integer. -/
theorem Float32.roundedIntegralPart_bracket (n d : Nat) (hk : Float32.droppedBits n d ≤ d) :
    n / 2 ^ d ≤ Float32.roundedIntegralPart n d ∧
    Float32.roundedIntegralPart n d ≤ n / 2 ^ d + 1 := by
  unfold Float32.roundedIntegralPart
  obtain ⟨g1, g2⟩ := Float32.roundNearestEven_bracket (Float32.droppedBits n d) n
  generalize Float32.droppedBits n d = k at hk g1 g2 ⊢
  obtain ⟨j, hj⟩ : ∃ j : Nat, d = k + j := ⟨d - k, by omega⟩
  have hd : d - k = j := by omega
  have hp : 0 < 2 ^ j := Nat.pos_of_ne_zero (by positivity)
  have hdiv : n / 2 ^ d = n / 2 ^ k / 2 ^ j := by
    rw [hj, pow_add, Nat.div_div_eq_div_mul]
  rw [hd, hdiv]
  constructor
  · exact Nat.div_le_div_right g1
  · calc Float32.roundNearestEven k n / 2 ^ j
        ≤ (n / 2 ^ k + 1) / 2 ^ j := Nat.div_le_div_right g2
      _ ≤ n / 2 ^ k / 2 ^ j + 1 := by
          rw [Nat.div_le_iff_le_mul_add_pred hp]
          have := Nat.div_add_mod (n / 2 ^ k) (2 ^ j)
          have hm := Nat.mod_lt (n / 2 ^ k) hp
          generalize n / 2 ^ k / 2 ^ j = t at this ⊢
          generalize n / 2 ^ k % 2 ^ j = r at this hm
          generalize n / 2 ^ k = q at this ⊢
          have e : 2 ^ j * (t + 1) = 2 ^ j * t + 2 ^ j := by ring
          rw [e]
          generalize 2 ^ j * t = X at this ⊢
          omega

/-- The cast to `int16_t` of a binary32 value `x * 2 ^ (-j)` whose magnitude is at
most 32767 discards the fractional part. -/
theorem Float32.toInt16_finite_eq (x : Int) (j : Nat) (hx : x.natAbs ≤ 32767 * 2 ^ j) :
    Float32.toInt16 (Float32.finite x (-(j : Int))) = some (Int.tdiv x (2 ^ j)) := by
  have hb : 0 < 2 ^ j := Nat.pos_of_ne_zero (by positivity)
  have ht : (Int.tdiv x (2 ^ j)).natAbs ≤ 32767 := by
    rw [Int.natAbs_tdiv]
    have hcast : ((2 : Int) ^ j).natAbs = 2 ^ j := by
      rw [Int.natAbs_pow]
      rfl
    rw [hcast]
    show x.natAbs / 2 ^ j ≤ 32767
    exact Nat.div_le_of_le_mul (by rw [Nat.mul_comm]; exact hx)
  unfold Float32.toInt16
  dsimp only
  by_cases hj : j = 0
  · subst hj
    have h0 : (0 : Int) ≤ -((0 : Nat) : Int) := by decide
    rw [if_pos h0]
    have hval : x * 2 ^ (-((0 : Nat) : Int)).toNat = x := by
      show x * 2 ^ 0 = x
      omega
    have hdiv : Int.tdiv x (2 ^ 0) = x := by
      show Int.tdiv x 1 = x
      exact Int.tdiv_one x
    rw [hval, hdiv]
    have hx0 : x.natAbs ≤ 32767 := by simpa using hx
    rw [if_pos (by omega)]
  · have h0 : ¬ (0 : Int) ≤ -(j : Int) := by omega
    have hexp : (-(-(j : Int))).toNat = j := by omega
    rw [if_neg h0, hexp]
    rw [if_pos (by omega)]

/-- The product of a magnitude of at most `32767 * 2 ^ d` scaled by `2 ^ (-d)`,
rounded to binary32 and cast to `int16_t`, is the integral part of the rounded
magnitude with the sign of the product. -/
theorem Float32.toInt16_round_eq (M : Int) (d : Nat) (h : M.natAbs ≤ 32767 * 2 ^ d) :
    Float32.toInt16 (Float32.round M (-(d : Int)))
      = some (if M < 0 then -((Float32.roundedIntegralPart M.natAbs d : Nat) : Int)
              else ((Float32.roundedIntegralPart M.natAbs d : Nat) : Int)) := by
  have hkd : Float32.droppedBits M.natAbs d ≤ d := Float32.droppedBits_le _ d h
  unfold Float32.roundedIntegralPart
  unfold Float32.round
  dsimp only
  have hk : (max (-(d : Int) + ((Float32.excessBits M.natAbs M.natAbs : Nat) : Int)) (-149)
      - -(d : Int)).toNat = Float32.droppedBits M.natAbs d := by
    unfold Float32.droppedBits
    omega
  have he1 : max (-(d : Int) + ((Float32.excessBits M.natAbs M.natAbs : Nat) : Int)) (-149)
      = -(((d - Float32.droppedBits M.natAbs d : Nat)) : Int) := by
    unfold Float32.droppedBits at hkd ⊢
    omega
  rw [hk, he1]
  generalize Float32.droppedBits M.natAbs d = k at hkd ⊢
  obtain ⟨j, hj⟩ : ∃ j : Nat, d = k + j := ⟨d - k, by omega⟩
  have hdj : d - k = j := by omega
  rw [hdj]
  have hexp : (128 - -(j : Int)).toNat = 128 + j := by omega
  rw [hexp]
  have hfold : (if 2 * (M.natAbs % 2 ^ k) > 2 ^ k ∨
        2 * (M.natAbs % 2 ^ k) = 2 ^ k ∧ M.natAbs / 2 ^ k % 2 = 1
      then M.natAbs / 2 ^ k + 1 else M.natAbs / 2 ^ k)
      = Float32.roundNearestEven k M.natAbs := rfl
  rw [hfold]
  have hb : 0 < 2 ^ j := Nat.pos_of_ne_zero (by positivity)
  have hq1 : Float32.roundNearestEven k M.natAbs ≤ 32767 * 2 ^ j := by
    have hle : M.natAbs ≤ 32767 * 2 ^ j * 2 ^ k := by
      rw [hj, pow_add] at h
      calc M.natAbs ≤ 32767 * (2 ^ k * 2 ^ j) := h
        _ = 32767 * 2 ^ j * 2 ^ k := by ring
    have := Float32.roundNearestEven_mono k _ _ hle
    rwa [Float32.roundNearestEven_mul] at this
  generalize Float32.roundNearestEven k M.natAbs = q1 at hq1 ⊢
  have hbig : ¬ 2 ^ (128 + j) ≤ q1 := by
    rw [pow_add]
    have h15 : 32767 * 2 ^ j < 2 ^ 128 * 2 ^ j :=
      Nat.mul_lt_mul_of_pos_right (by norm_num) hb
    omega
  rw [if_neg hbig]
  by_cases hneg : M < 0
  · rw [if_pos hneg, if_pos hneg, Float32.toInt16_finite_eq _ j
      (by rw [Int.natAbs_neg, Int.natAbs_ofNat]; exact hq1)]
    rw [Int.neg_tdiv]
    have hc : ((2 : Int) ^ j) = ((2 ^ j : Nat) : Int) := by push_cast; rfl
    rw [hc, ← Int.ofNat_tdiv]
  · rw [if_neg hneg, if_neg hneg, Float32.toInt16_finite_eq _ j
      (by rw [Int.natAbs_ofNat]; exact hq1)]
    have hc : ((2 : Int) ^ j) = ((2 ^ j : Nat) : Int) := by push_cast; rfl
    rw [hc, ← Int.ofNat_tdiv]

/-- The comparison of two finite binary32 values is the comparison of their exact
values. -/
theorem Float32.lt_finite_iff (m1 e1 m2 e2 : Int) :
    Float32.lt (Float32.finite m1 e1) (Float32.finite m2 e2) = true ↔
      (m1 : ℚ) * 2 ^ e1 < (m2 : ℚ) * 2 ^ e2 := by
  have key : ∀ (m e c : Int), c ≤ e →
      (m : ℚ) * 2 ^ e = (((m * 2 ^ (e - c).toNat : Int)) : ℚ) * 2 ^ c := by
    intro m e c hc
    have he : e = ((e - c).toNat : Int) + c := by omega
    have h2 : (2 : ℚ) ^ e = 2 ^ (e - c).toNat * 2 ^ c := by
      conv_lhs => rw [he]
      rw [zpow_add₀ (by norm_num : (2 : ℚ) ≠ 0), zpow_natCast]
    rw [h2]
    push_cast
    ring
  have hpos : (0 : ℚ) < 2 ^ (min e1 e2) := by positivity
  show decide (m1 * 2 ^ (e1 - min e1 e2).toNat < m2 * 2 ^ (e2 - min e1 e2).toNat) = true ↔ _
  rw [decide_eq_true_eq, key m1 e1 (min e1 e2) (min_le_left _ _),
    key m2 e2 (min e1 e2) (min_le_right _ _), mul_lt_mul_right hpos, Int.cast_lt]

/-- A finite sample of magnitude at most 1 is zero or has a non-positive exponent
not below its magnitude. -/
theorem Float32.finite_inRange (m e : Int)
    (h1 : ¬ (1 : ℚ) < (m : ℚ) * 2 ^ e) (h2 : ¬ (m : ℚ) * 2 ^ e < -1) :
    (m = 0) ∨ ∃ d : Nat, e = -(d : Int) ∧ m.natAbs ≤ 2 ^ d := by
  by_cases hm : m = 0
  · exact Or.inl hm
  right
  have habs : |(m : ℚ) * 2 ^ e| ≤ 1 := abs_le.mpr ⟨by linarith, by linarith⟩
  have hpos : (0 : ℚ) < 2 ^ e := by positivity
  rw [abs_mul, abs_of_pos hpos] at habs
  have hm1 : (1 : ℚ) ≤ |(m : ℚ)| := by
    have : (1 : Int) ≤ |m| := Int.one_le_abs hm
    exact_mod_cast this
  have he : e ≤ 0 := by
    by_contra hgt
    have hge : (1 : Int) ≤ e := by omega
    have h2e : (2 : ℚ) ^ (1 : Int) ≤ 2 ^ e := zpow_le_zpow_right₀ (by norm_num) hge
    have : (2 : ℚ) ≤ |(m : ℚ)| * 2 ^ e := by
      calc (2 : ℚ) = 1 * 2 ^ (1 : Int) := by norm_num
        _ ≤ |(m : ℚ)| * 2 ^ e := mul_le_mul hm1 h2e (by norm_num) (abs_nonneg _)
    linarith
  refine ⟨(-e).toNat, by omega, ?_⟩
  have hexp : (2 : ℚ) ^ e = ((2 : ℚ) ^ (-e).toNat)⁻¹ := by
    have : e = -(((-e).toNat : Nat) : Int) := by omega
    conv_lhs => rw [this]
    rw [zpow_neg, zpow_natCast]
  rw [hexp] at habs
  have hp : (0 : ℚ) < 2 ^ (-e).toNat := by positivity
  have hle : |(m : ℚ)| ≤ 2 ^ (-e).toNat := by
    have := mul_le_mul_of_nonneg_right habs (le_of_lt hp)
    rwa [mul_assoc, inv_mul_cancel₀ (ne_of_gt hp), mul_one, one_mul] at this
  have hcast : ((m.natAbs : Nat) : ℚ) = |(m : ℚ)| := by
    rw [Nat.cast_natAbs, Int.cast_abs]
  have : ((m.natAbs : Nat) : ℚ) ≤ ((2 ^ (-e).toNat : Nat) : ℚ) := by
    rw [hcast]
    push_cast
    exact hle
  exact_mod_cast this

/-! ## Theorems: the sample conversion against exact values -/

/-- The integral part of a rounded zero is zero. -/
theorem Float32.roundedIntegralPart_zero (d : Nat) : Float32.roundedIntegralPart 0 d = 0 := by
  unfold Float32.roundedIntegralPart Float32.roundNearestEven
  simp

/-- The conversion of the code on a finite binary32 sample of value `x`: 32767 when
`x > 1`, `-32767` when `x < -1`, and otherwise the integral part of the rounded
product with the sign of the sample. -/
theorem InputCallback_convertSample_finite (m e : Int) :
    ((1 : ℚ) < (m : ℚ) * 2 ^ e ∧
      InputCallback_convertSample (Float32.finite m e) = some 32767) ∨
    ((m : ℚ) * 2 ^ e < -1 ∧
      InputCallback_convertSample (Float32.finite m e) = some (-32767)) ∨
    (∃ d : Nat, (m : ℚ) * 2 ^ (-(d : Int)) = (m : ℚ) * 2 ^ e ∧ m.natAbs ≤ 2 ^ d ∧
      InputCallback_convertSample (Float32.finite m e)
        = some (convertSample_inRange m d)) := by
  by_cases hgt : Float32.gt (Float32.finite m e) Float32.one = true
  · left
    constructor
    · have := (Float32.lt_finite_iff 1 0 m e).mp hgt
      simpa using this
    · simp only [InputCallback_convertSample, hgt, if_true]
      decide
  by_cases hlt : Float32.lt (Float32.finite m e) Float32.negOne = true
  · right
    left
    constructor
    · have := (Float32.lt_finite_iff m e (-1) 0).mp hlt
      simpa using this
    · simp only [InputCallback_convertSample, hgt, hlt, Bool.false_eq_true, if_false,
        if_true]
      decide
  right
  right
  have hconv : InputCallback_convertSample (Float32.finite m e)
      = Float32.toInt16 (Float32.round (m * 32767) (e + 0)) := by
    simp only [InputCallback_convertSample, hgt, hlt, Bool.false_eq_true, if_false]
    rfl
  have h1 : ¬ (1 : ℚ) < (m : ℚ) * 2 ^ e := by
    intro h
    apply hgt
    apply (Float32.lt_finite_iff 1 0 m e).mpr
    simpa using h
  have h2 : ¬ (m : ℚ) * 2 ^ e < -1 := by
    intro h
    apply hlt
    apply (Float32.lt_finite_iff m e (-1) 0).mpr
    simpa using h
  rcases Float32.finite_inRange m e h1 h2 with hm | ⟨d, hd, hmd⟩
  · subst hm
    refine ⟨0, by simp, by simp, ?_⟩
    have hcf : convertSample_inRange 0 0 = 0 := by decide
    rw [hconv, hcf]
    by_cases he : 0 < e
    · have hexp : e + 0 = e := by omega
      rw [hexp, zero_mul, Float32.toInt16_round_zero e he]
    · obtain ⟨d, hd⟩ : ∃ d : Nat, e = -(d : Int) := ⟨(-e).toNat, by omega⟩
      subst hd
      have hexp : -(d : Int) + 0 = -(d : Int) := by omega
      rw [hexp, zero_mul, Float32.toInt16_round_eq 0 d (by simp)]
      simp [Float32.roundedIntegralPart_zero]
  · subst hd
    refine ⟨d, rfl, hmd, ?_⟩
    have hexp : -(d : Int) + 0 = -(d : Int) := by omega
    have hM : (m * 32767).natAbs = m.natAbs * 32767 := by
      rw [Int.natAbs_mul]
      rfl
    have hbound : (m * 32767).natAbs ≤ 32767 * 2 ^ d := by
      rw [hM]
      generalize 2 ^ d = b at hmd ⊢
      omega
    rw [hconv, hexp, Float32.toInt16_round_eq _ d hbound, hM]
    unfold convertSample_inRange
    by_cases hneg : m < 0
    · rw [if_pos hneg, if_pos (by omega)]
    · rw [if_neg hneg, if_neg (by omega)]

/-- The order of two values `m1 * 2 ^ (-d1)` and `m2 * 2 ^ (-d2)` over a common
denominator. -/
theorem Float32.value_le_iff (m1 m2 : Int) (d1 d2 : Nat) :
    (m1 : ℚ) * 2 ^ (-(d1 : Int)) ≤ (m2 : ℚ) * 2 ^ (-(d2 : Int)) ↔
      m1 * 2 ^ d2 ≤ m2 * 2 ^ d1 := by
  have hp1 : (0 : ℚ) < 2 ^ d1 := by positivity
  have hp2 : (0 : ℚ) < 2 ^ d2 := by positivity
  rw [zpow_neg, zpow_neg, zpow_natCast, zpow_natCast, ← div_eq_mul_inv, ← div_eq_mul_inv,
    div_le_div_iff₀ hp1 hp2]
  constructor
  · intro h
    exact_mod_cast h
  · intro h
    exact_mod_cast h

/-- The in-range conversion is monotone in the value of the sample. -/
theorem convertSample_inRange_mono (m1 m2 : Int) (d1 d2 : Nat)
    (h : (m1 : ℚ) * 2 ^ (-(d1 : Int)) ≤ (m2 : ℚ) * 2 ^ (-(d2 : Int)))
    (h1 : m1.natAbs ≤ 2 ^ d1) (h2 : m2.natAbs ≤ 2 ^ d2) :
    convertSample_inRange m1 d1 ≤ convertSample_inRange m2 d2 := by
  rw [Float32.value_le_iff] at h
  have hp1 : (0 : Int) < 2 ^ d1 := by positivity
  have hp2 : (0 : Int) < 2 ^ d2 := by positivity
  have hc1 : ((2 ^ d1 : Nat) : Int) = 2 ^ d1 := by push_cast; rfl
  have hc2 : ((2 ^ d2 : Nat) : Int) = 2 ^ d2 := by push_cast; rfl
  unfold convertSample_inRange
  by_cases hn1 : m1 < 0
  · rw [if_pos hn1]
    by_cases hn2 : m2 < 0
    · rw [if_pos hn2]
      have hnat : m2.natAbs * 32767 * 2 ^ d1 ≤ m1.natAbs * 32767 * 2 ^ d2 := by
        have e1 : (m1.natAbs : Int) = -m1 := by omega
        have e2 : (m2.natAbs : Int) = -m2 := by omega
        have : (m2.natAbs : Int) * 2 ^ d1 ≤ (m1.natAbs : Int) * 2 ^ d2 := by
          rw [e1, e2]
          linarith
        have h3 : m2.natAbs * 2 ^ d1 ≤ m1.natAbs * 2 ^ d2 := by
          rw [← hc1, ← hc2] at this
          exact_mod_cast this
        calc m2.natAbs * 32767 * 2 ^ d1 = 32767 * (m2.natAbs * 2 ^ d1) := by ring
          _ ≤ 32767 * (m1.natAbs * 2 ^ d2) := Nat.mul_le_mul_left _ h3
          _ = m1.natAbs * 32767 * 2 ^ d2 := by ring
      have hb : m1.natAbs * 32767 ≤ 32767 * 2 ^ d1 := by
        generalize 2 ^ d1 = b at h1 ⊢
        omega
      have := Float32.roundedIntegralPart_mono _ d2 _ d1 hnat hb
      omega
    · rw [if_neg hn2]
      omega
  · rw [if_neg hn1]
    by_cases hn2 : m2 < 0
    · exfalso
      have ha : 0 ≤ m1 * 2 ^ d2 := Int.mul_nonneg (by omega) (le_of_lt hp2)
      have hb : m2 * 2 ^ d1 < 0 := Int.mul_neg_of_neg_of_pos hn2 hp1
      omega
    · rw [if_neg hn2]
      have hnat : m1.natAbs * 32767 * 2 ^ d2 ≤ m2.natAbs * 32767 * 2 ^ d1 := by
        have e1 : (m1.natAbs : Int) = m1 := by omega
        have e2 : (m2.natAbs : Int) = m2 := by omega
        have : (m1.natAbs : Int) * 2 ^ d2 ≤ (m2.natAbs : Int) * 2 ^ d1 := by
          rw [e1, e2]
          exact h
        have h3 : m1.natAbs * 2 ^ d2 ≤ m2.natAbs * 2 ^ d1 := by
          rw [← hc1, ← hc2] at this
          exact_mod_cast this
        calc m1.natAbs * 32767 * 2 ^ d2 = 32767 * (m1.natAbs * 2 ^ d2) := by ring
          _ ≤ 32767 * (m2.natAbs * 2 ^ d1) := Nat.mul_le_mul_left _ h3
          _ = m2.natAbs * 32767 * 2 ^ d1 := by ring
      have hb : m2.natAbs * 32767 ≤ 32767 * 2 ^ d2 := by
        generalize 2 ^ d2 = b at h2 ⊢
        omega
      have := Float32.roundedIntegralPart_mono _ d1 _ d2 hnat hb
      omega

/-- The in-range conversion is odd. -/
theorem convertSample_inRange_neg (m : Int) (d : Nat) :
    convertSample_inRange (-m) d = -convertSample_inRange m d := by
  unfold convertSample_inRange
  rw [Int.natAbs_neg]
  rcases lt_trichotomy m 0 with h | h | h
  · rw [if_neg (by omega), if_pos h]
    omega
  · subst h
    simp [Float32.roundedIntegralPart_zero]
  · rw [if_pos (by omega), if_neg (by omega)]

/-- The in-range conversion against the exact value: it is the truncation toward
zero of `32767 * x` or the next integer away from zero. -/
theorem convertSample_inRange_bracket (m : Int) (d : Nat) (h : m.natAbs ≤ 2 ^ d) :
    (0 ≤ m →
      truncClamp ((m : ℚ) * 2 ^ (-(d : Int))) ≤ convertSample_inRange m d ∧
      convertSample_inRange m d ≤ truncClamp ((m : ℚ) * 2 ^ (-(d : Int))) + 1) ∧
    (m ≤ 0 →
      truncClamp ((m : ℚ) * 2 ^ (-(d : Int))) - 1 ≤ convertSample_inRange m d ∧
      convertSample_inRange m d ≤ truncClamp ((m : ℚ) * 2 ^ (-(d : Int)))) := by
  have hp : (0 : ℚ) < 2 ^ d := by positivity
  have hb : m.natAbs * 32767 ≤ 32767 * 2 ^ d := by
    generalize 2 ^ d = b at h ⊢
    omega
  obtain ⟨g1, g2⟩ := Float32.roundedIntegralPart_bracket (m.natAbs * 32767) d
    (Float32.droppedBits_le _ d hb)
  have habs : ((m.natAbs : Nat) : ℚ) ≤ 2 ^ d := by
    have : ((m.natAbs : Nat) : ℚ) ≤ ((2 ^ d : Nat) : ℚ) := by exact_mod_cast h
    simpa using this
  have hfloorN : ∀ N : Nat, ⌊(32767 : ℚ) * ((N : ℚ) * 2 ^ (-(d : Int)))⌋
      = ((N * 32767 / 2 ^ d : Nat) : Int) := by
    intro N
    have e : (32767 : ℚ) * ((N : ℚ) * 2 ^ (-(d : Int)))
        = (((N * 32767 : Nat) : Int) : ℚ) / ((2 ^ d : Nat) : ℚ) := by
      rw [zpow_neg, zpow_natCast]
      push_cast
      field_simp
      ring
    rw [e, Rat.floor_intCast_div_natCast]
    push_cast
    rfl
  have hfloor := hfloorN m.natAbs
  have hclampPos : ∀ y : ℚ, 0 ≤ y → y ≤ 1 → truncClamp y = ⌊32767 * y⌋ := by
    intro y h0 h1
    unfold truncClamp truncate
    rw [min_eq_left h1, max_eq_right (by linarith), if_pos (by positivity)]
  have hy0 : (0 : ℚ) ≤ (m.natAbs : ℚ) * 2 ^ (-(d : Int)) := by positivity
  have hy1 : (m.natAbs : ℚ) * 2 ^ (-(d : Int)) ≤ 1 := by
    rw [zpow_neg, zpow_natCast, ← div_eq_mul_inv, div_le_one hp]
    exact habs
  have htc := hclampPos _ hy0 hy1
  rw [hfloor] at htc
  constructor
  · intro hm
    have e1 : ((m.natAbs : Nat) : ℚ) = (m : ℚ) := by
      rw [Nat.cast_natAbs, abs_of_nonneg hm]
    rw [e1] at htc
    rw [htc]
    unfold convertSample_inRange
    rw [if_neg (by omega)]
    omega
  · intro hm
    have e1 : (m : ℚ) = -((m.natAbs : Nat) : ℚ) := by
      rw [Nat.cast_natAbs, abs_of_nonpos hm, Int.cast_neg, neg_neg]
    have hneg : truncClamp ((m : ℚ) * 2 ^ (-(d : Int)))
        = -truncClamp (((m.natAbs : Nat) : ℚ) * 2 ^ (-(d : Int))) := by
      rw [e1, neg_mul]
      unfold truncClamp
      rw [clamp_neg, mul_neg, truncate_neg]
    rw [hneg, htc]
    unfold convertSample_inRange
    rcases lt_or_eq_of_le hm with hlt | heq
    · rw [if_pos hlt]
      omega
    · subst heq
      simp [Float32.roundedIntegralPart_zero]

/-- A sample `m * 2 ^ (-d)` with `|m| ≤ 2 ^ d` has a value in `[-1, 1]`. -/
theorem Float32.value_inRange (m : Int) (d : Nat) (h : m.natAbs ≤ 2 ^ d) :
    (-1 : ℚ) ≤ (m : ℚ) * 2 ^ (-(d : Int)) ∧ (m : ℚ) * 2 ^ (-(d : Int)) ≤ 1 := by
  have hc : ((2 ^ d : Nat) : Int) = 2 ^ d := by push_cast; rfl
  have h1 := (Float32.value_le_iff (-1) m 0 d).mpr (by
    rw [← hc]
    simp only [pow_zero, mul_one]
    generalize 2 ^ d = b at h ⊢
    omega)
  have h2 := (Float32.value_le_iff m 1 d 0).mpr (by
    rw [← hc]
    simp only [pow_zero, mul_one, one_mul]
    generalize 2 ^ d = b at h ⊢
    omega)
  constructor
  · simpa using h1
  · simpa using h2

/-- The claimed value of a sample above 1 is 32767. -/
theorem truncClamp_of_gt (q : ℚ) (h : 1 < q) : truncClamp q = 32767 := by
  unfold truncClamp
  rw [min_eq_right (le_of_lt h), max_eq_right (by norm_num)]
  have e : (32767 : ℚ) * 1 = ((32767 : Int) : ℚ) := by norm_num
  rw [e, truncate_intCast]

/-- The claimed value of a sample below -1 is -32767. -/
theorem truncClamp_of_lt (q : ℚ) (h : q < -1) : truncClamp q = -32767 := by
  unfold truncClamp
  rw [min_eq_left (by linarith), max_eq_left (le_of_lt h)]
  have e : (32767 : ℚ) * -1 = ((-32767 : Int) : ℚ) := by norm_num
  rw [e, truncate_intCast]

/-- The conversion of the code is odd: the negated sample converts to the negated
value. -/
theorem InputCallback_convertSample_neg (x : Float32) (v : Int)
    (h : InputCallback_convertSample x = some v) :
    InputCallback_convertSample (Float32.neg x) = some (-v) := by
  cases x with
  | nan =>
    have hn : InputCallback_convertSample Float32.nan = none := by decide
    rw [hn] at h
    cases h
  | inf negative =>
    cases negative with
    | false =>
      have hv : InputCallback_convertSample (Float32.inf false) = some 32767 := by decide
      rw [hv, Option.some.injEq] at h
      subst h
      decide
    | true =>
      have hv : InputCallback_convertSample (Float32.inf true) = some (-32767) := by decide
      rw [hv, Option.some.injEq] at h
      subst h
      decide
  | finite m e =>
    show InputCallback_convertSample (Float32.finite (-m) e) = some (-v)
    have hcast : ((-m : Int) : ℚ) * 2 ^ e = -((m : ℚ) * 2 ^ e) := by
      push_cast
      ring
    rcases InputCallback_convertSample_finite m e with ⟨hq, hc⟩ | ⟨hq, hc⟩ | ⟨d, hval, hd, hc⟩
    · rw [hc, Option.some.injEq] at h
      subst h
      rcases InputCallback_convertSample_finite (-m) e with
        ⟨hq1, _⟩ | ⟨_, hc1⟩ | ⟨d1, hval1, hd1, _⟩
      · rw [hcast] at hq1
        linarith
      · rw [hc1]
      · have hr := Float32.value_inRange (-m) d1 hd1
        rw [hval1, hcast] at hr
        linarith [hr.1]
    · rw [hc, Option.some.injEq] at h
      subst h
      rcases InputCallback_convertSample_finite (-m) e with
        ⟨_, hc1⟩ | ⟨hq1, _⟩ | ⟨d1, hval1, hd1, _⟩
      · rw [hc1]
        rfl
      · rw [hcast] at hq1
        linarith
      · have hr := Float32.value_inRange (-m) d1 hd1
        rw [hval1, hcast] at hr
        linarith [hr.2]
    · rw [hc, Option.some.injEq] at h
      subst h
      have hr := Float32.value_inRange m d hd
      rw [hval] at hr
      rcases InputCallback_convertSample_finite (-m) e with
        ⟨hq1, _⟩ | ⟨hq1, _⟩ | ⟨d1, hval1, hd1, hc1⟩
      · rw [hcast] at hq1
        linarith [hr.1]
      · rw [hcast] at hq1
        linarith [hr.2]
      · rw [hc1, ← convertSample_inRange_neg]
        have hdneg : (-m).natAbs ≤ 2 ^ d := by rw [Int.natAbs_neg]; exact hd
        have hsame : ((-m : Int) : ℚ) * 2 ^ (-(d1 : Int))
            = ((-m : Int) : ℚ) * 2 ^ (-(d : Int)) := by
          rw [hval1, hcast, ← hval]
          push_cast
          ring
        have le1 := convertSample_inRange_mono (-m) (-m) d1 d (le_of_eq hsame) hd1 hdneg
        have le2 := convertSample_inRange_mono (-m) (-m) d d1 (le_of_eq hsame.symm)
          hdneg hd1
        rw [le_antisymm le1 le2]

/-- The conversion of the code is monotone: of two samples, the one that is not the
greater converts to a value that is not the greater. -/
theorem InputCallback_convertSample_mono (x y : Float32) (v w : Int)
    (hxy : Float32.lt y x = false)
    (hv : InputCallback_convertSample x = some v)
    (hw : InputCallback_convertSample y = some w) : v ≤ w := by
  have hxn : x ≠ Float32.nan := by
    intro hx
    subst hx
    have hn : InputCallback_convertSample Float32.nan = none := by decide
    rw [hn] at hv
    cases hv
  have hyn : y ≠ Float32.nan := by
    intro hy
    subst hy
    have hn : InputCallback_convertSample Float32.nan = none := by decide
    rw [hn] at hw
    cases hw
  obtain ⟨v1, hv1, hvlo, hvhi⟩ := InputCallback_convertSample_bounds x hxn
  obtain ⟨w1, hw1, hwlo, hwhi⟩ := InputCallback_convertSample_bounds y hyn
  rw [hv, Option.some.injEq] at hv1
  rw [hw, Option.some.injEq] at hw1
  subst hv1
  subst hw1
  cases x with
  | nan => exact absurd rfl hxn
  | inf s =>
    cases s with
    | true =>
      have h1 : InputCallback_convertSample (Float32.inf true) = some (-32767) := by decide
      rw [h1, Option.some.injEq] at hv
      omega
    | false =>
      cases y with
      | nan => exact absurd rfl hyn
      | inf t =>
        cases t with
        | true => exact absurd hxy (by decide)
        | false =>
          have h1 : InputCallback_convertSample (Float32.inf false) = some 32767 := by
            decide
          rw [h1, Option.some.injEq] at hv hw
          omega
      | finite m e => exact absurd hxy (by simp [Float32.lt])
  | finite m1 e1 =>
    cases y with
    | nan => exact absurd rfl hyn
    | inf t =>
      cases t with
      | true => exact absurd hxy (by simp [Float32.lt])
      | false =>
        have h1 : InputCallback_convertSample (Float32.inf false) = some 32767 := by decide
        rw [h1, Option.some.injEq] at hw
        omega
    | finite m2 e2 =>
      have hle : (m1 : ℚ) * 2 ^ e1 ≤ (m2 : ℚ) * 2 ^ e2 := by
        by_contra hnot
        have hlt : (m2 : ℚ) * 2 ^ e2 < (m1 : ℚ) * 2 ^ e1 := not_le.mp hnot
        have := (Float32.lt_finite_iff m2 e2 m1 e1).mpr hlt
        rw [hxy] at this
        exact absurd this (by decide)
      rcases InputCallback_convertSample_finite m1 e1 with
        ⟨hq1, hc1⟩ | ⟨hq1, hc1⟩ | ⟨d1, hval1, hd1, hc1⟩
      · rcases InputCallback_convertSample_finite m2 e2 with
          ⟨hq2, hc2⟩ | ⟨hq2, hc2⟩ | ⟨d2, hval2, hd2, hc2⟩
        · rw [hc1, Option.some.injEq] at hv
          rw [hc2, Option.some.injEq] at hw
          omega
        · linarith
        · have hr := Float32.value_inRange m2 d2 hd2
          rw [hval2] at hr
          linarith [hr.2]
      · rw [hc1, Option.some.injEq] at hv
        omega
      · rcases InputCallback_convertSample_finite m2 e2 with
          ⟨hq2, hc2⟩ | ⟨hq2, hc2⟩ | ⟨d2, hval2, hd2, hc2⟩
        · rw [hc2, Option.some.injEq] at hw
          omega
        · have hr := Float32.value_inRange m1 d1 hd1
          rw [hval1] at hr
          linarith [hr.1]
        · rw [hc1, Option.some.injEq] at hv
          rw [hc2, Option.some.injEq] at hw
          subst hv
          subst hw
          apply convertSample_inRange_mono m1 m2 d1 d2 _ hd1 hd2
          rw [hval1, hval2]
          exact hle

/-- The conversion of the code against the exact value `x` of a finite sample: the
result is the truncation toward zero of `32767 * clamp(x, -1, 1)` or the next
integer away from zero. -/
theorem InputCallback_convertSample_bracket (m e : Int) (v : Int)
    (h : InputCallback_convertSample (Float32.finite m e) = some v) :
    (0 ≤ m → truncClamp ((m : ℚ) * 2 ^ e) ≤ v ∧ v ≤ truncClamp ((m : ℚ) * 2 ^ e) + 1) ∧
    (m ≤ 0 → truncClamp ((m : ℚ) * 2 ^ e) - 1 ≤ v ∧ v ≤ truncClamp ((m : ℚ) * 2 ^ e)) := by
  have hpos : (0 : ℚ) < 2 ^ e := by positivity
  rcases InputCallback_convertSample_finite m e with ⟨hq, hc⟩ | ⟨hq, hc⟩ | ⟨d, hval, hd, hc⟩
  · rw [hc, Option.some.injEq] at h
    subst h
    rw [truncClamp_of_gt _ hq]
    refine ⟨fun _ => ⟨by decide, by decide⟩, fun hm => ?_⟩
    have hm0 : (m : ℚ) ≤ 0 := by exact_mod_cast hm
    have : (m : ℚ) * 2 ^ e ≤ 0 := mul_nonpos_of_nonpos_of_nonneg hm0 (le_of_lt hpos)
    linarith
  · rw [hc, Option.some.injEq] at h
    subst h
    rw [truncClamp_of_lt _ hq]
    refine ⟨fun hm => ?_, fun _ => ⟨by decide, by decide⟩⟩
    have hm0 : (0 : ℚ) ≤ (m : ℚ) := by exact_mod_cast hm
    have : (0 : ℚ) ≤ (m : ℚ) * 2 ^ e := mul_nonneg hm0 (le_of_lt hpos)
    linarith
  · rw [hc, Option.some.injEq] at h
    subst h
    rw [← hval]
    exact convertSample_inRange_bracket m d hd

/-- The conversion of the code against the exact value of the sample, for every
sample that has one. -/
theorem InputCallback_convertSample_exact (x : Float32) (q : ℚ) (v : Int)
    (hq : Float32.value x = some q) (h : InputCallback_convertSample x = some v) :
    (0 ≤ q → truncClamp q ≤ v ∧ v ≤ truncClamp q + 1) ∧
    (q ≤ 0 → truncClamp q - 1 ≤ v ∧ v ≤ truncClamp q) := by
  cases x with
  | nan => cases hq
  | inf negative => cases hq
  | finite m e =>
    have hval : (m : ℚ) * 2 ^ e = q := by
      simpa [Float32.value] using hq
    have hpos : (0 : ℚ) < 2 ^ e := by positivity
    obtain ⟨b1, b2⟩ := InputCallback_convertSample_bracket m e v h
    rw [hval] at b1 b2
    constructor
    · intro h0
      apply b1
      by_contra hneg
      have hm : (m : ℚ) < 0 := by exact_mod_cast not_le.mp hneg
      have : (m : ℚ) * 2 ^ e < 0 := mul_neg_of_neg_of_pos hm hpos
      linarith
    · intro h0
      apply b2
      by_contra hneg
      have hm : (0 : ℚ) < (m : ℚ) := by exact_mod_cast not_le.mp hneg
      have : (0 : ℚ) < (m : ℚ) * 2 ^ e := mul_pos hm hpos
      linarith

/-- The conversion of the code is monotone in the exact value of the sample. -/
theorem InputCallback_convertSample_mono_value (x y : Float32) (p q : ℚ) (v w : Int)
    (hp : Float32.value x = some p) (hq : Float32.value y = some q) (hpq : p ≤ q)
    (hv : InputCallback_convertSample x = some v)
    (hw : InputCallback_convertSample y = some w) : v ≤ w := by
  cases x with
  | nan => cases hp
  | inf negative => cases hp
  | finite m1 e1 =>
    cases y with
    | nan => cases hq
    | inf negative => cases hq
    | finite m2 e2 =>
      have hval1 : (m1 : ℚ) * 2 ^ e1 = p := by
        simpa [Float32.value] using hp
      have hval2 : (m2 : ℚ) * 2 ^ e2 = q := by
        simpa [Float32.value] using hq
      apply InputCallback_convertSample_mono _ _ v w _ hv hw
      cases hlt : Float32.lt (Float32.finite m2 e2) (Float32.finite m1 e1) with
      | false => rfl
      | true =>
        have := (Float32.lt_finite_iff m2 e2 m1 e1).mp hlt
        rw [hval1, hval2] at this
        linarith

/-- The conversion loop of the code converts sample by sample, in order: the value
at each index is the conversion of the sample at that index. -/
theorem InputCallback_convertBuffer_getElem :
    ∀ (samples : List Float32) (values : List Int),
      InputCallback_convertBuffer samples = some values →
      ∀ i : Nat, values[i]? = (samples[i]?).bind InputCallback_convertSample := by
  intro samples
  induction samples with
  | nil =>
    intro values h i
    simp only [InputCallback_convertBuffer, Option.some.injEq] at h
    subst h
    simp
  | cons sample rest ih =>
    intro values h i
    unfold InputCallback_convertBuffer at h
    split at h
    · rename_i v vs hv hrest
      simp only [Option.some.injEq] at h
      subst h
      cases i with
      | zero => simp [hv]
      | succ j =>
        simp only [List.getElem?_cons_succ]
        exact ih vs hrest j
    · exact absurd h (by simp)

/-- C21, counterexample: the binary32 sample `2 ^ (-15) + 2 ^ (-30)` has the exact
product `1 - 2 ^ (-30)` with 32767, whose truncation toward zero is 0, but the
binary32 product rounds to `1.0` and the code yields 1.  And a render of `2 ^ 31`
frames on the stereo session gives a sample count of `2 ^ 31 * 2` wrapped to 32
bits, which is 0: the chunk handed to the callback is empty and its byte length is
0, not `inNumberFrames * channels` samples. -/
theorem C21_convertSample_counterexample :
    Float32.value (Float32.finite 8388864 (-38)) = some (8388864 / 274877906944) ∧
    truncClamp (8388864 / 274877906944) = 0 ∧
    InputCallback_convertSample (Float32.finite 8388864 (-38)) = some 1 ∧
    InputCallback demoCoreAudioOS [] demoCoreAudioStarted 2147483648
      = some ⟨0, some demoCoreAudioStarted,
          [.malloc 0, .AudioUnitRender 12 2147483648, .malloc 0,
           .callback 5 [] 0 48000 2 16 6]⟩ ∧
    ([] : List Int).length ≠ 2147483648 * demoCoreAudioStarted.channels := by
  refine ⟨?_, ?_, by decide, by decide, by decide⟩
  · unfold Float32.value
    norm_num
  · unfold truncClamp truncate
    have hmin : min (8388864 / 274877906944 : ℚ) 1 = 8388864 / 274877906944 :=
      min_eq_left (by norm_num)
    have hmax : max (-1 : ℚ) (8388864 / 274877906944) = 8388864 / 274877906944 :=
      max_eq_right (by norm_num)
    rw [hmin, hmax, if_pos (by norm_num)]
    rw [Int.floor_eq_iff]
    constructor <;> norm_num

/-- C21, amended: the per-sample conversion of the macOS `InputCallback` works in
binary32 arithmetic.  For every binary32 sample that is not a NaN it is defined and
its result `v` satisfies `-32767 ≤ v ≤ 32767`.  For a finite sample of exact value
`x`, `v` is the truncation toward zero of `32767 * clamp(x, -1, 1)` or the next
integer away from zero (the binary32 product is rounded to nearest before the
cast).  The negated sample converts to `-v`, and the conversion is monotone
non-decreasing, in the exact value of finite samples and in the binary32 order of
all samples that are not a NaN.  The conversion loop converts sample `i` to value
`i`, in order, one value per sample.  The chunk handed to the callback has `N`
samples and `2 * N` bytes, where `N` is `inNumberFrames * channels` computed in
`UInt32` arithmetic, which is `inNumberFrames * channels` whenever that product is
below `2 ^ 32`. -/
theorem C21_convertSample :
    (∀ x : Float32, x ≠ Float32.nan →
      ∃ v : Int, InputCallback_convertSample x = some v ∧ -32767 ≤ v ∧ v ≤ 32767) ∧
    (∀ (x : Float32) (q : ℚ) (v : Int), Float32.value x = some q →
      InputCallback_convertSample x = some v →
      (0 ≤ q → truncClamp q ≤ v ∧ v ≤ truncClamp q + 1) ∧
      (q ≤ 0 → truncClamp q - 1 ≤ v ∧ v ≤ truncClamp q)) ∧
    (∀ (x : Float32) (v : Int), InputCallback_convertSample x = some v →
      InputCallback_convertSample (Float32.neg x) = some (-v)) ∧
    (∀ (x y : Float32) (p q : ℚ) (v w : Int),
      Float32.value x = some p → Float32.value y = some q → p ≤ q →
      InputCallback_convertSample x = some v →
      InputCallback_convertSample y = some w → v ≤ w) ∧
    (∀ (x y : Float32) (v w : Int), Float32.lt y x = false →
      InputCallback_convertSample x = some v →
      InputCallback_convertSample y = some w → v ≤ w) ∧
    (∀ (samples : List Float32) (values : List Int),
      InputCallback_convertBuffer samples = some values →
      values.length = samples.length ∧
      ∀ i : Nat, values[i]? = (samples[i]?).bind InputCallback_convertSample) ∧
    (∀ (os : CoreAudioOS) (calls : List CoreAudioCall) (c : CoreAudio_Capture)
        (inNumberFrames : Nat) (out : CoreAudioOutcome),
      InputCallback os calls c inNumberFrames = some out →
      ∃ added : List CoreAudioCall, out.calls = calls ++ added ∧
        ∀ e ∈ added, CoreAudioCall.isChunkOf c inNumberFrames e) ∧
    (∀ inNumberFrames channels : Nat, inNumberFrames * channels < 4294967296 →
      wrapUInt32 (inNumberFrames * channels) = inNumberFrames * channels) := by
  refine ⟨InputCallback_convertSample_bounds, InputCallback_convertSample_exact,
    InputCallback_convertSample_neg, InputCallback_convertSample_mono_value,
    InputCallback_convertSample_mono, ?_, InputCallback_chunk, ?_⟩
  · intro samples values h
    exact ⟨InputCallback_convertBuffer_length samples values h,
      InputCallback_convertBuffer_getElem samples values h⟩
  · intro inNumberFrames channels h
    exact Nat.mod_eq_of_lt h

/-- C21, witness: the statement applied to the samples `1/2` and `3/4`, which
convert to 16383 and 24575, to the sample `2 ^ (-15) + 2 ^ (-30)`, which converts to
one more than the truncation of its exact product, to positive infinity, to a buffer
of two samples and to a render of 512 stereo frames, whose sample count does not
wrap. -/
theorem C21_convertSample_witness :
    (∃ v : Int, InputCallback_convertSample (Float32.inf false) = some v ∧
      -32767 ≤ v ∧ v ≤ 32767) ∧
    (truncClamp (8388864 / 274877906944) ≤ 1 ∧
      1 ≤ truncClamp (8388864 / 274877906944) + 1) ∧
    InputCallback_convertSample (Float32.neg (Float32.finite 1 (-1))) = some (-16383) ∧
    (InputCallback_convertSample (Float32.finite 1 (-1)) = some 16383 ∧
      InputCallback_convertSample (Float32.finite 3 (-2)) = some 24575 ∧
      (16383 : Int) ≤ 24575) ∧
    (InputCallback_convertSample (Float32.inf true) = some (-32767) ∧
      InputCallback_convertSample (Float32.finite 3 (-2)) = some 24575 ∧
      (-32767 : Int) ≤ 24575) ∧
    (([16383, -24575] : List Int).length
        = [Float32.finite 1 (-1), Float32.finite (-3) (-2)].length) ∧
    wrapUInt32 (512 * 2) = 512 * 2 :=
  ⟨C21_convertSample.1 (Float32.inf false) (fun h => Float32.noConfusion h),
   (C21_convertSample.2.1 (Float32.finite 8388864 (-38)) (8388864 / 274877906944) 1
      (by unfold Float32.value; norm_num) (by decide)).1 (by norm_num),
   C21_convertSample.2.2.1 (Float32.finite 1 (-1)) 16383 (by decide),
   ⟨by decide, by decide,
    C21_convertSample.2.2.2.1 (Float32.finite 1 (-1)) (Float32.finite 3 (-2))
      (1 / 2) (3 / 4) 16383 24575 (by unfold Float32.value; norm_num)
      (by unfold Float32.value; norm_num) (by norm_num) (by decide) (by decide)⟩,
   ⟨by decide, by decide,
    C21_convertSample.2.2.2.2.1 (Float32.inf true) (Float32.finite 3 (-2))
      (-32767) 24575 (by decide) (by decide) (by decide)⟩,
   (C21_convertSample.2.2.2.2.2.1 [Float32.finite 1 (-1), Float32.finite (-3) (-2)]
      [16383, -24575] (by decide)).1,
   C21_convertSample.2.2.2.2.2.2.2 512 2 (by decide)⟩

end AudioCapture
